import Mathlib

/-! gmm2json: the chunk decoder of `gmm_file.c`

A shallow embedding of the decoder of Gridmonger map files (`src/gmm_file.c`,
`src/defs.h`, `src/defs.c`, `src/gmm_file.h`) and theorems about it.

Conventions of the embedding

* The input buffer is a list of bytes `mem : List Nat`; a pointer into it is an
  offset.  A read at an offset outside the buffer is undefined behaviour in C
  and is the outcome `Res.undefined` here.
* `struct DecodingCursor` holds pointers to a shared read position and to a
  chain of remaining lengths.  The pointed-to variables are the fields of
  `State`: `data` (the read position), `len` (the cursor's own remaining
  length) and `parents` (the remaining lengths of the ancestors, nearest
  first).  The global `last_error` is a field of `State` too.
* `size_t` and `long` are 64 bits wide, `unsigned int` is 32 bits wide, `int`
  is 32 bits wide.  Unsigned arithmetic wraps (`subW`, `addW`, `subW32`).
* `malloc` and `realloc` always succeed.
* `exit(EXIT_FAILURE)` is the outcome `Res.exit e`, where `e` is the value of
  `last_error` at that moment.
* The chunk loop of `_decode_chunks` is given fuel: one unit for each loop
  iteration and each level of nesting.  `Res.timeout` says the fuel ran out.
-/

namespace Gmm

/-! ## Constants of `defs.c` -/

def RES_OK : Int := 0
def RES_ERR : Int := -1
def RES_BUFFER_TOO_SMALL : Int := -2
def RES_BAD_INPUT : Int := -3

/-- The number of values of `size_t` (64 bits). -/
def SIZE_MOD : Nat := 18446744073709551616

/-- The number of values of `uint32`. -/
def U32_MOD : Nat := 4294967296

/-- The largest `int` (32 bits). -/
def INT_MAX : Nat := 2147483647

/-- Subtraction of `size_t` values, for `a` and `b` below `2^64`: `a - b`, or
`a + 2^64 - b` when it wraps around. -/
def subW (a b : Nat) : Nat := if b ≤ a then a - b else a + SIZE_MOD - b

/-- Addition of `size_t` values, for `a` and `b` below `2^64`: `a + b`, or
`a + b - 2^64` when it wraps around. -/
def addW (a b : Nat) : Nat := if a + b < SIZE_MOD then a + b else a + b - SIZE_MOD

/-- Subtraction of `unsigned int` values, for `a` and `b` below `2^32`:
`a - b`, or `a + 2^32 - b` when it wraps around. -/
def subW32 (a b : Nat) : Nat := if b ≤ a then a - b else a + U32_MOD - b

/-! ## State and outcomes -/

/-- The variables a `struct DecodingCursor` points to, and `last_error`. -/
structure State where
  data : Nat
  len : Nat
  parents : List Nat
  last_error : Int
deriving DecidableEq, Repr

/-- The outcome of running a function of the decoder. -/
inductive Res (α : Type) where
  | ok (val : α) (st : State)
  | exit (err : Int)
  | undefined
  | timeout
deriving Repr

/-- Sequencing: the continuation runs on a normal return only. -/
def Res.bind {α β : Type} (r : Res α) (f : α → State → Res β) : Res β :=
  match r with
  | .ok a s => f a s
  | .exit e => .exit e
  | .undefined => .undefined
  | .timeout => .timeout

/-- The macro `PROPAGATEERR()` jumps to `onpropagate` when this holds. -/
def propagates (s : State) : Bool := decide (s.last_error < 0)

/-- The assignment the macro `CHECKERR` makes before it jumps to `onerror`. -/
def checkerr_code (e : Int) : Int := if e = RES_OK then RES_ERR else e

/-! ## Reading the buffer -/

def rd8 (mem : List Nat) (p : Nat) : Option Nat := mem[p]?

/-- A little-endian `uint16` at offset `p`. -/
def rd16 (mem : List Nat) (p : Nat) : Option Nat :=
  match mem[p]?, mem[p + 1]? with
  | some a, some b => some (a + 256 * b)
  | _, _ => none

/-- A little-endian `uint32` at offset `p`. -/
def rd32 (mem : List Nat) (p : Nat) : Option Nat :=
  match mem[p]?, mem[p + 1]?, mem[p + 2]?, mem[p + 3]? with
  | some a, some b, some c, some d => some (a + 256 * b + 65536 * c + 16777216 * d)
  | _, _, _, _ => none

/-- A little-endian `int16` at offset `p`. -/
def rdi16 (mem : List Nat) (p : Nat) : Option Int :=
  match rd16 mem p with
  | some v => some (if v < 32768 then (v : Int) else (v : Int) - 65536)
  | none => none

/-- The `n` bytes at offset `p` (what `memcpy` reads). -/
def rdN (mem : List Nat) (p n : Nat) : Option (List Nat) :=
  if p + n ≤ mem.length then some ((mem.drop p).take n) else none

/-- The `n` bytes `strncpy(dst, src, n)` writes to `dst`, for `src` the bytes
from `rest` on: the bytes before the first NUL, then NUL up to `n`.  Only the
bytes up to the first NUL are read. -/
def strncpy : List Nat → Nat → Option (List Nat)
  | _, 0 => some []
  | [], _ + 1 => none
  | c :: rest, n + 1 =>
    if c = 0 then some (List.replicate (n + 1) 0)
    else (strncpy rest n).map (fun t => c :: t)

/-! ## The cursor (`gmm_file.c` lines 39-62) -/

def advance_cursor (s : State) (delta : Nat) : Int × State :=
  if s.len < delta then (RES_ERR, s)
  else (RES_OK, { s with
    data := s.data + delta
    len := s.len - delta
    parents := s.parents.map (fun l => subW l delta) })

/-- The state after `advance_cursor(cursor, delta);`, the return value dropped,
as at every call site of the source. -/
def advance (s : State) (delta : Nat) : State := (advance_cursor s delta).2

/-- The returned cursor (`none` for the null cursor) and the state of the
caller after the call.  The new cursor shares the read position, its own
length is `new_len` and the given cursor heads its parent chain. -/
def recursive_cursor_from (s : State) (new_len : Nat) : Option State × State :=
  if new_len > s.len then (none, { s with last_error := RES_BUFFER_TOO_SMALL })
  else (some { data := s.data, len := new_len, parents := s.len :: s.parents,
               last_error := s.last_error }, s)

/-! ## Length-prefixed strings (lines 66-120) -/

/-- The returned buffer (`none` for `NULL`): `strncpy` of the text, then the
terminating NUL of the zeroed allocation of `*str_len + 1` bytes. -/
def decode_wstr (mem : List Nat) (s : State) : Res (Option (List Nat)) :=
  let str_len := s.data
  let s1 := advance s 2
  if propagates s1 then .ok none s1
  else
    match rd16 mem str_len with
    | none => .undefined
    | some n =>
      if n > s1.len then .ok none { s1 with last_error := RES_BUFFER_TOO_SMALL }
      else
        match strncpy (mem.drop s1.data) n with
        | none => .undefined
        | some text =>
          let s2 := advance s1 n
          if propagates s2 then .ok none s2 else .ok (some (text ++ [0])) s2

def decode_bstr (mem : List Nat) (s : State) : Res (Option (List Nat)) :=
  let str_len := s.data
  let s1 := advance s 1
  if propagates s1 then .ok none s1
  else
    match rd8 mem str_len with
    | none => .undefined
    | some n =>
      if n > s1.len then .ok none { s1 with last_error := RES_BUFFER_TOO_SMALL }
      else
        match strncpy (mem.drop s1.data) n with
        | none => .undefined
        | some text =>
          let s2 := advance s1 n
          if propagates s2 then .ok none s2 else .ok (some (text ++ [0])) s2

/-! ## Cell layers (lines 122-194) -/

/-- The outcome of the run-length loop of `decode_cell_layer`. -/
inductive RleRes where
  | done (written : List Nat)
  | error
  | undefined
deriving DecidableEq, Repr

/-- The `while (compressed_data < compressed_end)` loop of `decode_cell_layer`.
`n` is `compressed_end - compressed_data`, `rest` is the buffer from
`compressed_data` on, `written` holds the bytes between `result` and `dest`.
`RleRes.error` is a jump to `onerror` from one of the `CHECKERR`s.  In the
branch of a literal byte, the second `CHECKERR` (`compressed_data ==
compressed_end`) cannot fire, the loop condition having just held. -/
def rle_loop (size : Nat) : Nat → List Nat → List Nat → RleRes
  | 0, _, written => .done written
  | _ + 1, [], _ => .undefined
  | n + 1, next_byte :: rest, written =>
    if next_byte &&& 0x80 ≠ 0 then
      let repeat_len := (next_byte &&& 0x7f) + 1
      if written.length + repeat_len > size then .error
      else
        match n, rest with
        | 0, _ => .error
        | _ + 1, [] => .undefined
        | m + 1, v :: rest2 => rle_loop size m rest2 (written ++ List.replicate repeat_len v)
    else
      if written.length + 1 > size then .error
      else rle_loop size n rest (written ++ [next_byte])

/-- The returned grid (`none` for `NULL`) of `size` bytes. -/
def decode_cell_layer (mem : List Nat) (s : State) (size : Nat) : Res (Option (List Nat)) :=
  let compression_type := s.data
  let s1 := advance s 1
  if propagates s1 then .ok none s1
  else
    match rd8 mem compression_type with
    | none => .undefined
    | some ct =>
      if ct = 0 then
        let src_data := s1.data
        let s2 := advance s1 size
        if propagates s2 then .ok none s2
        else
          match rdN mem src_data size with
          | none => .undefined
          | some grid => .ok (some grid) s2
      else if ct = 1 then
        let compressed_length := s1.data
        let s2 := advance s1 4
        if propagates s2 then .ok none s2
        else
          let compressed_data := s2.data
          match rd32 mem compressed_length with
          | none => .undefined
          | some clen =>
            let s3 := advance s2 clen
            if propagates s3 then .ok none s3
            else
              match rle_loop size clen (mem.drop compressed_data) [] with
              | .undefined => .undefined
              | .error => .ok none { s3 with last_error := checkerr_code s3.last_error }
              | .done written =>
                .ok (some (written ++ List.replicate (size - written.length) 0)) s3
      else if ct = 2 then .ok (some (List.replicate size 0)) s1
      else .ok none { s1 with last_error := RES_BAD_INPUT }

/-! ## Chunk payloads (`gmm_file.h`)

The `head` field of every chunk structure is filled in by `_decode_chunks`
and is kept in `GmmChunk`; the structures below hold the other fields. -/

structure RiffChunkHeader where
  ckId : List Nat
  ckSize : Nat
deriving DecidableEq, Repr

structure RiffChunkMapProperties where
  version : Nat
  title : Option (List Nat)
  game : Option (List Nat)
  author : Option (List Nat)
  creation_time : Option (List Nat)
  notes : Option (List Nat)
deriving DecidableEq, Repr

structure RiffChunkMapCoords where
  origin : Nat
  row_style : Nat
  column_style : Nat
  row_start : Nat
  column_start : Nat
deriving DecidableEq, Repr

structure RiffChunkLevelProperties where
  location_name : Option (List Nat)
  level_name : Option (List Nat)
  elevation : Int
  num_rows : Nat
  num_columns : Nat
  override_coord_opts : Nat
  notes : Option (List Nat)
deriving DecidableEq, Repr

structure RiffChunkLevelCoords where
  origin : Nat
  row_style : Nat
  column_style : Nat
  row_start : Nat
  column_start : Nat
deriving DecidableEq, Repr

structure RiffChunkLevelCell where
  floor : Option (List Nat)
  floor_orientation : Option (List Nat)
  floor_color : Option (List Nat)
  wall_north : Option (List Nat)
  wall_west : Option (List Nat)
  trail : Option (List Nat)
  cells_count : Nat
deriving DecidableEq, Repr

/-- The anonymous union of `AnnotationRecord`; `unset` is the union no branch
of `decode_lvl_anno_chunk` has written to. -/
inductive AnnotationPayload where
  | unset
  | indexed (index : Nat) (index_color : Nat)
  | custom (custom_id : Option (List Nat))
  | icon (icon : Nat)
  | label (label_color : Nat)
deriving DecidableEq, Repr

def AK_COMMENT : Nat := 0
def AK_INDEXED : Nat := 1
def AK_CUSTOM : Nat := 2
def AK_ICON : Nat := 3
def AK_LABEL : Nat := 4

structure AnnotationRecord where
  row : Nat
  column : Nat
  kind : Nat
  text : Option (List Nat)
  payload : AnnotationPayload
deriving DecidableEq, Repr

structure RiffChunkLevelAnno where
  num_annotations : Nat
  records : List AnnotationRecord
deriving DecidableEq, Repr

structure LevelRegionRecord where
  name : Option (List Nat)
  notes : Option (List Nat)
deriving DecidableEq, Repr

structure RiffChunkLevelRegn where
  enable_regions : Nat
  rows_per_region : Nat
  columns_per_region : Nat
  num_regions : Nat
  per_region_coords : Nat
  records : List LevelRegionRecord
deriving DecidableEq, Repr

structure MapLinksRecord where
  src_level_index : Nat
  src_row : Nat
  src_column : Nat
  dest_level_index : Nat
  dest_row : Nat
  dest_column : Nat
deriving DecidableEq, Repr

structure RiffChunkMapLinks where
  num_links : Nat
  records : List MapLinksRecord
deriving DecidableEq, Repr

/-! ## Chunk decoders (lines 196-446) -/

/-- The statement `PROPAGATEERR();` after a call, in a function whose
`onpropagate` label leads to `exit(EXIT_FAILURE)`. -/
def propagated {α : Type} (r : Res α) : Res α :=
  r.bind fun v s => if propagates s then .exit s.last_error else .ok v s

/-- The statement `CHECKERR((field = call) == NULL, ...)` in a function whose
`onerror` label leads to `exit(EXIT_FAILURE)`. -/
def checked (r : Res (Option (List Nat))) : Res (Option (List Nat)) :=
  r.bind fun v s => if v.isNone then .exit (checkerr_code s.last_error) else .ok v s

def decode_map_prop_chunk (mem : List Nat) (s : State) :
    Res (Nat × RiffChunkMapProperties) :=
  let start_len := s.len
  match rd16 mem s.data with
  | none => .undefined
  | some version =>
    let s1 := advance s 2
    if propagates s1 then .exit s1.last_error
    else
      (checked (decode_wstr mem s1)).bind fun title s2 =>
      (checked (decode_wstr mem s2)).bind fun game s3 =>
      (checked (decode_wstr mem s3)).bind fun author s4 =>
      (checked (decode_bstr mem s4)).bind fun creation_time s5 =>
      (checked (decode_wstr mem s5)).bind fun notes s6 =>
      .ok (subW start_len s6.len,
           { version := version, title := title, game := game, author := author,
             creation_time := creation_time, notes := notes }) s6

def decode_map_coor_chunk (mem : List Nat) (s : State) : Res (Nat × RiffChunkMapCoords) :=
  let decoded_data := s.data
  let s1 := advance s 7
  if propagates s1 then .exit s1.last_error
  else
    match rd8 mem decoded_data, rd8 mem (decoded_data + 1), rd8 mem (decoded_data + 2),
          rd16 mem (decoded_data + 3), rd16 mem (decoded_data + 5) with
    | some origin, some row_style, some column_style, some row_start, some column_start =>
      .ok (7, { origin := origin, row_style := row_style, column_style := column_style,
                row_start := row_start, column_start := column_start }) s1
    | _, _, _, _, _ => .undefined

def decode_lvl_prop_chunk (mem : List Nat) (s : State) :
    Res (Nat × RiffChunkLevelProperties) :=
  let start_len := s.len
  (propagated (decode_wstr mem s)).bind fun location_name s1 =>
  (propagated (decode_wstr mem s1)).bind fun level_name s2 =>
  let decoded_data := s2.data
  let s3 := advance s2 7
  if propagates s3 then .exit s3.last_error
  else
    match rdi16 mem decoded_data, rd16 mem (decoded_data + 2), rd16 mem (decoded_data + 4),
          rd8 mem (decoded_data + 6) with
    | some elevation, some num_rows, some num_columns, some override_coord_opts =>
      (propagated (decode_wstr mem s3)).bind fun notes s4 =>
      .ok (subW start_len s4.len,
           { location_name := location_name, level_name := level_name,
             elevation := elevation, num_rows := num_rows, num_columns := num_columns,
             override_coord_opts := override_coord_opts, notes := notes }) s4
    | _, _, _, _ => .undefined

def decode_lvl_coor_chunk (mem : List Nat) (s : State) : Res (Nat × RiffChunkLevelCoords) :=
  let decoded_data := s.data
  let s1 := advance s 7
  if propagates s1 then .exit s1.last_error
  else
    match rd8 mem decoded_data, rd8 mem (decoded_data + 1), rd8 mem (decoded_data + 2),
          rd16 mem (decoded_data + 3), rd16 mem (decoded_data + 5) with
    | some origin, some row_style, some column_style, some row_start, some column_start =>
      .ok (7, { origin := origin, row_style := row_style, column_style := column_style,
                row_start := row_start, column_start := column_start }) s1
    | _, _, _, _, _ => .undefined

def decode_lvl_cell_chunk (mem : List Nat) (s : State) (cell_count : Nat) :
    Res (Nat × RiffChunkLevelCell) :=
  let start_addr := s.data
  (propagated (decode_cell_layer mem s cell_count)).bind fun floor s1 =>
  (propagated (decode_cell_layer mem s1 cell_count)).bind fun floor_orientation s2 =>
  (propagated (decode_cell_layer mem s2 cell_count)).bind fun floor_color s3 =>
  (propagated (decode_cell_layer mem s3 cell_count)).bind fun wall_north s4 =>
  (propagated (decode_cell_layer mem s4 cell_count)).bind fun wall_west s5 =>
  (propagated (decode_cell_layer mem s5 cell_count)).bind fun trail s6 =>
  .ok (s6.data - start_addr,
       { floor := floor, floor_orientation := floor_orientation,
         floor_color := floor_color, wall_north := wall_north, wall_west := wall_west,
         trail := trail, cells_count := cell_count }) s6

/-- The `if`/`else if` chain on `decoded_data->kind` in the record loop of
`decode_lvl_anno_chunk`. -/
def anno_payload (mem : List Nat) (kind : Nat) (s : State) : Res AnnotationPayload :=
  if kind = AK_INDEXED then
    match rd16 mem s.data with
    | none => .undefined
    | some index =>
      let s1 := advance s 2
      if propagates s1 then .exit s1.last_error
      else
        match rd8 mem s1.data with
        | none => .undefined
        | some index_color =>
          let s2 := advance s1 1
          if propagates s2 then .exit s2.last_error
          else .ok (.indexed index index_color) s2
  else if kind = AK_CUSTOM then
    (propagated (decode_bstr mem s)).bind fun custom_id s1 => .ok (.custom custom_id) s1
  else if kind = AK_ICON then
    match rd8 mem s.data with
    | none => .undefined
    | some icon =>
      let s1 := advance s 1
      if propagates s1 then .exit s1.last_error else .ok (.icon icon) s1
  else if kind = AK_LABEL then
    match rd8 mem s.data with
    | none => .undefined
    | some label_color =>
      let s1 := advance s 1
      if propagates s1 then .exit s1.last_error else .ok (.label label_color) s1
  else .ok .unset s

/-- The record loop of `decode_lvl_anno_chunk`, `n` records to go. -/
def anno_records (mem : List Nat) : Nat → State → Res (List AnnotationRecord)
  | 0, s => .ok [] s
  | n + 1, s =>
    let decoded_data := s.data
    let s1 := advance s 5
    if propagates s1 then .exit s1.last_error
    else
      match rd16 mem decoded_data, rd16 mem (decoded_data + 2), rd8 mem (decoded_data + 4) with
      | some row, some column, some kind =>
        (anno_payload mem kind s1).bind fun payload s2 =>
        (propagated (decode_wstr mem s2)).bind fun text s3 =>
        (anno_records mem n s3).bind fun rest s4 =>
        .ok ({ row := row, column := column, kind := kind, text := text,
               payload := payload } :: rest) s4
      | _, _, _ => .undefined

def decode_lvl_anno_chunk (mem : List Nat) (s : State) : Res (Nat × RiffChunkLevelAnno) :=
  let start_addr := s.data
  let num_annos := s.data
  let s1 := advance s 2
  if propagates s1 then .exit s1.last_error
  else
    match rd16 mem num_annos with
    | none => .undefined
    | some n =>
      (anno_records mem n s1).bind fun records s2 =>
      .ok (s2.data - start_addr, { num_annotations := n, records := records }) s2

/-- The record loop of `decode_lvl_regn_chunk`, `n` records to go. -/
def regn_records (mem : List Nat) : Nat → State → Res (List LevelRegionRecord)
  | 0, s => .ok [] s
  | n + 1, s =>
    (propagated (decode_wstr mem s)).bind fun name s1 =>
    (propagated (decode_wstr mem s1)).bind fun notes s2 =>
    (regn_records mem n s2).bind fun rest s3 =>
    .ok ({ name := name, notes := notes } :: rest) s3

def decode_lvl_regn_chunk (mem : List Nat) (s : State) : Res (Nat × RiffChunkLevelRegn) :=
  let start_addr := s.data
  let decoded_data := s.data
  let s1 := advance s 8
  if propagates s1 then .exit s1.last_error
  else
    match rd8 mem decoded_data, rd16 mem (decoded_data + 1), rd16 mem (decoded_data + 3),
          rd8 mem (decoded_data + 5), rd16 mem (decoded_data + 6) with
    | some enable_regions, some row_per_region, some columns_per_region,
      some per_region_coords, some num_regions =>
      (regn_records mem num_regions s1).bind fun records s2 =>
      .ok (s2.data - start_addr,
           { enable_regions := enable_regions, rows_per_region := row_per_region,
             columns_per_region := columns_per_region, num_regions := num_regions,
             per_region_coords := per_region_coords, records := records }) s2
    | _, _, _, _, _ => .undefined

/-- The record loop of `decode_map_links_chunk`, `n` records to go. -/
def links_records (mem : List Nat) : Nat → State → Res (List MapLinksRecord)
  | 0, s => .ok [] s
  | n + 1, s =>
    let decoded_data := s.data
    let s1 := advance s 12
    if propagates s1 then .exit s1.last_error
    else
      match rd16 mem decoded_data, rd16 mem (decoded_data + 2), rd16 mem (decoded_data + 4),
            rd16 mem (decoded_data + 6), rd16 mem (decoded_data + 8),
            rd16 mem (decoded_data + 10) with
      | some a, some b, some c, some d, some e, some f =>
        (links_records mem n s1).bind fun rest s2 =>
        .ok ({ src_level_index := a, src_row := b, src_column := c,
               dest_level_index := d, dest_row := e, dest_column := f } :: rest) s2
      | _, _, _, _, _, _ => .undefined

def decode_map_links_chunk (mem : List Nat) (s : State) : Res (Nat × RiffChunkMapLinks) :=
  let start_addr := s.data
  let num_links := s.data
  let s1 := advance s 2
  if propagates s1 then .exit s1.last_error
  else
    match rd16 mem num_links with
    | none => .undefined
    | some n =>
      (links_records mem n s1).bind fun records s2 =>
      .ok (s2.data - start_addr, { num_links := n, records := records }) s2

/-! ## The chunk loop (lines 448-590) -/

/-- The union `GmmChunk` with its discriminator `ctype`: one constructor for
each `GmmChunkType`.  `head` is the `RiffChunkHeader` every member starts
with. -/
inductive GmmChunk where
  | list (head : RiffChunkHeader) (ckType : List Nat) (children : List GmmChunk)
  | map_prop (head : RiffChunkHeader) (c : RiffChunkMapProperties)
  | map_coor (head : RiffChunkHeader) (c : RiffChunkMapCoords)
  | lvl_prop (head : RiffChunkHeader) (c : RiffChunkLevelProperties)
  | lvl_coor (head : RiffChunkHeader) (c : RiffChunkLevelCoords)
  | lvl_cell (head : RiffChunkHeader) (c : RiffChunkLevelCell)
  | lvl_anno (head : RiffChunkHeader) (c : RiffChunkLevelAnno)
  | lvl_regn (head : RiffChunkHeader) (c : RiffChunkLevelRegn)
  | map_links (head : RiffChunkHeader) (c : RiffChunkMapLinks)
  | unknown (head : RiffChunkHeader)

/-- The enumeration `GmmChunkType`. -/
inductive GmmChunkType where
  | GMM_LIST | GMM_MAP_PROP | GMM_MAP_COOR | GMM_LVL_PROP | GMM_LVL_COOR
  | GMM_LVL_CELL | GMM_LVL_ANNO | GMM_LVL_REGN | GMM_MAP_LINKS | GMM_UNKNOWN
deriving DecidableEq, Repr

def GmmChunk.ctype : GmmChunk → GmmChunkType
  | .list _ _ _ => .GMM_LIST
  | .map_prop _ _ => .GMM_MAP_PROP
  | .map_coor _ _ => .GMM_MAP_COOR
  | .lvl_prop _ _ => .GMM_LVL_PROP
  | .lvl_coor _ _ => .GMM_LVL_COOR
  | .lvl_cell _ _ => .GMM_LVL_CELL
  | .lvl_anno _ _ => .GMM_LVL_ANNO
  | .lvl_regn _ _ => .GMM_LVL_REGN
  | .map_links _ _ => .GMM_MAP_LINKS
  | .unknown _ => .GMM_UNKNOWN

def GmmChunk.head : GmmChunk → RiffChunkHeader
  | .list h _ _ => h
  | .map_prop h _ => h
  | .map_coor h _ => h
  | .lvl_prop h _ => h
  | .lvl_coor h _ => h
  | .lvl_cell h _ => h
  | .lvl_anno h _ => h
  | .lvl_regn h _ => h
  | .map_links h _ => h
  | .unknown h => h

/-- The structure `DecodingContext`; `list_type` is `none` for `NULL`. -/
structure DecodingContext where
  level_size : Nat
  list_type : Option (List Nat)
deriving DecidableEq, Repr

/-- The bytes of "disp". -/
def tag_disp : List Nat := [100, 105, 115, 112]
/-- The bytes of "opts". -/
def tag_opts : List Nat := [111, 112, 116, 115]
/-- The bytes of "tool". -/
def tag_tool : List Nat := [116, 111, 111, 108]
/-- The bytes of "notl". -/
def tag_notl : List Nat := [110, 111, 116, 108]
/-- The bytes of "LIST". -/
def tag_LIST : List Nat := [76, 73, 83, 84]
/-- The bytes of "prop". -/
def tag_prop : List Nat := [112, 114, 111, 112]
/-- The bytes of "coor". -/
def tag_coor : List Nat := [99, 111, 111, 114]
/-- The bytes of "cell". -/
def tag_cell : List Nat := [99, 101, 108, 108]
/-- The bytes of "anno". -/
def tag_anno : List Nat := [97, 110, 110, 111]
/-- The bytes of "lnks". -/
def tag_lnks : List Nat := [108, 110, 107, 115]
/-- The bytes of "regn". -/
def tag_regn : List Nat := [114, 101, 103, 110]
/-- The bytes of "map ". -/
def type_map : List Nat := [109, 97, 112, 32]
/-- The bytes of "lvl ". -/
def type_lvl : List Nat := [108, 118, 108, 32]

/-- The array `ignore_list` without its empty terminator. -/
def ignore_list : List (List Nat) := [tag_disp, tag_opts, tag_tool, tag_notl]

/-- The result of the loop over `ignore_list`.  Each entry is four bytes
without a NUL, so `strncmp(header->ckId, entry, 4) == 0` says the four bytes
of the tag are those of the entry. -/
def ignore_this (tag : List Nat) : Bool := ignore_list.contains tag

/-- What `_decode_chunks` yields: `decoded_length`, the dynarray `out` and the
context `*ctx`. -/
abbrev Decoded := Nat × List GmmChunk × DecodingContext

/-- The value of `(num_columns + 1) * (num_rows + 1)`, a product of `int`s;
`none` when it exceeds `INT_MAX` (signed overflow, undefined in C). -/
def level_size_of (num_columns num_rows : Nat) : Option Nat :=
  if (num_columns + 1) * (num_rows + 1) > INT_MAX then none
  else some ((num_columns + 1) * (num_rows + 1))

/-- The cursor `dc` of the caller once the call on `nested_cursor` is over:
the read position is shared and the own length of `dc` heads the parent chain
of the nested cursor. -/
def leave_nested (sn : State) : Option State :=
  match sn.parents with
  | [] => none
  | l :: ps => some { data := sn.data, len := l, parents := ps, last_error := sn.last_error }

/-- Lines 501-520: the branch of a "LIST" chunk.  `s1` is the state after the
header, `nested` the recursive call of `_decode_chunks` on a fresh dynarray,
of which the children are kept and the counter and the context dropped. -/
def list_branch (mem : List Nat) (nested : State → DecodingContext → Res Decoded)
    (head : RiffChunkHeader) (s1 : State) (ctx : DecodingContext)
    (decoded_length : Nat) : Res (Nat × GmmChunk × DecodingContext) :=
  if s1.len < 4 then .exit (checkerr_code s1.last_error)
  else
    match strncpy (mem.drop s1.data) 4 with
    | none => .undefined
    | some ckType =>
      let decoded_length := addW decoded_length 4
      let s2 := advance s1 4
      if propagates s2 then .exit (checkerr_code s2.last_error)
      else
        let list_len := subW32 head.ckSize 4
        match recursive_cursor_from s2 list_len with
        | (nested_cursor, s3) =>
          if propagates s3 then .exit s3.last_error
          else
            match nested_cursor with
            | none => .undefined
            | some sn =>
              let new_ctx : DecodingContext :=
                { level_size := ctx.level_size, list_type := some ckType }
              (nested sn new_ctx).bind fun r sn2 =>
              match leave_nested sn2 with
              | none => .undefined
              | some s4 => .ok (decoded_length, .list head ckType r.2.1, ctx) s4

/-- Lines 521-533: the branch of a "prop" chunk; `strncmp` on the `NULL` list
type of the top-level context is undefined. -/
def prop_branch (mem : List Nat) (head : RiffChunkHeader) (s1 : State)
    (ctx : DecodingContext) (decoded_length : Nat) :
    Res (Nat × GmmChunk × DecodingContext) :=
  match ctx.list_type with
  | none => .undefined
  | some lt =>
    if lt = type_map then
      (decode_map_prop_chunk mem s1).bind fun r s2 =>
      .ok (addW decoded_length r.1, .map_prop head r.2, ctx) s2
    else if lt = type_lvl then
      (decode_lvl_prop_chunk mem s1).bind fun r s2 =>
      match level_size_of r.2.num_columns r.2.num_rows with
      | none => .undefined
      | some level_size =>
        .ok (addW decoded_length r.1, .lvl_prop head r.2,
             { level_size := level_size, list_type := ctx.list_type }) s2
    else .ok (decoded_length, .unknown head, ctx) s1

/-- Lines 534-542: the branch of a "coor" chunk. -/
def coor_branch (mem : List Nat) (head : RiffChunkHeader) (s1 : State)
    (ctx : DecodingContext) (decoded_length : Nat) :
    Res (Nat × GmmChunk × DecodingContext) :=
  match ctx.list_type with
  | none => .undefined
  | some lt =>
    if lt = type_map then
      (decode_map_coor_chunk mem s1).bind fun r s2 =>
      .ok (addW decoded_length r.1, .map_coor head r.2, ctx) s2
    else if lt = type_lvl then
      (decode_lvl_coor_chunk mem s1).bind fun r s2 =>
      .ok (addW decoded_length r.1, .lvl_coor head r.2, ctx) s2
    else .ok (decoded_length, .unknown head, ctx) s1

/-- Lines 497-556: the `if`/`else if` chain on the tag.  `s1` is the state
after the header, `decoded_length` the counter at that point.  Yields the
counter, the finished `new_chunk` and `*ctx`.  The tags compared with are four
bytes without a NUL, so each `strncmp(..., 4) == 0` is an equality of four
bytes. -/
def chunk_dispatch (mem : List Nat) (nested : State → DecodingContext → Res Decoded)
    (tag : List Nat) (head : RiffChunkHeader) (s1 : State) (ctx : DecodingContext)
    (decoded_length : Nat) : Res (Nat × GmmChunk × DecodingContext) :=
  if ignore_this tag then
    let s2 := advance s1 head.ckSize
    if propagates s2 then .exit s2.last_error
    else .ok (decoded_length, .unknown head, ctx) s2
  else if tag = tag_LIST then list_branch mem nested head s1 ctx decoded_length
  else if tag = tag_prop then prop_branch mem head s1 ctx decoded_length
  else if tag = tag_coor then coor_branch mem head s1 ctx decoded_length
  else if tag = tag_cell then
    (decode_lvl_cell_chunk mem s1 ctx.level_size).bind fun r s2 =>
    .ok (addW decoded_length r.1, .lvl_cell head r.2, ctx) s2
  else if tag = tag_anno then
    (decode_lvl_anno_chunk mem s1).bind fun r s2 =>
    .ok (addW decoded_length r.1, .lvl_anno head r.2, ctx) s2
  else if tag = tag_lnks then
    (decode_map_links_chunk mem s1).bind fun r s2 =>
    .ok (addW decoded_length r.1, .map_links head r.2, ctx) s2
  else if tag = tag_regn then
    (decode_lvl_regn_chunk mem s1).bind fun r s2 =>
    .ok (addW decoded_length r.1, .lvl_regn head r.2, ctx) s2
  else .ok (decoded_length, .unknown head, ctx) s1

/-- Lines 557-574: the size check and the padding byte.  `size_check` is the
own length right after the header, `s2` the state after the dispatch. -/
def chunk_reconcile (ignored : Bool) (ckSize size_check : Nat) (s2 : State)
    (decoded_length : Nat) : Res Nat :=
  let consumed := subW size_check s2.len
  let after : Res Nat :=
    if !ignored && consumed ≠ ckSize then
      let size_defect := subW ckSize consumed
      if ckSize < consumed then .exit (checkerr_code s2.last_error)
      else .ok (addW decoded_length size_defect) (advance s2 size_defect)
    else .ok decoded_length s2
  after.bind fun decoded_length s3 =>
  if ckSize % 2 = 1 then .ok (addW decoded_length 1) (advance s3 1)
  else .ok decoded_length s3

/-- Lines 469-574: one pass through the body of the `while` loop. -/
def chunk_iteration (mem : List Nat) (nested : State → DecodingContext → Res Decoded)
    (s0 : State) (out : List GmmChunk) (ctx : DecodingContext) (decoded_length : Nat) :
    Res Decoded :=
  let s : State := { s0 with last_error := 0 }
  if s.len < 4 then .exit (checkerr_code s.last_error)
  else
    let header := s.data
    let decoded_length := addW decoded_length 8
    let s1 := advance s 8
    if propagates s1 then .exit (checkerr_code s1.last_error)
    else
      let size_check := s1.len
      match strncpy (mem.drop header) 4, rd32 mem (header + 4) with
      | some ckId, some ckSize =>
        let tag := (mem.drop header).take 4
        let head : RiffChunkHeader := { ckId := ckId, ckSize := ckSize }
        (chunk_dispatch mem nested tag head s1 ctx decoded_length).bind fun r s2 =>
        (chunk_reconcile (ignore_this tag) ckSize size_check s2 r.1).bind fun dl s3 =>
        .ok (dl, out ++ [r.2.1], r.2.2) s3
      | _, _ => .undefined

/-- The function `_decode_chunks` with fuel: `dc` is the cursor of `s`, `out`
the dynarray so far, `ctx` the context `*ctx`; `decoded_length` is the local
counter, `0` at the call. -/
def _decode_chunks (mem : List Nat) :
    Nat → State → List GmmChunk → DecodingContext → Nat → Res Decoded
  | 0, _, _, _, _ => .timeout
  | fuel + 1, s, out, ctx, decoded_length =>
    if s.len > 0 then
      (chunk_iteration mem (fun sn c => _decode_chunks mem fuel sn [] c 0)
        s out ctx decoded_length).bind fun r s2 =>
      _decode_chunks mem fuel s2 r.2.1 r.2.2 r.1
    else .ok (decoded_length, out, ctx) s

/-- The structure `RiffFile`: `length` is a `uint16`. -/
structure RiffFile where
  length : Nat
  data : List Nat
deriving DecidableEq, Repr

/-- The function `decode_chunks` with fuel: the forest, from a cursor at the
start of `file.data` with length `file.length` and no parent, and the context
`{0, NULL}`. -/
def decode_chunks (fuel : Nat) (file : RiffFile) (last_error : Int) : Res (List GmmChunk) :=
  (_decode_chunks file.data fuel
    { data := 0, len := file.length, parents := [], last_error := last_error } []
    { level_size := 0, list_type := none } 0).bind fun r s => .ok r.2.1 s

/-! ## Invariants of the cursor -/

/-- The moves a decoder makes on the state: successful `advance_cursor` calls
and assignments to `last_error` of a negative code or of zero. -/
inductive Steps : State → State → Prop where
  | refl (s : State) : Steps s s
  | adv {s s' : State} (d : Nat) (h : d ≤ s.len) : Steps (advance s d) s' → Steps s s'
  | err {s s' : State} (e : Int) (h : e ≤ 0) :
      Steps { s with last_error := e } s' → Steps s s'

/-- What the chunk loop guarantees of a normal return, as assumed of the
recursive call on a nested cursor. -/
def NestedOk (nested : State → DecodingContext → Res Decoded) : Prop :=
  ∀ sn c r sn2, nested sn c = .ok r sn2 →
    Steps sn sn2 ∧ sn2.len = 0 ∧ (sn.last_error = 0 → sn2.last_error = 0)


/-! ## Sample buffers -/

/-- An "anno" chunk of declared size 20 whose one record takes 18 bytes, two
bytes of slack, and a sibling "lnks" chunk of size 2. -/
def resync_buffer : List Nat :=
  [97, 110, 110, 111, 20, 0, 0, 0,
   1, 0, 3, 0, 4, 0, 0, 9, 0, 72, 101, 108, 108, 111, 32, 109, 97, 112,
   238, 238,
   108, 110, 107, 115, 2, 0, 0, 0, 0, 0]

/-- The node of the "anno" chunk of `resync_buffer`. -/
def resync_node : GmmChunk :=
  .lvl_anno { ckId := [97, 110, 110, 111], ckSize := 20 }
    { num_annotations := 1,
      records := [{ row := 3, column := 4, kind := 0,
                    text := some [72, 101, 108, 108, 111, 32, 109, 97, 112, 0],
                    payload := .unset }] }


/-- The kind of node the claim on dispatch promises for a chunk that is
neither ignored nor a list, from its tag and the enclosing list type (`none`
at the top level, where there is no enclosing list). -/
def expected_ctype (tag : List Nat) (list_type : Option (List Nat)) : GmmChunkType :=
  if tag = tag_prop then
    (if list_type = some type_map then .GMM_MAP_PROP
     else if list_type = some type_lvl then .GMM_LVL_PROP
     else .GMM_UNKNOWN)
  else if tag = tag_coor then
    (if list_type = some type_map then .GMM_MAP_COOR
     else if list_type = some type_lvl then .GMM_LVL_COOR
     else .GMM_UNKNOWN)
  else if tag = tag_cell then .GMM_LVL_CELL
  else if tag = tag_anno then .GMM_LVL_ANNO
  else if tag = tag_regn then .GMM_LVL_REGN
  else if tag = tag_lnks then .GMM_MAP_LINKS
  else .GMM_UNKNOWN

/-- A "coor" chunk of declared size 3 followed by seven bytes. -/
def overrun_buffer : List Nat :=
  [99, 111, 111, 114, 3, 0, 0, 0, 1, 2, 3, 4, 5, 6, 7]

/-- A "coor" chunk of declared size 7. -/
def coor_buffer : List Nat :=
  [99, 111, 111, 114, 7, 0, 0, 0, 1, 2, 3, 4, 5, 6, 7, 0]

/-- A "LIST" chunk of type "lvl " holding one "prop" chunk (level 5 by 5,
three empty strings) with its padding byte. -/
def lvl_list_buffer : List Nat :=
  [76, 73, 83, 84, 26, 0, 0, 0, 108, 118, 108, 32,
   112, 114, 111, 112, 13, 0, 0, 0,
   0, 0, 0, 0, 0, 0, 4, 0, 4, 0, 0, 0, 0, 0]

/-- The node of the "LIST" chunk of `lvl_list_buffer`. -/
def lvl_list_node : GmmChunk :=
  .list { ckId := [76, 73, 83, 84], ckSize := 26 } [108, 118, 108, 32]
    [.lvl_prop { ckId := [112, 114, 111, 112], ckSize := 13 }
      { location_name := some [0], level_name := some [0], elevation := 0,
        num_rows := 4, num_columns := 4, override_coord_opts := 0, notes := some [0] }]

/-- A "disp" chunk of declared size 3, three bytes and the padding byte. -/
def disp_buffer : List Nat := [100, 105, 115, 112, 3, 0, 0, 0, 7, 8, 9, 0]

/-- A "LIST" chunk of declared size 12 and type "map " whose body is a "coor"
chunk of declared size 0, followed by eight more bytes of the file that start
with `first`. -/
def list_coor_buffer (first : Nat) : List Nat :=
  [76, 73, 83, 84, 12, 0, 0, 0, 109, 97, 112, 32,
   99, 111, 111, 114, 0, 0, 0, 0,
   first, 2, 3, 52, 18, 120, 86, 0]

/-- A "LIST" chunk of declared size 8 and type "lvl " with a body of four
bytes, followed by eight more bytes of the file. -/
def short_header_buffer : List Nat :=
  [76, 73, 83, 84, 8, 0, 0, 0, 108, 118, 108, 32,
   106, 117, 110, 107,
   4, 0, 0, 0, 97, 98, 99, 100]

/-- A "LIST" chunk of declared size 14 and type "map " whose body is a "lnks"
chunk of declared size 2 that announces one record, followed by two chunks
with eight-byte headers and no body. -/
def links_outside_buffer : List Nat :=
  [76, 73, 83, 84, 14, 0, 0, 0, 109, 97, 112, 32,
   108, 110, 107, 115, 2, 0, 0, 0, 1, 0,
   65, 66, 67, 68, 0, 0, 0, 0,
   69, 70, 71, 72, 0, 0, 0, 0]

/-! ## The run-length scheme in the words of the format -/

/-- The expansion of a run-length stream, read left to right as the format
describes it: a byte `c` with the high bit set, followed by a byte `v`, stands
for `(c & 0x7F) + 1` copies of `v`; a byte with the high bit clear stands for
itself.  A byte with the high bit set that ends the stream stands for
nothing. -/
def rle_expand : List Nat → List Nat
  | [] => []
  | [c] => if c &&& 0x80 ≠ 0 then [] else [c]
  | c :: v :: rest =>
    if c &&& 0x80 ≠ 0 then List.replicate ((c &&& 0x7f) + 1) v ++ rle_expand rest
    else c :: rle_expand (v :: rest)

/-- Whether the stream, read left to right, ends right after a byte with the
high bit set that opens a run: no byte is left to replicate. -/
def rle_dangling : List Nat → Bool
  | [] => false
  | [c] => decide (c &&& 0x80 ≠ 0)
  | c :: v :: rest => if c &&& 0x80 ≠ 0 then rle_dangling rest else rle_dangling (v :: rest)

/-- Mode byte 1, compressed length 5, the stream `[0x82, 7, 5, 0x80, 9]`. -/
def rle_buffer : List Nat := [1, 5, 0, 0, 0, 130, 7, 5, 128, 9]


/-- A cursor with ten bytes left whose two ancestors have twelve and thirty. -/
def chain_state : State := { data := 4, len := 10, parents := [12, 30], last_error := 0 }


/-- The state after `k` successive calls `decode_cell_layer(cursor, size)`
that each return a grid and leave no error code behind; `none` when one of
them does not.  These are the calls `decode_lvl_cell_chunk` makes before its
layer number `k`, counted from zero. -/
def layers_before (mem : List Nat) (size : Nat) : Nat → State → Option State
  | 0, s => some s
  | k + 1, s =>
    match decode_cell_layer mem s size with
    | .ok (some _) s1 => if propagates s1 then none else layers_before mem size k s1
    | _ => none

/-- Mode byte 0 and five bytes, in a buffer of eight. -/
def raw_buffer : List Nat := [0, 11, 12, 13, 14, 15, 16, 17]

/-- Two layers in mode 2 and a layer with the mode byte 3. -/
def bad_mode_buffer : List Nat := [2, 2, 3, 0, 0, 0]

/-- The example vector of the format: mode byte 1, compressed length 4, the
stream `[0x83, 0xFF, 0x02, 0xAA]`. -/
def example_vector : List Nat := [1, 4, 0, 0, 0, 131, 255, 2, 170]

/-- The example vector with the stream `[0x83, 0xFF, 0x81, 0xAA]`. -/
def example_vector_runs : List Nat := [1, 4, 0, 0, 0, 131, 255, 129, 170]

/-- The encodings of a byte sequence in the run-length scheme, in the words of
the round-trip property: a byte with the high bit clear may stand as itself,
and any byte or run of `count` equal bytes, `count` from 1 to 128, may stand
as the control byte `0x80 | (count - 1)` followed by the byte. -/
inductive RleEncodes : List Nat → List Nat → Prop where
  | nil : RleEncodes [] []
  | literal (c : Nat) (s e : List Nat) :
      c &&& 0x80 = 0 → RleEncodes s e → RleEncodes (c :: s) (c :: e)
  | run (count v : Nat) (s e : List Nat) :
      1 ≤ count → count ≤ 128 → RleEncodes s e →
      RleEncodes (List.replicate count v ++ s) ((0x80 ||| (count - 1)) :: v :: e)

/-- One encoder of the scheme: a byte with the high bit clear as itself, any
other byte as a run of one. -/
def rle_encode : List Nat → List Nat
  | [] => []
  | c :: s => if c &&& 0x80 = 0 then c :: rle_encode s else (0x80 ||| (1 - 1)) :: c :: rle_encode s

/-- Mode byte 1, compressed length 6 and `rle_encode [5, 200, 200, 6]`. -/
def roundtrip_buffer : List Nat := [1, 6, 0, 0, 0, 5, 128, 200, 128, 200, 6]

/-- A "LIST" chunk of type "lvl " holding a "prop" chunk (level 1 by 1) and a
"cell" chunk of declared size 10: five layers in mode 2 and a sixth layer of
mode 1 and compressed length 1 whose stream byte is the first byte after the
list; then eight more bytes of the file. -/
def stream_outside_buffer : List Nat :=
  [76, 73, 83, 84, 44, 0, 0, 0, 108, 118, 108, 32,
   112, 114, 111, 112, 13, 0, 0, 0,
   0, 0, 0, 0, 0, 0, 0, 0, 0, 0, 0, 0, 0, 0,
   99, 101, 108, 108, 10, 0, 0, 0,
   2, 2, 2, 2, 2, 1, 1, 0, 0, 0,
   5, 0, 0, 0, 0, 0, 0, 0]

/-- The node of the "prop" chunk of `stream_outside_buffer`. -/
def stream_outside_prop : GmmChunk :=
  .lvl_prop { ckId := [112, 114, 111, 112], ckSize := 13 }
    { location_name := some [0], level_name := some [0], elevation := 0,
      num_rows := 0, num_columns := 0, override_coord_opts := 0, notes := some [0] }

/-- The node of the "cell" chunk of `stream_outside_buffer`: the one byte of
the trail layer is the byte 5 that follows the list. -/
def stream_outside_cell : GmmChunk :=
  .lvl_cell { ckId := [99, 101, 108, 108], ckSize := 10 }
    { floor := some [0], floor_orientation := some [0], floor_color := some [0],
      wall_north := some [0], wall_west := some [0], trail := some [5],
      cells_count := 1 }

/-- The node of the "LIST" chunk of `stream_outside_buffer`. -/
def stream_outside_list : GmmChunk :=
  .list { ckId := [76, 73, 83, 84], ckSize := 44 } [108, 118, 108, 32]
    [stream_outside_prop, stream_outside_cell]

/-- A wide string of declared length 3 whose second byte is NUL. -/
def nul_wstr_buffer : List Nat := [3, 0, 65, 0, 66]

/-- A wide string "map" and a byte string "ab". -/
def text_buffer : List Nat := [3, 0, 109, 97, 112, 2, 97, 98]

/-! ## Definitions for the claims on strings, coordinates and determinism -/

/-- A cursor of 2 bytes on a wide string that declares 3 bytes. -/
def short_wstr_buffer : List Nat := [3, 0, 65, 66]

/-- A `RiffChunkMapCoords` read as a `RiffChunkLevelCoords`, field by field. -/
def as_level_coords (c : RiffChunkMapCoords) : RiffChunkLevelCoords :=
  { origin := c.origin, row_style := c.row_style, column_style := c.column_style,
    row_start := c.row_start, column_start := c.column_start }

/-- Seven bytes of a "coor" payload. -/
def coor_payload_buffer : List Nat := [1, 2, 3, 4, 5, 6, 7]

/-- What the caller of a run observes: the returned value or the way the run
ended, without the final state. -/
inductive Outcome (α : Type) where
  | value (v : α)
  | exit (err : Int)
  | undefined
  | timeout

/-- The outcome of a run. -/
def Res.outcome {α : Type} : Res α → Outcome α
  | .ok v _ => .value v
  | .exit err => .exit err
  | .undefined => .undefined
  | .timeout => .timeout

/-- A "prop" chunk of a "lvl " list with 65535 rows and 65535 columns, and
its padding byte. -/
def big_level_buffer : List Nat :=
  [112, 114, 111, 112, 13, 0, 0, 0,
   0, 0, 0, 0, 0, 0, 255, 255, 255, 255, 0, 0, 0, 0]

/-- A file with one "lvl " list that holds one "anno" chunk of one record,
of kind 9 and text "A". -/
def odd_kind_buffer : List Nat :=
  [76, 73, 83, 84, 22, 0, 0, 0, 108, 118, 108, 32,
   97, 110, 110, 111, 10, 0, 0, 0,
   1, 0, 2, 0, 3, 0, 9, 1, 0, 65]

/-- The node `odd_kind_buffer` decodes to. -/
def odd_kind_node : GmmChunk :=
  .list { ckId := [76, 73, 83, 84], ckSize := 22 } [108, 118, 108, 32]
    [.lvl_anno { ckId := [97, 110, 110, 111], ckSize := 10 }
      { num_annotations := 1,
        records := [{ row := 2, column := 3, kind := 9, text := some [65, 0],
                      payload := .unset }] }]

/-- The payload of an "anno" chunk with five records, one of each defined
kind in the order 0, 1, 2, 3, 4, each at row 1 and column 2; the texts are
"A", "B", "C", "D" and "E". -/
def five_kinds_buffer : List Nat :=
  [5, 0,
   1, 0, 2, 0, 0, 1, 0, 65,
   1, 0, 2, 0, 1, 7, 0, 9, 1, 0, 66,
   1, 0, 2, 0, 2, 2, 105, 100, 1, 0, 67,
   1, 0, 2, 0, 3, 8, 1, 0, 68,
   1, 0, 2, 0, 4, 6, 1, 0, 69]

/-- The records of `five_kinds_buffer`. -/
def five_kinds_records : List AnnotationRecord :=
  [{ row := 1, column := 2, kind := 0, text := some [65, 0], payload := .unset },
   { row := 1, column := 2, kind := 1, text := some [66, 0], payload := .indexed 7 9 },
   { row := 1, column := 2, kind := 2, text := some [67, 0],
     payload := .custom (some [105, 100, 0]) },
   { row := 1, column := 2, kind := 3, text := some [68, 0], payload := .icon 8 },
   { row := 1, column := 2, kind := 4, text := some [69, 0], payload := .label 6 }]

/-! ## Reading the file (`gmm_file.c` lines 613-652) -/

/-- Unsigned 32-bit addition. -/
def addW32 (a b : Nat) : Nat := if a + b < U32_MOD then a + b else a + b - U32_MOD

/-- The conversion to `uint16`, the type of `RiffFile.length`. -/
def to_uint16 (n : Nat) : Nat := n % 65536

/-- The bytes of "RIFF". -/
def tag_RIFF : List Nat := [82, 73, 70, 70]
/-- The bytes of "GRMM". -/
def tag_GRMM : List Nat := [71, 82, 77, 77]

/-- The function `read_riff` on the bytes `fstr` of the stream; `none` is
`exit(EXIT_FAILURE)`.  The first `fread` yields 0 when the stream holds less
than the 12 bytes of the header, the second one the bytes it could read, at
most `remainder_len`.  `remainder_len` is a `uint32`, and the assignment to
`result.length` converts it to `uint16`.  `malloc` is taken to succeed. -/
def read_riff (fstr : List Nat) : Option RiffFile :=
  if fstr.length < 12 then none
  else if fstr.take 4 ≠ tag_RIFF then none
  else if (fstr.drop 8).take 4 ≠ tag_GRMM then none
  else
    match rd32 fstr 4 with
    | none => none
    | some ckSize =>
      let remainder_len := addW32 (subW32 ckSize 4) (ckSize % 2)
      let remainder_bytes := (fstr.drop 12).take remainder_len
      if remainder_bytes.length ≠ remainder_len then none
      else some { length := to_uint16 remainder_len, data := remainder_bytes }

/-- The 12 bytes "RIFF", 65540, "GRMM" that open a GMM file with a payload of
65536 bytes. -/
def long_file_header : List Nat := [82, 73, 70, 70, 4, 0, 1, 0, 71, 82, 77, 77]

/-! ## A cursor that stops moving -/

/-- A "lvl " list whose 4 body bytes are the tag "junk", followed by 4 zero
bytes. -/
def loop_buffer : List Nat :=
  [76, 73, 83, 84, 8, 0, 0, 0, 108, 118, 108, 32,
   106, 117, 110, 107, 0, 0, 0, 0]

/-- The cursor on the body of the list of `loop_buffer`. -/
def loop_cursor : State := { data := 12, len := 4, parents := [8], last_error := 0 }

/-! ## The grid size of a list scope -/

/-- The context `*ctx` after the branch that yields `node`: a
`LevelProperties` chunk stores its grid size, no other chunk writes to the
context. -/
def ctx_after (ctx : DecodingContext) : GmmChunk → DecodingContext
  | .lvl_prop _ p =>
    { level_size := (p.num_columns + 1) * (p.num_rows + 1), list_type := ctx.list_type }
  | _ => ctx

/-- The grid size in force after the nodes `nodes` of one list scope that was
entered with the grid size `inherited`: that of the last `LevelProperties`
node, or `inherited` when there is none. -/
def scope_level_size (inherited : Nat) (nodes : List GmmChunk) : Nat :=
  nodes.foldl (fun size node =>
    match node with
    | .lvl_prop _ p => (p.num_columns + 1) * (p.num_rows + 1)
    | _ => size) inherited

/-- Whether the node is a `LevelProperties` chunk. -/
def is_lvl_prop : GmmChunk → Bool
  | .lvl_prop _ _ => true
  | _ => false

/-- All six grids of the chunk are present and hold `cells_count` bytes. -/
def CellSized (c : RiffChunkLevelCell) : Prop :=
  c.floor.map List.length = some c.cells_count ∧
  c.floor_orientation.map List.length = some c.cells_count ∧
  c.floor_color.map List.length = some c.cells_count ∧
  c.wall_north.map List.length = some c.cells_count ∧
  c.wall_west.map List.length = some c.cells_count ∧
  c.trail.map List.length = some c.cells_count

/-- Two sibling "lvl " lists: the first holds a "prop" chunk of 4 rows and 4
columns, the second a "cell" chunk of six layers of mode 2 and no "prop". -/
def sibling_buffer : List Nat :=
  [76, 73, 83, 84, 26, 0, 0, 0, 108, 118, 108, 32,
   112, 114, 111, 112, 13, 0, 0, 0,
   0, 0, 0, 0, 0, 0, 4, 0, 4, 0, 0, 0, 0, 0,
   76, 73, 83, 84, 18, 0, 0, 0, 108, 118, 108, 32,
   99, 101, 108, 108, 6, 0, 0, 0,
   2, 2, 2, 2, 2, 2]

/-- The node of the first list of `sibling_buffer`. -/
def sibling_first : GmmChunk :=
  .list { ckId := [76, 73, 83, 84], ckSize := 26 } [108, 118, 108, 32]
    [.lvl_prop { ckId := [112, 114, 111, 112], ckSize := 13 }
      { location_name := some [0], level_name := some [0], elevation := 0,
        num_rows := 4, num_columns := 4, override_coord_opts := 0, notes := some [0] }]

/-- The "cell" node of the second list of `sibling_buffer`: six empty
grids. -/
def sibling_cell : GmmChunk :=
  .lvl_cell { ckId := [99, 101, 108, 108], ckSize := 6 }
    { floor := some [], floor_orientation := some [], floor_color := some [],
      wall_north := some [], wall_west := some [], trail := some [],
      cells_count := 0 }

/-- The node of the second list of `sibling_buffer`. -/
def sibling_second : GmmChunk :=
  .list { ckId := [76, 73, 83, 84], ckSize := 18 } [108, 118, 108, 32] [sibling_cell]

/-! ## Definitions for the claims on lists and cursor chains -/

/-- A "LIST" chunk of declared size 0 and type "lvl ", followed by four more
bytes. -/
def short_list_buffer : List Nat :=
  [76, 73, 83, 84, 0, 0, 0, 0, 108, 118, 108, 32, 1, 2, 3, 4]

/-- Whether the remaining lengths along a chain never decrease from a cursor
up to the root: `len` is the length of the cursor, `parents` are those of its
ancestors, the nearest first. -/
def chain_ordered : Nat → List Nat → Bool
  | _, [] => true
  | len, p :: ps => decide (len ≤ p) && chain_ordered p ps

/-- The chain of the cursor of `s` is ordered. -/
def ChainOrdered (s : State) : Prop := chain_ordered s.len s.parents = true

/-- The cursors a run can hold: the cursor without a parent that
`decode_chunks` starts from, a cursor returned by `recursive_cursor_from`,
a cursor after a call of `advance_cursor`, whether it succeeds or not, a
cursor after an assignment to `last_error`, and the cursor of the caller once
the call on a nested cursor is over. -/
inductive CursorChain : State → Prop where
  | root (data len : Nat) (e : Int) :
      CursorChain { data := data, len := len, parents := [], last_error := e }
  | child {s sn s1 : State} (new_len : Nat) :
      CursorChain s → recursive_cursor_from s new_len = (some sn, s1) → CursorChain sn
  | advanced {s : State} (delta : Nat) : CursorChain s → CursorChain (advance_cursor s delta).2
  | error {s : State} (e : Int) : CursorChain s → CursorChain { s with last_error := e }
  | leave {sn s : State} : CursorChain sn → leave_nested sn = some s → CursorChain s

/-! ## Chunks at the top level and memory after the buffer -/

/-- A file payload that is one "prop" chunk of declared size 0, outside of
any list. -/
def top_prop_buffer : List Nat := [112, 114, 111, 112, 0, 0, 0, 0]

/-- A file payload that is one "coor" chunk of declared size 0, outside of
any list. -/
def top_coor_buffer : List Nat := [99, 111, 111, 114, 0, 0, 0, 0]

/-- A file payload that is one chunk of declared size 0 whose tag is the
bytes 'a', NUL, 'b', 'c'. -/
def nul_tag_buffer : List Nat := [97, 0, 98, 99, 0, 0, 0, 0]

/-- The 16 bytes of a GMM file whose payload is the four bytes "junk". -/
def junk_file : List Nat :=
  [82, 73, 70, 70, 8, 0, 0, 0, 71, 82, 77, 77, 106, 117, 110, 107]

/-- The memory at the buffer `read_riff` allocates for `junk_file`: the four
payload bytes "junk", then the bytes `after` that follow the buffer in memory
and belong to no file. -/
def junk_memory (after : List Nat) : List Nat := [106, 117, 110, 107] ++ after
/-! ## Theorems -/

/-! ## Basic facts -/

theorem subW_eq_mod {a b : Nat} (ha : a < SIZE_MOD) (hb : b < SIZE_MOD) :
    subW a b = (a + SIZE_MOD - b) % SIZE_MOD := by
  unfold subW SIZE_MOD at *
  split <;> omega

theorem addW_eq_mod {a b : Nat} (ha : a < SIZE_MOD) (hb : b < SIZE_MOD) :
    addW a b = (a + b) % SIZE_MOD := by
  unfold addW SIZE_MOD at *
  split <;> omega

theorem subW32_eq_mod {a b : Nat} (ha : a < U32_MOD) (hb : b < U32_MOD) :
    subW32 a b = (a + U32_MOD - b) % U32_MOD := by
  unfold subW32 U32_MOD at *
  split <;> omega

theorem Res.bind_eq_ok {α β : Type} {r : Res α} {f : α → State → Res β} {b : β} {s' : State} :
    r.bind f = .ok b s' ↔ ∃ a s1, r = .ok a s1 ∧ f a s1 = .ok b s' := by
  cases r with
  | ok v s =>
    simp only [Res.bind, Res.ok.injEq]
    constructor
    · intro h
      exact ⟨v, s, ⟨rfl, rfl⟩, h⟩
    · rintro ⟨a, s1, ⟨rfl, rfl⟩, h⟩
      exact h
  | exit e => simp [Res.bind]
  | undefined => simp [Res.bind]
  | timeout => simp [Res.bind]

theorem propagated_eq_ok {α : Type} {r : Res α} {a : α} {s' : State} :
    propagated r = .ok a s' ↔ r = .ok a s' ∧ 0 ≤ s'.last_error := by
  cases r with
  | ok v s =>
    simp only [propagated, Res.bind, propagates]
    by_cases h : s.last_error < 0
    · simp only [h, decide_True, if_true]
      constructor
      · intro h'; cases h'
      · rintro ⟨h1, h2⟩
        cases h1
        omega
    · simp only [h, decide_False]
      constructor
      · intro h'
        cases h'
        exact ⟨rfl, by omega⟩
      · rintro ⟨h1, -⟩
        cases h1
        rfl
  | exit e => simp [propagated, Res.bind]
  | undefined => simp [propagated, Res.bind]
  | timeout => simp [propagated, Res.bind]

theorem checked_eq_ok {r : Res (Option (List Nat))} {a : Option (List Nat)} {s' : State} :
    checked r = .ok a s' ↔ r = .ok a s' ∧ a.isSome := by
  cases r with
  | ok v s =>
    cases v with
    | none =>
      simp only [checked, Res.bind, Option.isNone_none, if_true, Res.ok.injEq]
      constructor
      · intro h
        cases h
      · rintro ⟨⟨rfl, -⟩, h⟩
        simp at h
    | some t =>
      simp only [checked, Res.bind, Option.isNone_some, Bool.false_eq_true, if_false,
        Res.ok.injEq]
      constructor
      · rintro ⟨rfl, rfl⟩
        exact ⟨⟨rfl, rfl⟩, rfl⟩
      · rintro ⟨h, -⟩
        exact h
  | exit e => simp [checked, Res.bind]
  | undefined => simp [checked, Res.bind]
  | timeout => simp [checked, Res.bind]

@[simp] theorem advance_last_error (s : State) (d : Nat) :
    (advance s d).last_error = s.last_error := by
  unfold advance advance_cursor
  split <;> rfl

theorem advance_of_le {s : State} {d : Nat} (h : d ≤ s.len) :
    advance s d = { data := s.data + d, len := s.len - d,
                    parents := s.parents.map (fun l => subW l d),
                    last_error := s.last_error } := by
  unfold advance advance_cursor
  rw [if_neg (by omega)]

theorem advance_of_lt {s : State} {d : Nat} (h : s.len < d) : advance s d = s := by
  unfold advance advance_cursor
  rw [if_pos h]

theorem Steps.trans {a b c : State} (h1 : Steps a b) (h2 : Steps b c) : Steps a c := by
  induction h1 with
  | refl s => exact h2
  | adv d h _ ih => exact Steps.adv d h (ih h2)
  | err e h _ ih => exact Steps.err e h (ih h2)

theorem Steps.advance (s : State) (d : Nat) : Steps s (advance s d) := by
  by_cases h : d ≤ s.len
  · exact Steps.adv d h (Steps.refl _)
  · rw [advance_of_lt (by omega)]
    exact Steps.refl _

theorem Steps.set_error (s : State) (e : Int) (h : e ≤ 0) :
    Steps s { s with last_error := e } :=
  Steps.err e h (Steps.refl _)

theorem Steps.acct {s s' : State} (h : Steps s s') :
    s'.data + s'.len = s.data + s.len ∧ s'.len ≤ s.len := by
  induction h with
  | refl s => exact ⟨rfl, le_refl _⟩
  | adv d h _ ih =>
    rw [advance_of_le h] at ih
    simp only at ih
    omega
  | err e h _ ih => simpa using ih

theorem Steps.error_le {s s' : State} (h : Steps s s') (h0 : s.last_error ≤ 0) :
    s'.last_error ≤ 0 := by
  induction h with
  | refl s => exact h0
  | adv d h _ ih => exact ih (by simpa using h0)
  | err e h _ ih => exact ih h

theorem Steps.parent {sn sn2 : State} (h : Steps sn sn2) :
    ∀ p ps, sn.parents = p :: ps → sn.len ≤ p →
      ∃ p2 ps2, sn2.parents = p2 :: ps2 ∧ sn2.len ≤ p2 ∧
        Steps { data := sn.data, len := p, parents := ps, last_error := sn.last_error }
              { data := sn2.data, len := p2, parents := ps2, last_error := sn2.last_error } := by
  induction h with
  | refl s =>
    intro p ps hp hle
    exact ⟨p, ps, hp, hle, Steps.refl _⟩
  | @adv s s' d h _ ih =>
    intro p ps hp hle
    have hsub : subW p d = p - d := by
      unfold subW
      rw [if_pos (by omega)]
    have := ih (p - d) (ps.map (fun l => subW l d))
      (by rw [advance_of_le h]; simp [hp, hsub])
      (by rw [advance_of_le h]; simp only; omega)
    obtain ⟨p2, ps2, h1, h2, h3⟩ := this
    refine ⟨p2, ps2, h1, h2, ?_⟩
    refine Steps.adv d (by simp only; omega) ?_
    rw [advance_of_le (by simp only; omega)]
    rw [advance_of_le h] at h3
    simpa using h3
  | @err s s' e h _ ih =>
    intro p ps hp hle
    obtain ⟨p2, ps2, h1, h2, h3⟩ := ih p ps hp hle
    exact ⟨p2, ps2, h1, h2, Steps.err e h h3⟩

theorem not_propagates {s : State} (h : ¬ propagates s = true) : 0 ≤ s.last_error := by
  simp only [propagates, decide_eq_true_eq] at h
  omega

theorem decode_wstr_steps {mem : List Nat} {s s' : State} {v : Option (List Nat)}
    (h : decode_wstr mem s = .ok v s') : Steps s s' ∧ (v.isSome → 0 ≤ s'.last_error) := by
  unfold decode_wstr at h
  simp only at h
  split at h
  · cases h
    exact ⟨Steps.advance _ _, by simp⟩
  · split at h
    · cases h
    · split at h
      · cases h
        exact ⟨(Steps.advance _ _).trans (Steps.set_error _ _ (by decide)), by simp⟩
      · split at h
        · cases h
        · split at h
          · cases h
            exact ⟨(Steps.advance _ _).trans (Steps.advance _ _), by simp⟩
          · rename_i hp
            cases h
            exact ⟨(Steps.advance _ _).trans (Steps.advance _ _), fun _ => not_propagates hp⟩

theorem decode_bstr_steps {mem : List Nat} {s s' : State} {v : Option (List Nat)}
    (h : decode_bstr mem s = .ok v s') : Steps s s' ∧ (v.isSome → 0 ≤ s'.last_error) := by
  unfold decode_bstr at h
  simp only at h
  split at h
  · cases h
    exact ⟨Steps.advance _ _, by simp⟩
  · split at h
    · cases h
    · split at h
      · cases h
        exact ⟨(Steps.advance _ _).trans (Steps.set_error _ _ (by decide)), by simp⟩
      · split at h
        · cases h
        · split at h
          · cases h
            exact ⟨(Steps.advance _ _).trans (Steps.advance _ _), by simp⟩
          · rename_i hp
            cases h
            exact ⟨(Steps.advance _ _).trans (Steps.advance _ _), fun _ => not_propagates hp⟩

theorem checkerr_code_le {e : Int} (h : e ≤ 0) : checkerr_code e ≤ 0 := by
  unfold checkerr_code RES_OK RES_ERR
  split <;> omega

theorem decode_cell_layer_steps {mem : List Nat} {s s' : State} {size : Nat}
    {v : Option (List Nat)} (h0 : s.last_error ≤ 0)
    (h : decode_cell_layer mem s size = .ok v s') : Steps s s' := by
  unfold decode_cell_layer at h
  simp only at h
  split at h
  · cases h
    exact Steps.advance _ _
  · split at h
    · cases h
    · split at h
      · split at h
        · cases h
          exact (Steps.advance _ _).trans (Steps.advance _ _)
        · split at h
          · cases h
          · cases h
            exact (Steps.advance _ _).trans (Steps.advance _ _)
      · split at h
        · split at h
          · cases h
            exact (Steps.advance _ _).trans (Steps.advance _ _)
          · split at h
            · cases h
            · split at h
              · cases h
                exact (Steps.advance _ _).trans
                  ((Steps.advance _ _).trans (Steps.advance _ _))
              · split at h
                · cases h
                · cases h
                  refine (Steps.advance _ _).trans
                    ((Steps.advance _ _).trans ((Steps.advance _ _).trans
                      (Steps.set_error _ _ (checkerr_code_le ?_))))
                  simpa using h0
                · cases h
                  exact (Steps.advance _ _).trans
                    ((Steps.advance _ _).trans (Steps.advance _ _))
        · split at h
          · cases h
            exact Steps.advance _ _
          · cases h
            exact (Steps.advance _ _).trans (Steps.set_error _ _ (by decide))

theorem propagated_wstr {mem : List Nat} {s s' : State} {v : Option (List Nat)}
    (h : propagated (decode_wstr mem s) = .ok v s') : Steps s s' ∧ 0 ≤ s'.last_error := by
  rw [propagated_eq_ok] at h
  exact ⟨(decode_wstr_steps h.1).1, h.2⟩

theorem propagated_bstr {mem : List Nat} {s s' : State} {v : Option (List Nat)}
    (h : propagated (decode_bstr mem s) = .ok v s') : Steps s s' ∧ 0 ≤ s'.last_error := by
  rw [propagated_eq_ok] at h
  exact ⟨(decode_bstr_steps h.1).1, h.2⟩

theorem checked_wstr {mem : List Nat} {s s' : State} {v : Option (List Nat)}
    (h : checked (decode_wstr mem s) = .ok v s') : Steps s s' ∧ 0 ≤ s'.last_error := by
  rw [checked_eq_ok] at h
  exact ⟨(decode_wstr_steps h.1).1, (decode_wstr_steps h.1).2 h.2⟩

theorem checked_bstr {mem : List Nat} {s s' : State} {v : Option (List Nat)}
    (h : checked (decode_bstr mem s) = .ok v s') : Steps s s' ∧ 0 ≤ s'.last_error := by
  rw [checked_eq_ok] at h
  exact ⟨(decode_bstr_steps h.1).1, (decode_bstr_steps h.1).2 h.2⟩

theorem propagated_cell_layer {mem : List Nat} {s s' : State} {size : Nat}
    {v : Option (List Nat)} (h0 : s.last_error ≤ 0)
    (h : propagated (decode_cell_layer mem s size) = .ok v s') :
    Steps s s' ∧ 0 ≤ s'.last_error := by
  rw [propagated_eq_ok] at h
  exact ⟨decode_cell_layer_steps h0 h.1, h.2⟩

theorem decode_map_prop_chunk_steps {mem : List Nat} {s s' : State}
    {r : Nat × RiffChunkMapProperties} (h : decode_map_prop_chunk mem s = .ok r s') :
    Steps s s' ∧ 0 ≤ s'.last_error := by
  unfold decode_map_prop_chunk at h
  simp only at h
  split at h
  · cases h
  · split at h
    · cases h
    · simp only [Res.bind_eq_ok] at h
      obtain ⟨_, s2, h2, _, s3, h3, _, s4, h4, _, s5, h5, _, s6, h6, h⟩ := h
      cases h
      have a2 := checked_wstr h2
      have a3 := checked_wstr h3
      have a4 := checked_wstr h4
      have a5 := checked_bstr h5
      have a6 := checked_wstr h6
      exact ⟨(Steps.advance _ _).trans (a2.1.trans (a3.1.trans (a4.1.trans (a5.1.trans a6.1)))),
        a6.2⟩

theorem decode_map_coor_chunk_steps {mem : List Nat} {s s' : State}
    {r : Nat × RiffChunkMapCoords} (h : decode_map_coor_chunk mem s = .ok r s') :
    Steps s s' ∧ 0 ≤ s'.last_error := by
  unfold decode_map_coor_chunk at h
  simp only at h
  split at h
  · cases h
  · rename_i hp
    split at h
    · cases h
      exact ⟨Steps.advance _ _, not_propagates hp⟩
    · cases h

theorem decode_lvl_coor_chunk_steps {mem : List Nat} {s s' : State}
    {r : Nat × RiffChunkLevelCoords} (h : decode_lvl_coor_chunk mem s = .ok r s') :
    Steps s s' ∧ 0 ≤ s'.last_error := by
  unfold decode_lvl_coor_chunk at h
  simp only at h
  split at h
  · cases h
  · rename_i hp
    split at h
    · cases h
      exact ⟨Steps.advance _ _, not_propagates hp⟩
    · cases h

theorem decode_lvl_prop_chunk_steps {mem : List Nat} {s s' : State}
    {r : Nat × RiffChunkLevelProperties} (h : decode_lvl_prop_chunk mem s = .ok r s') :
    Steps s s' ∧ 0 ≤ s'.last_error := by
  unfold decode_lvl_prop_chunk at h
  simp only [Res.bind_eq_ok] at h
  obtain ⟨_, s1, h1, _, s2, h2, h⟩ := h
  have a1 := propagated_wstr h1
  have a2 := propagated_wstr h2
  split at h
  · cases h
  · split at h
    · simp only [Res.bind_eq_ok] at h
      obtain ⟨_, s4, h4, h⟩ := h
      cases h
      have a4 := propagated_wstr h4
      exact ⟨a1.1.trans (a2.1.trans ((Steps.advance _ _).trans a4.1)), a4.2⟩
    · cases h

theorem decode_lvl_cell_chunk_steps {mem : List Nat} {s s' : State} {n : Nat}
    {r : Nat × RiffChunkLevelCell} (h0 : s.last_error ≤ 0)
    (h : decode_lvl_cell_chunk mem s n = .ok r s') :
    Steps s s' ∧ 0 ≤ s'.last_error := by
  unfold decode_lvl_cell_chunk at h
  simp only [Res.bind_eq_ok] at h
  obtain ⟨_, s1, h1, _, s2, h2, _, s3, h3, _, s4, h4, _, s5, h5, _, s6, h6, h⟩ := h
  cases h
  have a1 := propagated_cell_layer h0 h1
  have a2 := propagated_cell_layer (a1.1.error_le h0) h2
  have a3 := propagated_cell_layer ((a1.1.trans a2.1).error_le h0) h3
  have a4 := propagated_cell_layer ((a1.1.trans (a2.1.trans a3.1)).error_le h0) h4
  have a5 := propagated_cell_layer
    ((a1.1.trans (a2.1.trans (a3.1.trans a4.1))).error_le h0) h5
  have a6 := propagated_cell_layer
    ((a1.1.trans (a2.1.trans (a3.1.trans (a4.1.trans a5.1)))).error_le h0) h6
  exact ⟨a1.1.trans (a2.1.trans (a3.1.trans (a4.1.trans (a5.1.trans a6.1)))), a6.2⟩

theorem anno_payload_steps {mem : List Nat} {kind : Nat} {s s' : State}
    {r : AnnotationPayload} (h : anno_payload mem kind s = .ok r s') : Steps s s' := by
  unfold anno_payload at h
  split at h
  · split at h
    · cases h
    · simp only at h
      split at h
      · cases h
      · split at h
        · cases h
        · split at h
          · cases h
          · cases h
            exact (Steps.advance _ _).trans (Steps.advance _ _)
  · split at h
    · simp only [Res.bind_eq_ok] at h
      obtain ⟨_, s1, h1, h⟩ := h
      cases h
      exact (propagated_bstr h1).1
    · split at h
      · split at h
        · cases h
        · simp only at h
          split at h
          · cases h
          · cases h
            exact Steps.advance _ _
      · split at h
        · split at h
          · cases h
          · simp only at h
            split at h
            · cases h
            · cases h
              exact Steps.advance _ _
        · cases h
          exact Steps.refl _

theorem anno_records_steps {mem : List Nat} (n : Nat) :
    ∀ {s s' : State} {r : List AnnotationRecord}, 0 ≤ s.last_error →
      anno_records mem n s = .ok r s' → Steps s s' ∧ 0 ≤ s'.last_error := by
  induction n with
  | zero =>
    intro s s' r h0 h
    simp only [anno_records] at h
    cases h
    exact ⟨Steps.refl _, h0⟩
  | succ n ih =>
    intro s s' r h0 h
    simp only [anno_records] at h
    split at h
    · cases h
    · split at h
      · simp only [Res.bind_eq_ok] at h
        obtain ⟨_, s2, h2, _, s3, h3, _, s4, h4, h⟩ := h
        cases h
        have a2 := anno_payload_steps h2
        have a3 := propagated_wstr h3
        have a4 := ih a3.2 h4
        exact ⟨(Steps.advance _ _).trans (a2.trans (a3.1.trans a4.1)), a4.2⟩
      · cases h

theorem decode_lvl_anno_chunk_steps {mem : List Nat} {s s' : State}
    {r : Nat × RiffChunkLevelAnno} (h : decode_lvl_anno_chunk mem s = .ok r s') :
    Steps s s' ∧ 0 ≤ s'.last_error := by
  unfold decode_lvl_anno_chunk at h
  simp only at h
  split at h
  · cases h
  · rename_i hp
    split at h
    · cases h
    · simp only [Res.bind_eq_ok] at h
      obtain ⟨_, s2, h2, h⟩ := h
      cases h
      have a2 := anno_records_steps _ (by simpa using not_propagates hp) h2
      exact ⟨(Steps.advance _ _).trans a2.1, a2.2⟩

theorem regn_records_steps {mem : List Nat} (n : Nat) :
    ∀ {s s' : State} {r : List LevelRegionRecord}, 0 ≤ s.last_error →
      regn_records mem n s = .ok r s' → Steps s s' ∧ 0 ≤ s'.last_error := by
  induction n with
  | zero =>
    intro s s' r h0 h
    simp only [regn_records] at h
    cases h
    exact ⟨Steps.refl _, h0⟩
  | succ n ih =>
    intro s s' r h0 h
    simp only [regn_records, Res.bind_eq_ok] at h
    obtain ⟨_, s1, h1, _, s2, h2, _, s3, h3, h⟩ := h
    cases h
    have a1 := propagated_wstr h1
    have a2 := propagated_wstr h2
    have a3 := ih a2.2 h3
    exact ⟨a1.1.trans (a2.1.trans a3.1), a3.2⟩

theorem decode_lvl_regn_chunk_steps {mem : List Nat} {s s' : State}
    {r : Nat × RiffChunkLevelRegn} (h : decode_lvl_regn_chunk mem s = .ok r s') :
    Steps s s' ∧ 0 ≤ s'.last_error := by
  unfold decode_lvl_regn_chunk at h
  simp only at h
  split at h
  · cases h
  · rename_i hp
    split at h
    · simp only [Res.bind_eq_ok] at h
      obtain ⟨_, s2, h2, h⟩ := h
      cases h
      have a2 := regn_records_steps _ (by simpa using not_propagates hp) h2
      exact ⟨(Steps.advance _ _).trans a2.1, a2.2⟩
    · cases h

theorem links_records_steps {mem : List Nat} (n : Nat) :
    ∀ {s s' : State} {r : List MapLinksRecord}, 0 ≤ s.last_error →
      links_records mem n s = .ok r s' → Steps s s' ∧ 0 ≤ s'.last_error := by
  induction n with
  | zero =>
    intro s s' r h0 h
    simp only [links_records] at h
    cases h
    exact ⟨Steps.refl _, h0⟩
  | succ n ih =>
    intro s s' r h0 h
    simp only [links_records] at h
    split at h
    · cases h
    · rename_i hp
      split at h
      · simp only [Res.bind_eq_ok] at h
        obtain ⟨_, s2, h2, h⟩ := h
        cases h
        have a2 := ih (by simpa using not_propagates hp) h2
        exact ⟨(Steps.advance _ _).trans a2.1, a2.2⟩
      · cases h

theorem decode_map_links_chunk_steps {mem : List Nat} {s s' : State}
    {r : Nat × RiffChunkMapLinks} (h : decode_map_links_chunk mem s = .ok r s') :
    Steps s s' ∧ 0 ≤ s'.last_error := by
  unfold decode_map_links_chunk at h
  simp only at h
  split at h
  · cases h
  · rename_i hp
    split at h
    · cases h
    · simp only [Res.bind_eq_ok] at h
      obtain ⟨_, s2, h2, h⟩ := h
      cases h
      have a2 := links_records_steps _ (by simpa using not_propagates hp) h2
      exact ⟨(Steps.advance _ _).trans a2.1, a2.2⟩

theorem error_zero {s s' : State} (h : Steps s s') (h0 : s.last_error = 0)
    (h1 : 0 ≤ s'.last_error) : s'.last_error = 0 := by
  have := h.error_le (by omega)
  omega

theorem nested_leave {nested : State → DecodingContext → Res Decoded} (hn : NestedOk nested)
    {s2 sn2 s4 : State} {list_len : Nat} {c : DecodingContext} {r : Decoded}
    (hfit : list_len ≤ s2.len)
    (hnest : nested { data := s2.data, len := list_len, parents := s2.len :: s2.parents,
                      last_error := s2.last_error } c = .ok r sn2)
    (hleave : leave_nested sn2 = some s4) :
    Steps s2 s4 ∧ (s2.last_error = 0 → s4.last_error = 0) := by
  have hN := hn _ _ _ _ hnest
  obtain ⟨p2, ps2, hp, -, hst⟩ := hN.1.parent s2.len s2.parents rfl hfit
  unfold leave_nested at hleave
  rw [hp] at hleave
  simp only [Option.some.injEq] at hleave
  subst hleave
  exact ⟨hst, hN.2.2⟩

theorem propagates_too_small (a b : Nat) (c : List Nat) :
    propagates { data := a, len := b, parents := c, last_error := RES_BUFFER_TOO_SMALL } = true := by
  rfl





theorem recursive_cursor_from_of_gt {s : State} {n : Nat} (h : n > s.len) :
    recursive_cursor_from s n = (none, { s with last_error := RES_BUFFER_TOO_SMALL }) := by
  unfold recursive_cursor_from
  rw [if_pos h]

theorem recursive_cursor_from_of_le {s : State} {n : Nat} (h : n ≤ s.len) :
    recursive_cursor_from s n =
      (some { data := s.data, len := n, parents := s.len :: s.parents,
              last_error := s.last_error }, s) := by
  unfold recursive_cursor_from
  rw [if_neg (by omega)]

theorem list_branch_steps {mem : List Nat}
    {nested : State → DecodingContext → Res Decoded}
    {head : RiffChunkHeader} {s1 s2 : State} {ctx : DecodingContext} {dl : Nat}
    {r : Nat × GmmChunk × DecodingContext}
    (hn : NestedOk nested) (h0 : s1.last_error = 0)
    (h : list_branch mem nested head s1 ctx dl = .ok r s2) :
    Steps s1 s2 ∧ s2.last_error = 0 := by
  unfold list_branch at h
  generalize subW32 head.ckSize 4 = list_len at h
  split at h
  · cases h
  split at h
  · cases h
  rename_i ckType hck
  have hp : propagates (advance s1 4) = false := by
    simp [propagates, h0]
  simp only [hp, Bool.false_eq_true, if_false] at h
  by_cases hfit : list_len > (advance s1 4).len
  · rw [recursive_cursor_from_of_gt hfit] at h
    rw [if_pos (propagates_too_small _ _ _)] at h
    cases h
  · rw [recursive_cursor_from_of_le (by omega)] at h
    simp only [hp, Bool.false_eq_true, if_false, Res.bind_eq_ok] at h
    obtain ⟨rn, sn2, hnest, h⟩ := h
    split at h
    · cases h
    rename_i s4 hleave
    cases h
    have hres := nested_leave hn (Nat.le_of_not_gt hfit) hnest hleave
    exact ⟨(Steps.advance _ _).trans hres.1, hres.2 (by rw [advance_last_error]; exact h0)⟩



theorem prop_branch_steps {mem : List Nat} {head : RiffChunkHeader} {s1 s2 : State}
    {ctx : DecodingContext} {dl : Nat} {r : Nat × GmmChunk × DecodingContext}
    (h0 : s1.last_error = 0) (h : prop_branch mem head s1 ctx dl = .ok r s2) :
    Steps s1 s2 ∧ s2.last_error = 0 := by
  have fin : ∀ {s' : State}, Steps s1 s' ∧ 0 ≤ s'.last_error →
      Steps s1 s' ∧ s'.last_error = 0 := fun a => ⟨a.1, error_zero a.1 h0 a.2⟩
  unfold prop_branch at h
  split at h
  · cases h
  split at h
  · simp only [Res.bind_eq_ok] at h
    obtain ⟨_, s', h1, h⟩ := h
    cases h
    exact fin (decode_map_prop_chunk_steps h1)
  split at h
  · simp only [Res.bind_eq_ok] at h
    obtain ⟨_, s', h1, h⟩ := h
    split at h
    · cases h
    cases h
    exact fin (decode_lvl_prop_chunk_steps h1)
  · cases h
    exact ⟨Steps.refl _, h0⟩

theorem coor_branch_steps {mem : List Nat} {head : RiffChunkHeader} {s1 s2 : State}
    {ctx : DecodingContext} {dl : Nat} {r : Nat × GmmChunk × DecodingContext}
    (h0 : s1.last_error = 0) (h : coor_branch mem head s1 ctx dl = .ok r s2) :
    Steps s1 s2 ∧ s2.last_error = 0 := by
  have fin : ∀ {s' : State}, Steps s1 s' ∧ 0 ≤ s'.last_error →
      Steps s1 s' ∧ s'.last_error = 0 := fun a => ⟨a.1, error_zero a.1 h0 a.2⟩
  unfold coor_branch at h
  split at h
  · cases h
  split at h
  · simp only [Res.bind_eq_ok] at h
    obtain ⟨_, s', h1, h⟩ := h
    cases h
    exact fin (decode_map_coor_chunk_steps h1)
  split at h
  · simp only [Res.bind_eq_ok] at h
    obtain ⟨_, s', h1, h⟩ := h
    cases h
    exact fin (decode_lvl_coor_chunk_steps h1)
  · cases h
    exact ⟨Steps.refl _, h0⟩

theorem chunk_dispatch_steps {mem : List Nat}
    {nested : State → DecodingContext → Res Decoded} {tag : List Nat}
    {head : RiffChunkHeader} {s1 s2 : State} {ctx : DecodingContext} {dl : Nat}
    {r : Nat × GmmChunk × DecodingContext}
    (hn : NestedOk nested) (h0 : s1.last_error = 0)
    (h : chunk_dispatch mem nested tag head s1 ctx dl = .ok r s2) :
    Steps s1 s2 ∧ s2.last_error = 0 := by
  have fin : ∀ {s' : State}, Steps s1 s' ∧ 0 ≤ s'.last_error →
      Steps s1 s' ∧ s'.last_error = 0 := fun a => ⟨a.1, error_zero a.1 h0 a.2⟩
  unfold chunk_dispatch at h
  split at h
  · simp only at h
    split at h
    · cases h
    · cases h
      exact ⟨Steps.advance _ _, by simpa using h0⟩
  split at h
  · exact list_branch_steps hn h0 h
  split at h
  · exact prop_branch_steps h0 h
  split at h
  · exact coor_branch_steps h0 h
  split at h
  · simp only [Res.bind_eq_ok] at h
    obtain ⟨_, s', h1, h⟩ := h
    cases h
    exact fin (decode_lvl_cell_chunk_steps (by omega) h1)
  split at h
  · simp only [Res.bind_eq_ok] at h
    obtain ⟨_, s', h1, h⟩ := h
    cases h
    exact fin (decode_lvl_anno_chunk_steps h1)
  split at h
  · simp only [Res.bind_eq_ok] at h
    obtain ⟨_, s', h1, h⟩ := h
    cases h
    exact fin (decode_map_links_chunk_steps h1)
  split at h
  · simp only [Res.bind_eq_ok] at h
    obtain ⟨_, s', h1, h⟩ := h
    cases h
    exact fin (decode_lvl_regn_chunk_steps h1)
  · cases h
    exact ⟨Steps.refl _, h0⟩

theorem chunk_reconcile_steps {ignored : Bool} {ckSize size_check dl dl' : Nat}
    {s2 s3 : State} (h : chunk_reconcile ignored ckSize size_check s2 dl = .ok dl' s3) :
    Steps s2 s3 ∧ s3.last_error = s2.last_error := by
  unfold chunk_reconcile at h
  simp only [Res.bind_eq_ok] at h
  obtain ⟨d, sa, h1, h2⟩ := h
  have a1 : Steps s2 sa ∧ sa.last_error = s2.last_error := by
    split at h1
    · split at h1
      · cases h1
      · cases h1
        exact ⟨Steps.advance _ _, advance_last_error _ _⟩
    · cases h1
      exact ⟨Steps.refl _, rfl⟩
  split at h2
  · cases h2
    exact ⟨a1.1.trans (Steps.advance _ _), by rw [advance_last_error]; exact a1.2⟩
  · cases h2
    exact a1

theorem chunk_iteration_steps {mem : List Nat}
    {nested : State → DecodingContext → Res Decoded} {s0 s3 : State}
    {out : List GmmChunk} {ctx : DecodingContext} {dl : Nat} {r : Decoded}
    (hn : NestedOk nested)
    (h : chunk_iteration mem nested s0 out ctx dl = .ok r s3) :
    Steps s0 s3 ∧ s3.last_error = 0 := by
  unfold chunk_iteration at h
  simp only at h
  split at h
  · cases h
  split at h
  · cases h
  split at h
  · simp only [Res.bind_eq_ok] at h
    obtain ⟨r1, s2, h1, dl2, s3', h2, h⟩ := h
    cases h
    have a1 := chunk_dispatch_steps hn (by simp) h1
    have a2 := chunk_reconcile_steps h2
    refine ⟨(Steps.set_error s0 0 (le_refl _)).trans
      ((Steps.advance _ _).trans (a1.1.trans a2.1)), ?_⟩
    rw [a2.2]
    exact a1.2
  · cases h

theorem _decode_chunks_steps {mem : List Nat} (fuel : Nat) :
    ∀ {s s' : State} {out : List GmmChunk} {ctx : DecodingContext} {dl : Nat} {r : Decoded},
      _decode_chunks mem fuel s out ctx dl = .ok r s' →
      Steps s s' ∧ s'.len = 0 ∧ (s.last_error = 0 → s'.last_error = 0) := by
  induction fuel with
  | zero =>
    intro s s' out ctx dl r h
    simp only [_decode_chunks] at h
    cases h
  | succ fuel ih =>
    intro s s' out ctx dl r h
    simp only [_decode_chunks] at h
    split at h
    · simp only [Res.bind_eq_ok] at h
      obtain ⟨r1, s1, h1, h2⟩ := h
      have hn : NestedOk (fun sn c => _decode_chunks mem fuel sn [] c 0) :=
        fun sn c r sn2 hr => ih hr
      have a1 := chunk_iteration_steps hn h1
      have a2 := ih h2
      exact ⟨a1.1.trans a2.1, a2.2.1, fun _ => a2.2.2 a1.2⟩
    · rename_i hlen
      cases h
      exact ⟨Steps.refl _, by omega, fun h => h⟩

theorem subW_of_le {a b : Nat} (h : b ≤ a) : subW a b = a - b := by
  unfold subW
  rw [if_pos h]

theorem chunk_reconcile_position {ignored : Bool} {ckSize dl dl' : Nat} {s1 s2 s3 : State}
    (hst : Steps s1 s2) (hfit : ckSize + ckSize % 2 ≤ s1.len)
    (hign : ignored = true → s2 = advance s1 ckSize)
    (h : chunk_reconcile ignored ckSize s1.len s2 dl = .ok dl' s3) :
    s3.data = s1.data + (ckSize + ckSize % 2) ∧ s3.len = s1.len - (ckSize + ckSize % 2) := by
  have hacct := hst.acct
  unfold chunk_reconcile at h
  simp only [Res.bind_eq_ok] at h
  obtain ⟨d, sa, h1, h2⟩ := h
  rw [subW_of_le hacct.2] at h1
  have a1 : sa.data = s1.data + ckSize ∧ sa.len = s1.len - ckSize := by
    cases ignored with
    | true =>
      simp only [Bool.not_true, Bool.false_and, Bool.false_eq_true, if_false] at h1
      cases h1
      rw [hign rfl, advance_of_le (by omega)]
      exact ⟨rfl, rfl⟩
    | false =>
      split at h1
      · rename_i hne
        split at h1
        · cases h1
        · rename_i hlt
          cases h1
          rw [subW_of_le (by omega), advance_of_le (by omega)]
          simp only
          omega
      · rename_i hne
        simp only [Bool.not_false, Bool.true_and, decide_eq_true_eq, ne_eq, not_not] at hne
        cases h1
        omega
  split at h2
  · rename_i hodd
    cases h2
    rw [advance_of_le (by omega)]
    simp only
    omega
  · rename_i hodd
    cases h2
    omega

/-- C1: when a chunk with declared size `ckSize` fits in the cursor with its
padding byte and one pass of the chunk loop returns normally (the decoder did
not consume more than `ckSize`), the read position stands
`8 + ckSize + ckSize % 2` bytes past the header's first byte, the remaining
length has shrunk by as much, and the loop goes on from that state. -/
theorem chunk_iteration_resync (mem : List Nat) (fuel : Nat) (s0 s3 : State)
    (out : List GmmChunk) (ctx : DecodingContext) (dl ckSize : Nat) (r : Decoded)
    (hsize : rd32 mem (s0.data + 4) = some ckSize)
    (hfit : 8 + ckSize + ckSize % 2 ≤ s0.len)
    (hrun : chunk_iteration mem (fun sn c => _decode_chunks mem fuel sn [] c 0)
      s0 out ctx dl = .ok r s3) :
    s3.data = s0.data + (8 + ckSize + ckSize % 2) ∧
    s3.len = s0.len - (8 + ckSize + ckSize % 2) ∧
    _decode_chunks mem (fuel + 1) s0 out ctx dl =
      _decode_chunks mem fuel s3 r.2.1 r.2.2 r.1 := by
  have hloop : _decode_chunks mem (fuel + 1) s0 out ctx dl =
      _decode_chunks mem fuel s3 r.2.1 r.2.2 r.1 := by
    simp only [_decode_chunks]
    rw [if_pos (by omega), hrun]
    rfl
  have hn : NestedOk (fun sn c => _decode_chunks mem fuel sn [] c 0) :=
    fun sn c r sn2 hr => _decode_chunks_steps fuel hr
  unfold chunk_iteration at hrun
  simp only at hrun
  split at hrun
  · cases hrun
  split at hrun
  · cases hrun
  rw [hsize] at hrun
  split at hrun
  · rename_i ckId ckSize' hck hsz
    cases hsz
    simp only [Res.bind_eq_ok] at hrun
    obtain ⟨r1, s2, h1, dl2, s3', h2, h⟩ := hrun
    cases h
    have hadv := advance_of_le (s := { s0 with last_error := 0 }) (d := 8)
      (by simp only; omega)
    have hd : (advance { s0 with last_error := 0 } 8).data = s0.data + 8 := by rw [hadv]
    have hl : (advance { s0 with last_error := 0 } 8).len = s0.len - 8 := by rw [hadv]
    have he : (advance { s0 with last_error := 0 } 8).last_error = 0 := by
      rw [advance_last_error]
    generalize advance { s0 with last_error := 0 } 8 = s1 at h1 h2 hd hl he
    have a1 := chunk_dispatch_steps hn he h1
    have hign : ignore_this (List.take 4 (List.drop s0.data mem)) = true →
        s2 = advance s1 ckSize := by
      intro hi
      unfold chunk_dispatch at h1
      rw [if_pos hi] at h1
      simp only at h1
      split at h1
      · cases h1
      · cases h1
        rfl
    have := chunk_reconcile_position a1.1 (by omega) hign h2
    refine ⟨by omega, by omega, hloop⟩
  · cases hrun

theorem chunk_iteration_resync_witness :
    rd32 resync_buffer (0 + 4) = some 20 ∧ 8 + 20 + 20 % 2 ≤ 38 ∧
    ((28 : Nat) = 0 + (8 + 20 + 20 % 2) ∧ (10 : Nat) = 38 - (8 + 20 + 20 % 2) ∧
      _decode_chunks resync_buffer (1 + 1)
        { data := 0, len := 38, parents := [], last_error := 0 } []
        { level_size := 0, list_type := none } 0 =
      _decode_chunks resync_buffer 1
        { data := 28, len := 10, parents := [], last_error := 0 } [resync_node]
        { level_size := 0, list_type := none } 28) :=
  ⟨rfl, by decide,
   chunk_iteration_resync resync_buffer 1
     { data := 0, len := 38, parents := [], last_error := 0 }
     { data := 28, len := 10, parents := [], last_error := 0 } []
     { level_size := 0, list_type := none } 0 20
     (28, [resync_node], { level_size := 0, list_type := none }) rfl (by decide) rfl⟩

theorem propagates_of_zero {s : State} (h : s.last_error = 0) : propagates s = false := by
  simp [propagates, h]

theorem checkerr_code_zero : checkerr_code 0 = RES_ERR := rfl

/-- C2: when the chunk is not ignored and its decoder returns after taking
more bytes from the cursor than the declared size, the pass through the loop
body ends in `exit(EXIT_FAILURE)` with `last_error = RES_ERR`, and so does
`_decode_chunks`: no forest is returned and no sibling is read. -/
theorem chunk_overrun_fatal (mem : List Nat) (fuel : Nat) (s0 s2 : State)
    (out : List GmmChunk) (ctx : DecodingContext) (dl ckSize : Nat) (ckId : List Nat)
    (r1 : Nat × GmmChunk × DecodingContext)
    (hid : strncpy (mem.drop s0.data) 4 = some ckId)
    (hsize : rd32 mem (s0.data + 4) = some ckSize)
    (hign : ignore_this ((mem.drop s0.data).take 4) = false)
    (hdec : chunk_dispatch mem (fun sn c => _decode_chunks mem fuel sn [] c 0)
      ((mem.drop s0.data).take 4) { ckId := ckId, ckSize := ckSize }
      (advance { s0 with last_error := 0 } 8) ctx (addW dl 8) = .ok r1 s2)
    (hover : ckSize < (advance { s0 with last_error := 0 } 8).len - s2.len) :
    chunk_iteration mem (fun sn c => _decode_chunks mem fuel sn [] c 0) s0 out ctx dl =
      .exit RES_ERR ∧
    _decode_chunks mem (fuel + 1) s0 out ctx dl = .exit RES_ERR := by
  have hn : NestedOk (fun sn c => _decode_chunks mem fuel sn [] c 0) :=
    fun sn c r sn2 hr => _decode_chunks_steps fuel hr
  have he : (advance { s0 with last_error := 0 } 8).last_error = 0 := by
    rw [advance_last_error]
  have a1 := chunk_dispatch_steps hn he hdec
  have hpos : 0 < s0.len := by
    have := (Steps.advance { s0 with last_error := 0 } 8).acct.2
    simp only at this
    omega
  have hit : chunk_iteration mem (fun sn c => _decode_chunks mem fuel sn [] c 0)
      s0 out ctx dl = .exit RES_ERR := by
    unfold chunk_iteration
    simp only
    split
    · rfl
    rw [propagates_of_zero he]
    simp only [Bool.false_eq_true, if_false, hid, hsize, hdec, Res.bind, hign]
    unfold chunk_reconcile
    rw [subW_of_le a1.1.acct.2]
    have hne : (advance { s0 with last_error := 0 } 8).len - s2.len ≠ ckSize := by omega
    simp only [Bool.not_false, Bool.true_and, hne, ne_eq, not_false_eq_true, decide_True,
      if_true, hover, a1.2, checkerr_code_zero, Res.bind]
  refine ⟨hit, ?_⟩
  simp only [_decode_chunks]
  rw [if_pos hpos, hit]
  rfl

theorem chunk_overrun_fatal_witness :
    _decode_chunks overrun_buffer (0 + 1)
      { data := 0, len := 15, parents := [], last_error := 0 } []
      { level_size := 0, list_type := some type_lvl } 0 = .exit RES_ERR :=
  (chunk_overrun_fatal overrun_buffer 0
    { data := 0, len := 15, parents := [], last_error := 0 }
    { data := 15, len := 0, parents := [], last_error := 0 } []
    { level_size := 0, list_type := some type_lvl } 0 3 [99, 111, 111, 114]
    (15, .lvl_coor { ckId := [99, 111, 111, 114], ckSize := 3 }
      { origin := 1, row_style := 2, column_style := 3, row_start := 1284,
        column_start := 1798 },
      { level_size := 0, list_type := some type_lvl })
    rfl rfl rfl rfl (by decide)).2

theorem chunk_dispatch_kind {mem : List Nat}
    {nested : State → DecodingContext → Res Decoded} {tag : List Nat}
    {head : RiffChunkHeader} {s1 s2 : State} {ctx : DecodingContext} {dl : Nat}
    {r : Nat × GmmChunk × DecodingContext}
    (hign : ignore_this tag = false) (hlist : tag ≠ tag_LIST)
    (h : chunk_dispatch mem nested tag head s1 ctx dl = .ok r s2) :
    r.2.1.head = head ∧ r.2.1.ctype = expected_ctype tag ctx.list_type ∧
    (r.2.1.ctype = .GMM_UNKNOWN → r.2.1 = .unknown head ∧ s2 = s1 ∧ r.1 = dl) := by
  unfold chunk_dispatch at h
  rw [if_neg (by simp [hign]), if_neg hlist] at h
  unfold expected_ctype
  by_cases h1 : tag = tag_prop
  · rw [if_pos h1] at h ⊢
    unfold prop_branch at h
    split at h
    · cases h
    rename_i lt hlt
    rw [hlt]
    split at h
    · rename_i hm
      simp only [Res.bind_eq_ok] at h
      obtain ⟨_, s', -, h⟩ := h
      cases h
      simp [hm, GmmChunk.head, GmmChunk.ctype]
    rename_i hm
    split at h
    · rename_i hl
      simp only [Res.bind_eq_ok] at h
      obtain ⟨_, s', -, h⟩ := h
      split at h
      · cases h
      cases h
      subst hl
      simp [hm, GmmChunk.head, GmmChunk.ctype]
    · rename_i hl
      cases h
      simp [hm, hl, GmmChunk.head, GmmChunk.ctype]
  rw [if_neg h1] at h ⊢
  by_cases h2 : tag = tag_coor
  · rw [if_pos h2] at h ⊢
    unfold coor_branch at h
    split at h
    · cases h
    rename_i lt hlt
    rw [hlt]
    split at h
    · rename_i hm
      simp only [Res.bind_eq_ok] at h
      obtain ⟨_, s', -, h⟩ := h
      cases h
      simp [hm, GmmChunk.head, GmmChunk.ctype]
    rename_i hm
    split at h
    · rename_i hl
      simp only [Res.bind_eq_ok] at h
      obtain ⟨_, s', -, h⟩ := h
      cases h
      subst hl
      simp [hm, GmmChunk.head, GmmChunk.ctype]
    · rename_i hl
      cases h
      simp [hm, hl, GmmChunk.head, GmmChunk.ctype]
  rw [if_neg h2] at h ⊢
  by_cases h3 : tag = tag_cell
  · rw [if_pos h3] at h ⊢
    simp only [Res.bind_eq_ok] at h
    obtain ⟨_, s', -, h⟩ := h
    cases h
    simp [GmmChunk.head, GmmChunk.ctype]
  rw [if_neg h3] at h ⊢
  by_cases h4 : tag = tag_anno
  · rw [if_pos h4] at h ⊢
    simp only [Res.bind_eq_ok] at h
    obtain ⟨_, s', -, h⟩ := h
    cases h
    simp [GmmChunk.head, GmmChunk.ctype]
  rw [if_neg h4] at h ⊢
  by_cases h5 : tag = tag_lnks
  · rw [if_pos h5] at h
    have h6 : tag ≠ tag_regn := by
      rw [h5]
      decide
    rw [if_neg h6, if_pos h5]
    simp only [Res.bind_eq_ok] at h
    obtain ⟨_, s', -, h⟩ := h
    cases h
    simp [GmmChunk.head, GmmChunk.ctype]
  rw [if_neg h5] at h
  by_cases h6 : tag = tag_regn
  · rw [if_pos h6] at h ⊢
    simp only [Res.bind_eq_ok] at h
    obtain ⟨_, s', -, h⟩ := h
    cases h
    simp [GmmChunk.head, GmmChunk.ctype]
  rw [if_neg h6] at h ⊢
  rw [if_neg h5]
  cases h
  simp [GmmChunk.head, GmmChunk.ctype]

/-- For a chunk that is neither ignored nor a "LIST", the node a pass through
the loop body appends, when the pass returns, has the header of the chunk and
the kind `expected_ctype` gives for the tag and the list type of the context;
when that kind is `GMM_UNKNOWN` the node is the bare header, the dispatch has
left the cursor where the header ended and has counted no decoded byte. -/
theorem chunk_kind_of_tag (mem : List Nat) (nested : State → DecodingContext → Res Decoded)
    (s0 s3 : State) (out : List GmmChunk) (ctx : DecodingContext) (dl ckSize : Nat)
    (ckId : List Nat) (r : Decoded)
    (hid : strncpy (mem.drop s0.data) 4 = some ckId)
    (hsize : rd32 mem (s0.data + 4) = some ckSize)
    (hign : ignore_this ((mem.drop s0.data).take 4) = false)
    (hlist : (mem.drop s0.data).take 4 ≠ tag_LIST)
    (hrun : chunk_iteration mem nested s0 out ctx dl = .ok r s3) :
    ∃ dl1 node ctx1 s2,
      chunk_dispatch mem nested ((mem.drop s0.data).take 4) { ckId := ckId, ckSize := ckSize }
        (advance { s0 with last_error := 0 } 8) ctx (addW dl 8) = .ok (dl1, node, ctx1) s2 ∧
      r.2.1 = out ++ [node] ∧
      node.head = { ckId := ckId, ckSize := ckSize } ∧
      node.ctype = expected_ctype ((mem.drop s0.data).take 4) ctx.list_type ∧
      (node.ctype = .GMM_UNKNOWN →
        node = .unknown { ckId := ckId, ckSize := ckSize } ∧
        s2 = advance { s0 with last_error := 0 } 8 ∧ dl1 = addW dl 8) := by
  unfold chunk_iteration at hrun
  simp only at hrun
  split at hrun
  · cases hrun
  split at hrun
  · cases hrun
  rw [hid, hsize] at hrun
  simp only [Res.bind_eq_ok] at hrun
  obtain ⟨r1, s2, h1, dl2, s3', -, h⟩ := hrun
  cases h
  have hk := chunk_dispatch_kind hign hlist h1
  exact ⟨r1.1, r1.2.1, r1.2.2, s2, h1, rfl, hk.1, hk.2.1, hk.2.2⟩

theorem chunk_kind_of_tag_witness :
    ∃ dl1 node ctx1 s2,
      chunk_dispatch coor_buffer (fun sn c => _decode_chunks coor_buffer 0 sn [] c 0)
        ((coor_buffer.drop 0).take 4) { ckId := [99, 111, 111, 114], ckSize := 7 }
        (advance { data := 0, len := 16, parents := [], last_error := 0 } 8)
        { level_size := 0, list_type := some type_lvl } (addW 0 8) = .ok (dl1, node, ctx1) s2 ∧
      [node] = [] ++ [node] ∧
      node.head = { ckId := [99, 111, 111, 114], ckSize := 7 } ∧
      node.ctype = expected_ctype ((coor_buffer.drop 0).take 4) (some type_lvl) ∧
      (node.ctype = .GMM_UNKNOWN →
        node = .unknown { ckId := [99, 111, 111, 114], ckSize := 7 } ∧
        s2 = advance { data := 0, len := 16, parents := [], last_error := 0 } 8 ∧
        dl1 = addW 0 8) := by
  obtain ⟨dl1, node, ctx1, s2, h1, h2, h3⟩ :=
    chunk_kind_of_tag coor_buffer (fun sn c => _decode_chunks coor_buffer 0 sn [] c 0)
      { data := 0, len := 16, parents := [], last_error := 0 }
      { data := 16, len := 0, parents := [], last_error := 0 } []
      { level_size := 0, list_type := some type_lvl } 0 7 [99, 111, 111, 114]
      (16, [.lvl_coor { ckId := [99, 111, 111, 114], ckSize := 7 }
        { origin := 1, row_style := 2, column_style := 3, row_start := 1284,
          column_start := 1798 }],
        { level_size := 0, list_type := some type_lvl })
      rfl rfl rfl (by decide) rfl
  exact ⟨dl1, node, ctx1, s2, h1, rfl, h3⟩

/-- C5: a pass through the loop body on a "LIST" chunk hands back the context
it was given, list type and grid size, whatever the nested chunks are; the
loop goes on to the later siblings with that same context. -/
theorem list_keeps_context (mem : List Nat) (fuel : Nat) (s0 s3 : State)
    (out : List GmmChunk) (ctx : DecodingContext) (dl : Nat) (r : Decoded)
    (htag : (mem.drop s0.data).take 4 = tag_LIST)
    (hrun : chunk_iteration mem (fun sn c => _decode_chunks mem fuel sn [] c 0)
      s0 out ctx dl = .ok r s3) :
    r.2.2 = ctx ∧
    _decode_chunks mem (fuel + 1) s0 out ctx dl =
      _decode_chunks mem fuel s3 r.2.1 ctx r.1 := by
  have hctx : r.2.2 = ctx := by
    unfold chunk_iteration at hrun
    simp only at hrun
    split at hrun
    · cases hrun
    split at hrun
    · cases hrun
    split at hrun
    · simp only [Res.bind_eq_ok] at hrun
      obtain ⟨r1, s2, h1, dl2, s3', -, h⟩ := hrun
      cases h
      unfold chunk_dispatch at h1
      rw [htag, if_neg (by decide), if_pos rfl] at h1
      unfold list_branch at h1
      split at h1
      · cases h1
      split at h1
      · cases h1
      dsimp only at h1
      split at h1
      · cases h1
      split at h1
      · cases h1
      split at h1
      · cases h1
      simp only [Res.bind_eq_ok] at h1
      obtain ⟨rn, sn2, -, h1⟩ := h1
      split at h1
      · cases h1
      cases h1
      rfl
    · cases hrun
  refine ⟨hctx, ?_⟩
  have hpos : 0 < s0.len := by
    unfold chunk_iteration at hrun
    simp only at hrun
    split at hrun
    · cases hrun
    · rename_i h4
      omega
  simp only [_decode_chunks]
  rw [if_pos hpos, hrun, ← hctx]
  rfl

theorem list_keeps_context_witness :
    ({ level_size := 0, list_type := none } : DecodingContext) =
      { level_size := 0, list_type := none } ∧
    _decode_chunks lvl_list_buffer (3 + 1)
      { data := 0, len := 34, parents := [], last_error := 0 } []
      { level_size := 0, list_type := none } 0 =
    _decode_chunks lvl_list_buffer 3
      { data := 34, len := 0, parents := [], last_error := 0 } [lvl_list_node]
      { level_size := 0, list_type := none } 12 :=
  list_keeps_context lvl_list_buffer 3
    { data := 0, len := 34, parents := [], last_error := 0 }
    { data := 34, len := 0, parents := [], last_error := 0 } []
    { level_size := 0, list_type := none } 0
    (12, [lvl_list_node], { level_size := 0, list_type := none }) rfl rfl

/-- C6 as stated fails: decoding a buffer that holds one "disp" chunk yields
a forest of one node, the `GMM_UNKNOWN` node of that chunk. -/
theorem ignored_chunk_leaves_node :
    _decode_chunks disp_buffer 2
      { data := 0, len := 12, parents := [], last_error := 0 } []
      { level_size := 0, list_type := none } 0 =
    .ok (9, [.unknown { ckId := [100, 105, 115, 112], ckSize := 3 }],
         { level_size := 0, list_type := none })
      { data := 12, len := 0, parents := [], last_error := 0 } := rfl

/-- C6 amended: for a chunk whose tag is in the ignore list and whose declared
size fits in the cursor with its padding byte, a pass through the loop body
returns normally, appends one `GMM_UNKNOWN` node holding the tag and the
declared size, leaves the context alone, counts the header and the padding
byte only, and moves the cursor past header, body and padding byte. -/
theorem ignored_chunk_skipped (mem : List Nat)
    (nested : State → DecodingContext → Res Decoded) (s0 : State)
    (out : List GmmChunk) (ctx : DecodingContext) (dl ckSize : Nat) (ckId : List Nat)
    (hid : strncpy (mem.drop s0.data) 4 = some ckId)
    (hsize : rd32 mem (s0.data + 4) = some ckSize)
    (hign : ignore_this ((mem.drop s0.data).take 4) = true)
    (hfit : 8 + ckSize + ckSize % 2 ≤ s0.len) :
    ∃ s3, chunk_iteration mem nested s0 out ctx dl =
        .ok (if ckSize % 2 = 1 then addW (addW dl 8) 1 else addW dl 8,
             out ++ [.unknown { ckId := ckId, ckSize := ckSize }], ctx) s3 ∧
      s3.data = s0.data + (8 + ckSize + ckSize % 2) ∧
      s3.len = s0.len - (8 + ckSize + ckSize % 2) ∧
      s3.last_error = 0 := by
  have he : (advance { s0 with last_error := 0 } 8).last_error = 0 := by
    rw [advance_last_error]
  have hadv := advance_of_le (s := { s0 with last_error := 0 }) (d := 8)
    (by simp only; omega)
  have hd : (advance { s0 with last_error := 0 } 8).data = s0.data + 8 := by rw [hadv]
  have hl : (advance { s0 with last_error := 0 } 8).len = s0.len - 8 := by rw [hadv]
  unfold chunk_iteration
  simp only
  rw [if_neg (by omega), propagates_of_zero he]
  simp only [Bool.false_eq_true, if_false, hid, hsize, hign]
  generalize advance { s0 with last_error := 0 } 8 = s1 at hd hl he
  unfold chunk_dispatch
  rw [if_pos hign]
  simp only
  have he2 : (advance s1 ckSize).last_error = 0 := by rw [advance_last_error, he]
  have hadv2 := advance_of_le (s := s1) (d := ckSize) (by omega)
  have hd2 : (advance s1 ckSize).data = s0.data + 8 + ckSize := by rw [hadv2, ← hd]
  have hl2 : (advance s1 ckSize).len = s0.len - 8 - ckSize := by rw [hadv2, ← hl]
  rw [propagates_of_zero he2]
  generalize advance s1 ckSize = s2 at hd2 hl2 he2
  simp only [Bool.false_eq_true, if_false, Res.bind, chunk_reconcile, Bool.not_true,
    Bool.false_and]
  by_cases hodd : ckSize % 2 = 1
  · simp only [hodd, if_true]
    refine ⟨_, rfl, ?_, ?_, ?_⟩
    · rw [advance_of_le (by omega)]
      simp only
      omega
    · rw [advance_of_le (by omega)]
      simp only
      omega
    · rw [advance_last_error, he2]
  · simp only [hodd, if_false]
    refine ⟨_, rfl, ?_, ?_, he2⟩
    · omega
    · omega

theorem ignored_chunk_skipped_witness :
    ∃ s3, chunk_iteration disp_buffer (fun sn c => _decode_chunks disp_buffer 0 sn [] c 0)
        { data := 0, len := 12, parents := [], last_error := 0 } []
        { level_size := 0, list_type := none } 0 =
        .ok (if 3 % 2 = 1 then addW (addW 0 8) 1 else addW 0 8,
             [] ++ [.unknown { ckId := [100, 105, 115, 112], ckSize := 3 }],
             { level_size := 0, list_type := none }) s3 ∧
      s3.data = 0 + (8 + 3 + 3 % 2) ∧
      s3.len = 12 - (8 + 3 + 3 % 2) ∧
      s3.last_error = 0 :=
  ignored_chunk_skipped disp_buffer (fun sn c => _decode_chunks disp_buffer 0 sn [] c 0)
    { data := 0, len := 12, parents := [], last_error := 0 } []
    { level_size := 0, list_type := none } 0 3 [100, 105, 115, 112]
    rfl rfl rfl (by decide)

/-- C4 at a failing input: two files hold the same "LIST" chunk, header, type
and body, and differ in one byte after it; the children decoded for the list
differ, the `origin` of the "coor" child being that later byte. -/
theorem list_children_read_outside :
    (list_coor_buffer 1).take 20 = (list_coor_buffer 9).take 20 ∧
    _decode_chunks (list_coor_buffer 1) 4
      { data := 0, len := 28, parents := [], last_error := 0 } []
      { level_size := 0, list_type := none } 0 =
    .ok (5666854,
         [.list { ckId := [76, 73, 83, 84], ckSize := 12 } [109, 97, 112, 32]
            [.map_coor { ckId := [99, 111, 111, 114], ckSize := 0 }
              { origin := 1, row_style := 2, column_style := 3, row_start := 4660,
                column_start := 22136 }],
          .unknown { ckId := [1, 2, 3, 52], ckSize := 5666834 }],
         { level_size := 0, list_type := none })
      { data := 28, len := 0, parents := [], last_error := 0 } ∧
    _decode_chunks (list_coor_buffer 9) 4
      { data := 0, len := 28, parents := [], last_error := 0 } []
      { level_size := 0, list_type := none } 0 =
    .ok (5666854,
         [.list { ckId := [76, 73, 83, 84], ckSize := 12 } [109, 97, 112, 32]
            [.map_coor { ckId := [99, 111, 111, 114], ckSize := 0 }
              { origin := 9, row_style := 2, column_style := 3, row_start := 4660,
                column_start := 22136 }],
          .unknown { ckId := [9, 2, 3, 52], ckSize := 5666834 }],
         { level_size := 0, list_type := none })
      { data := 28, len := 0, parents := [], last_error := 0 } :=
  ⟨rfl, rfl, rfl⟩

/-- C7 at a failing input: the nested cursor of the list has four bytes left
where a header is expected; the loop reads a header of eight bytes, four of
them past the end of the list, and the decoding returns a forest. -/
theorem short_header_not_rejected :
    _decode_chunks short_header_buffer 4
      { data := 0, len := 24, parents := [], last_error := 0 } []
      { level_size := 0, list_type := none } 0 =
    .ok (1684234870,
         [.list { ckId := [76, 73, 83, 84], ckSize := 8 } [108, 118, 108, 32]
            [.unknown { ckId := [106, 117, 110, 107], ckSize := 4 }],
          .unknown { ckId := [4, 0, 0, 0], ckSize := 1684234849 }],
         { level_size := 0, list_type := none })
      { data := 24, len := 0, parents := [], last_error := 0 } := rfl

/-- C8 at a failing input: the "lnks" chunk has two bytes, its count says one
record; the twelve bytes of the record lie past the end of the chunk and of
the enclosing list, and the decoding returns a record built from them. -/
theorem links_record_read_outside :
    _decode_chunks links_outside_buffer 5
      { data := 0, len := 38, parents := [], last_error := 0 } []
      { level_size := 0, list_type := none } 0 =
    .ok (28,
         [.list { ckId := [76, 73, 83, 84], ckSize := 14 } [109, 97, 112, 32]
            [.map_links { ckId := [108, 110, 107, 115], ckSize := 2 }
              { num_links := 1,
                records := [{ src_level_index := 16961, src_row := 17475, src_column := 0,
                              dest_level_index := 0, dest_row := 17989,
                              dest_column := 18503 }] }],
          .unknown { ckId := [65, 66, 67, 68], ckSize := 0 },
          .unknown { ckId := [69, 70, 71, 72], ckSize := 0 }],
         { level_size := 0, list_type := none })
      { data := 38, len := 0, parents := [], last_error := 0 } := rfl

theorem rle_loop_eq (size : Nat) (tail : List Nat) :
    ∀ (n : Nat) (stream written : List Nat), stream.length = n → written.length ≤ size →
      rle_loop size stream.length (stream ++ tail) written =
        if written.length + (rle_expand stream).length > size ∨ rle_dangling stream = true
        then .error else .done (written ++ rle_expand stream) := by
  intro n
  induction n using Nat.strong_induction_on with
  | _ n ih =>
    intro stream written hn hw
    match stream, hn with
    | [], _ =>
      have : ¬ written.length > size := by omega
      simp [rle_loop, rle_expand, rle_dangling, this]
    | [c], _ =>
      by_cases hc : c &&& 0x80 ≠ 0
      · have hd : decide (c &&& 0x80 ≠ 0) = true := decide_eq_true hc
        simp only [List.length_singleton, List.singleton_append, rle_loop, if_pos hc,
          rle_expand, rle_dangling]
        rw [if_pos (Or.inr hd)]
        exact ite_self _
      · have hd : ¬ decide (c &&& 0x80 ≠ 0) = true := by
          intro h
          exact hc (of_decide_eq_true h)
        simp only [List.length_singleton, List.singleton_append, rle_loop, if_neg hc,
          rle_expand, rle_dangling]
        by_cases hov : written.length + 1 > size
        · rw [if_pos hov, if_pos (Or.inl hov)]
        · rw [if_neg hov, if_neg (fun h => h.elim hov hd)]
    | c :: v :: rest, hn =>
      by_cases hc : c &&& 0x80 ≠ 0
      · simp only [List.length_cons, List.cons_append, rle_loop, if_pos hc, rle_expand,
          rle_dangling, List.length_append, List.length_replicate]
        by_cases hov : written.length + ((c &&& 0x7f) + 1) > size
        · rw [if_pos hov, if_pos (Or.inl (by omega))]
        · rw [if_neg hov]
          have := ih rest.length (by simp only [List.length_cons] at hn; omega) rest
            (written ++ List.replicate ((c &&& 0x7f) + 1) v) rfl
            (by simp only [List.length_append, List.length_replicate]; omega)
          simp only [List.append_eq]
          rw [this]
          simp only [List.length_append, List.length_replicate, List.append_assoc]
          congr 1
          apply propext
          constructor
          · rintro (h | h)
            · exact Or.inl (by omega)
            · exact Or.inr h
          · rintro (h | h)
            · exact Or.inl (by omega)
            · exact Or.inr h
      · simp only [List.length_cons, List.cons_append, rle_loop, if_neg hc, rle_expand,
          rle_dangling]
        by_cases hov : written.length + 1 > size
        · rw [if_pos hov, if_pos (Or.inl (by omega))]
        · rw [if_neg hov]
          have := ih (v :: rest).length (by simp only [List.length_cons] at hn ⊢; omega)
            (v :: rest) (written ++ [c]) rfl
            (by simp only [List.length_append, List.length_singleton]; omega)
          simp only [List.length_cons, List.cons_append] at this
          simp only [List.append_eq, List.cons_append]
          rw [this]
          simp only [List.length_append, List.length_singleton, List.append_assoc,
            List.singleton_append, List.length_cons, List.length_nil]
          congr 1
          apply propext
          constructor
          · rintro (h | h)
            · exact Or.inl (by omega)
            · exact Or.inr h
          · rintro (h | h)
            · exact Or.inl (by omega)
            · exact Or.inr h

theorem propagates_of_nonneg {s : State} (h : 0 ≤ s.last_error) : propagates s = false := by
  simp only [propagates, decide_eq_false_iff_not]
  omega

theorem rdN_eq_some {mem stream : List Nat} {p n : Nat} (h : rdN mem p n = some stream) :
    stream.length = n ∧ mem.drop p = stream ++ mem.drop (p + n) := by
  unfold rdN at h
  split at h
  · rename_i hle
    simp only [Option.some.injEq] at h
    subst h
    constructor
    · simp only [List.length_take, List.length_drop]
      omega
    · rw [← List.drop_drop, List.take_append_drop]
  · cases h

theorem decode_cell_layer_mode1 {mem stream : List Nat} {s : State} {size L : Nat}
    (hmode : rd8 mem s.data = some 1) (hL : rd32 mem (s.data + 1) = some L)
    (hstream : rdN mem (s.data + 5) L = some stream) (hcur : 5 ≤ s.len)
    (he : 0 ≤ s.last_error) :
    decode_cell_layer mem s size =
      if (rle_expand stream).length > size ∨ rle_dangling stream = true then
        .ok none { advance (advance (advance s 1) 4) L with
                   last_error := checkerr_code s.last_error }
      else
        .ok (some (rle_expand stream ++
          List.replicate (size - (rle_expand stream).length) 0))
          (advance (advance (advance s 1) 4) L) := by
  have h1 : (advance s 1).data = s.data + 1 := by rw [advance_of_le (by omega)]
  have h1l : (advance s 1).len = s.len - 1 := by rw [advance_of_le (by omega)]
  have h2 : (advance (advance s 1) 4).data = s.data + 5 := by
    rw [advance_of_le (by omega), h1]
  have hs := rdN_eq_some hstream
  have hloop := rle_loop_eq size (mem.drop (s.data + 5 + L)) L stream [] hs.1
    (Nat.zero_le _)
  rw [hs.1, ← hs.2] at hloop
  unfold decode_cell_layer
  simp only
  rw [propagates_of_nonneg (by rw [advance_last_error]; exact he), hmode]
  simp only [Bool.false_eq_true, if_false, one_ne_zero, if_true]
  rw [propagates_of_nonneg (by rw [advance_last_error, advance_last_error]; exact he), h1, hL]
  simp only [Bool.false_eq_true, if_false]
  rw [propagates_of_nonneg
    (by rw [advance_last_error, advance_last_error, advance_last_error]; exact he), h2, hloop]
  simp only [Bool.false_eq_true, if_false, List.length_nil, Nat.zero_add, List.nil_append,
    advance_last_error]
  by_cases hc : (rle_expand stream).length > size ∨ rle_dangling stream = true
  · simp only [if_pos hc]
  · simp only [if_neg hc]

/-- C9: for a cursor at mode byte 1, a little-endian compressed length `L` and
`L` stream bytes, every call of `decode_cell_layer` that returns a grid returns
`size` bytes: the left-to-right expansion of the stream, then zero bytes up to
`size`. -/
theorem decode_cell_layer_rle_expansion (mem stream grid : List Nat) (s s' : State)
    (size L : Nat)
    (hmode : rd8 mem s.data = some 1) (hL : rd32 mem (s.data + 1) = some L)
    (hstream : rdN mem (s.data + 5) L = some stream) (hcur : 5 ≤ s.len)
    (hok : decode_cell_layer mem s size = .ok (some grid) s') :
    grid.length = size ∧
    grid = rle_expand stream ++ List.replicate (size - (rle_expand stream).length) 0 := by
  have he : 0 ≤ s.last_error := by
    by_contra hneg
    have hp : propagates (advance s 1) = true := by
      simp only [propagates, advance_last_error, decide_eq_true_eq]
      omega
    unfold decode_cell_layer at hok
    simp only [hp, if_true] at hok
    cases hok
  rw [decode_cell_layer_mode1 hmode hL hstream hcur he] at hok
  split at hok
  · cases hok
  · rename_i hc
    simp only [Res.ok.injEq, Option.some.injEq] at hok
    refine ⟨?_, hok.1.symm⟩
    rw [← hok.1, List.length_append, List.length_replicate]
    have : ¬ (rle_expand stream).length > size := fun h => hc (Or.inl h)
    omega

theorem decode_cell_layer_rle_expansion_witness :
    [7, 7, 7, 5, 9, 0, 0].length = 7 ∧
    [7, 7, 7, 5, 9, 0, 0] = rle_expand [130, 7, 5, 128, 9] ++
      List.replicate (7 - (rle_expand [130, 7, 5, 128, 9]).length) 0 :=
  decode_cell_layer_rle_expansion rle_buffer [130, 7, 5, 128, 9] [7, 7, 7, 5, 9, 0, 0]
    { data := 0, len := 10, parents := [], last_error := 0 }
    { data := 10, len := 0, parents := [], last_error := 0 } 7 5 rfl rfl rfl (by decide) rfl

/-- C10: for a cursor that holds mode byte 1, the compressed length `L` and
the `L` stream bytes, called with no error pending, `decode_cell_layer` returns
`NULL` with `last_error = RES_ERR` when the expansion of the stream is longer
than `size` or the stream ends right after a byte that opens a run; otherwise
it returns a grid of `size` bytes that starts with the whole expansion, no
more than `size` bytes having been written. -/
theorem decode_cell_layer_rle_checked (mem stream : List Nat) (s : State) (size L : Nat)
    (hmode : rd8 mem s.data = some 1) (hL : rd32 mem (s.data + 1) = some L)
    (hstream : rdN mem (s.data + 5) L = some stream) (hcur : 5 + L ≤ s.len)
    (he : s.last_error = 0) :
    (((rle_expand stream).length > size ∨ rle_dangling stream = true) →
      ∃ s', decode_cell_layer mem s size = .ok none s' ∧ s'.last_error = RES_ERR) ∧
    (¬ ((rle_expand stream).length > size ∨ rle_dangling stream = true) →
      ∃ grid s', decode_cell_layer mem s size = .ok (some grid) s' ∧
        grid.length = size ∧ (rle_expand stream).length ≤ size ∧
        grid.take (rle_expand stream).length = rle_expand stream ∧
        s'.last_error = 0) := by
  rw [decode_cell_layer_mode1 hmode hL hstream (by omega) (by omega)]
  constructor
  · intro hc
    rw [if_pos hc]
    refine ⟨_, rfl, ?_⟩
    simp only [he]
    rfl
  · intro hc
    rw [if_neg hc]
    have hle : (rle_expand stream).length ≤ size := by
      by_contra h
      exact hc (Or.inl (by omega))
    refine ⟨_, _, rfl, ?_, hle, ?_, ?_⟩
    · rw [List.length_append, List.length_replicate]
      omega
    · rw [List.take_left']
      rfl
    · simp only [advance_last_error, he]

theorem decode_cell_layer_rle_checked_witness :
    (((rle_expand [130, 7, 5, 128, 9]).length > 4 ∨ rle_dangling [130, 7, 5, 128, 9] = true) →
      ∃ s', decode_cell_layer rle_buffer
        { data := 0, len := 10, parents := [], last_error := 0 } 4 = .ok none s' ∧
        s'.last_error = RES_ERR) ∧
    (¬ ((rle_expand [130, 7, 5, 128, 9]).length > 4 ∨
        rle_dangling [130, 7, 5, 128, 9] = true) →
      ∃ grid s', decode_cell_layer rle_buffer
        { data := 0, len := 10, parents := [], last_error := 0 } 4 = .ok (some grid) s' ∧
        grid.length = 4 ∧ (rle_expand [130, 7, 5, 128, 9]).length ≤ 4 ∧
        grid.take (rle_expand [130, 7, 5, 128, 9]).length = rle_expand [130, 7, 5, 128, 9] ∧
        s'.last_error = 0) :=
  decode_cell_layer_rle_checked rle_buffer [130, 7, 5, 128, 9]
    { data := 0, len := 10, parents := [], last_error := 0 } 4 5 rfl rfl rfl (by decide) rfl

/-- C17: for `n` up to the cursor's remaining length, `advance_cursor` returns
`RES_OK`, moves the read position forward by `n`, takes `n` off the own
remaining length and off the remaining length of every ancestor (subtraction
of `size_t`); for every chain in which no ancestor has less than `n` left,
each ancestor's new length is its old length minus `n` as a natural number. -/
theorem advance_cursor_ok (s : State) (n : Nat) (h : n ≤ s.len) :
    (advance_cursor s n).1 = RES_OK ∧
    (advance_cursor s n).2.data = s.data + n ∧
    (advance_cursor s n).2.len = s.len - n ∧
    (advance_cursor s n).2.parents = s.parents.map (fun l => subW l n) ∧
    (advance_cursor s n).2.last_error = s.last_error ∧
    ((∀ p ∈ s.parents, n ≤ p) →
      (advance_cursor s n).2.parents = s.parents.map (fun l => l - n)) := by
  unfold advance_cursor
  rw [if_neg (by omega)]
  refine ⟨rfl, rfl, rfl, rfl, rfl, ?_⟩
  intro hp
  apply List.map_congr_left
  intro p hmem
  exact subW_of_le (hp p hmem)

theorem advance_cursor_ok_witness :
    (advance_cursor chain_state 7).1 = RES_OK ∧
    (advance_cursor chain_state 7).2.data = chain_state.data + 7 ∧
    (advance_cursor chain_state 7).2.len = chain_state.len - 7 ∧
    (advance_cursor chain_state 7).2.parents = chain_state.parents.map (fun l => subW l 7) ∧
    (advance_cursor chain_state 7).2.last_error = chain_state.last_error ∧
    ((∀ p ∈ chain_state.parents, 7 ≤ p) →
      (advance_cursor chain_state 7).2.parents = chain_state.parents.map (fun l => l - 7)) :=
  advance_cursor_ok chain_state 7 (by decide)

/-- C18: `advance_cursor` returns `RES_ERR` exactly when `n` exceeds the
cursor's remaining length, `RES_OK` otherwise; when it returns `RES_ERR` the
read position, the own remaining length, the remaining length of every
ancestor and `last_error` are as before the call. -/
theorem advance_cursor_err (s : State) (n : Nat) :
    ((advance_cursor s n).1 = RES_ERR ↔ s.len < n) ∧
    ((advance_cursor s n).1 = RES_OK ↔ ¬ s.len < n) ∧
    (s.len < n → (advance_cursor s n).2 = s) := by
  unfold advance_cursor
  by_cases h : s.len < n
  · rw [if_pos h]
    refine ⟨⟨fun _ => h, fun _ => rfl⟩, ⟨fun he => ?_, fun hn => absurd h hn⟩, fun _ => rfl⟩
    have hne : RES_ERR ≠ RES_OK := by decide
    exact absurd he hne
  · rw [if_neg h]
    refine ⟨⟨fun he => ?_, fun hn => absurd hn h⟩, ⟨fun _ => h, fun _ => rfl⟩,
      fun hn => absurd hn h⟩
    have hne : RES_OK ≠ RES_ERR := by decide
    exact absurd he hne

theorem advance_cursor_err_witness :
    ((advance_cursor chain_state 11).1 = RES_ERR ↔ chain_state.len < 11) ∧
    ((advance_cursor chain_state 11).1 = RES_OK ↔ ¬ chain_state.len < 11) ∧
    (chain_state.len < 11 → (advance_cursor chain_state 11).2 = chain_state) :=
  advance_cursor_err chain_state 11

/-- C19: `recursive_cursor_from` returns the null cursor exactly when the
inner length exceeds the remaining length of the given cursor, and then sets
`last_error` to `RES_BUFFER_TOO_SMALL`; otherwise it returns a cursor at the
same read position, with the inner length as its remaining length and the
given cursor as its parent, and leaves the given cursor and `last_error` as
they were. -/
theorem recursive_cursor_from_spec (s : State) (new_len : Nat) :
    ((recursive_cursor_from s new_len).1 = none ↔ new_len > s.len) ∧
    (new_len > s.len →
      (recursive_cursor_from s new_len).2 = { s with last_error := RES_BUFFER_TOO_SMALL }) ∧
    (new_len ≤ s.len →
      (recursive_cursor_from s new_len).1 =
        some { data := s.data, len := new_len, parents := s.len :: s.parents,
               last_error := s.last_error } ∧
      (recursive_cursor_from s new_len).2 = s) := by
  by_cases h : new_len > s.len
  · rw [recursive_cursor_from_of_gt h]
    exact ⟨⟨fun _ => h, fun _ => rfl⟩, fun _ => rfl, fun hle => absurd h (by omega)⟩
  · rw [recursive_cursor_from_of_le (by omega)]
    refine ⟨⟨fun hn => ?_, fun hn => absurd hn h⟩, fun hn => absurd hn h,
      fun _ => ⟨rfl, rfl⟩⟩
    cases hn

theorem recursive_cursor_from_spec_witness :
    ((recursive_cursor_from chain_state 6).1 = none ↔ 6 > chain_state.len) ∧
    (6 > chain_state.len →
      (recursive_cursor_from chain_state 6).2 =
        { chain_state with last_error := RES_BUFFER_TOO_SMALL }) ∧
    (6 ≤ chain_state.len →
      (recursive_cursor_from chain_state 6).1 =
        some { data := chain_state.data, len := 6,
               parents := chain_state.len :: chain_state.parents,
               last_error := chain_state.last_error } ∧
      (recursive_cursor_from chain_state 6).2 = chain_state) :=
  recursive_cursor_from_spec chain_state 6

theorem rdN_of_le {mem : List Nat} {p n : Nat} (h : p + n ≤ mem.length) :
    rdN mem p n = some ((mem.drop p).take n) := by
  unfold rdN
  rw [if_pos h]

/-- C14: for a cursor inside the buffer that holds the mode byte 0 and at
least `size` more bytes, called with no error pending, `decode_cell_layer`
returns the `size` bytes after the mode byte, in order, and moves the cursor
by `1 + size`: read position, own remaining length and every ancestor. -/
theorem decode_cell_layer_raw (mem : List Nat) (s : State) (size : Nat)
    (hmode : rd8 mem s.data = some 0) (hcur : 1 + size ≤ s.len)
    (hbuf : s.data + s.len ≤ mem.length) (he : 0 ≤ s.last_error) :
    ∃ s', decode_cell_layer mem s size = .ok (some ((mem.drop (s.data + 1)).take size)) s' ∧
      ((mem.drop (s.data + 1)).take size).length = size ∧
      s'.data = s.data + (1 + size) ∧ s'.len = s.len - (1 + size) ∧
      s'.parents = (s.parents.map (fun l => subW l 1)).map (fun l => subW l size) ∧
      s'.last_error = s.last_error := by
  have h1 := advance_of_le (s := s) (d := 1) (by omega)
  have h1d : (advance s 1).data = s.data + 1 := by rw [h1]
  have h1l : (advance s 1).len = s.len - 1 := by rw [h1]
  have h1p : (advance s 1).parents = s.parents.map (fun l => subW l 1) := by rw [h1]
  have h1e : (advance s 1).last_error = s.last_error := advance_last_error _ _
  unfold decode_cell_layer
  simp only
  rw [propagates_of_nonneg (by rw [h1e]; exact he), hmode]
  simp only [Bool.false_eq_true, if_false, if_true]
  rw [propagates_of_nonneg (by rw [advance_last_error, h1e]; exact he), h1d,
    rdN_of_le (by omega)]
  generalize advance s 1 = s1 at h1d h1l h1p h1e
  have h2 := advance_of_le (s := s1) (d := size) (by omega)
  refine ⟨_, rfl, ?_, ?_, ?_, ?_, ?_⟩
  · rw [List.length_take, List.length_drop]
    omega
  · rw [h2]
    simp only
    omega
  · rw [h2]
    simp only
    omega
  · rw [h2, ← h1p]
  · rw [advance_last_error, h1e]

theorem decode_cell_layer_raw_witness :
    ∃ s', decode_cell_layer raw_buffer
        { data := 0, len := 7, parents := [8], last_error := 0 } 5 =
        .ok (some ((raw_buffer.drop (0 + 1)).take 5)) s' ∧
      ((raw_buffer.drop (0 + 1)).take 5).length = 5 ∧
      s'.data = 0 + (1 + 5) ∧ s'.len = 7 - (1 + 5) ∧
      s'.parents = (([8] : List Nat).map (fun l => subW l 1)).map (fun l => subW l 5) ∧
      s'.last_error = 0 :=
  decode_cell_layer_raw raw_buffer { data := 0, len := 7, parents := [8], last_error := 0 } 5
    rfl (by decide) (by decide) (by decide)

/-- C15: for a cursor with at least one byte left whose next byte is the mode
byte 2, called with no error pending, `decode_cell_layer` returns `size` zero
bytes and moves the cursor by the mode byte alone. -/
theorem decode_cell_layer_zero (mem : List Nat) (s : State) (size : Nat)
    (hmode : rd8 mem s.data = some 2) (hcur : 1 ≤ s.len) (he : 0 ≤ s.last_error) :
    decode_cell_layer mem s size =
      .ok (some (List.replicate size 0))
        { data := s.data + 1, len := s.len - 1,
          parents := s.parents.map (fun l => subW l 1), last_error := s.last_error } := by
  unfold decode_cell_layer
  simp only
  rw [propagates_of_nonneg (by rw [advance_last_error]; exact he), hmode]
  simp only [Bool.false_eq_true, if_false, OfNat.ofNat_ne_zero, OfNat.ofNat_ne_one, if_true]
  rw [advance_of_le hcur]

theorem decode_cell_layer_zero_witness :
    decode_cell_layer bad_mode_buffer { data := 0, len := 6, parents := [], last_error := 0 } 10 =
      .ok (some (List.replicate 10 0))
        { data := 0 + 1, len := 6 - 1,
          parents := ([] : List Nat).map (fun l => subW l 1), last_error := 0 } :=
  decode_cell_layer_zero bad_mode_buffer { data := 0, len := 6, parents := [], last_error := 0 }
    10 rfl (by decide) (by decide)

theorem layers_before_succ {mem : List Nat} {size k : Nat} {s0 s : State}
    (h : layers_before mem size (k + 1) s0 = some s) :
    ∃ g s1, propagated (decode_cell_layer mem s0 size) = .ok (some g) s1 ∧
      layers_before mem size k s1 = some s := by
  simp only [layers_before] at h
  split at h
  · rename_i g s1 hdec
    split at h
    · cases h
    · rename_i hp
      refine ⟨g, s1, ?_, h⟩
      rw [propagated_eq_ok]
      exact ⟨hdec, not_propagates hp⟩
  · cases h

theorem layers_before_zero {mem : List Nat} {size : Nat} {s0 s : State}
    (h : layers_before mem size 0 s0 = some s) : s0 = s := by
  simpa [layers_before] using h

/-- C16: for a cursor whose next byte is a mode byte other than 0, 1 and 2,
called with no error pending, `decode_cell_layer` returns `NULL` and sets
`last_error` to `RES_BAD_INPUT`; and `decode_lvl_cell_chunk` ends in
`exit(EXIT_FAILURE)` with that code, whichever of its six layers, the layers
before it decoded, starts with that byte. -/
theorem decode_cell_layer_bad_mode (mem : List Nat) (s0 s : State) (size m k : Nat)
    (hk : k < 6) (hbefore : layers_before mem size k s0 = some s)
    (hmode : rd8 mem s.data = some m) (hm : m ≠ 0 ∧ m ≠ 1 ∧ m ≠ 2)
    (he : 0 ≤ s.last_error) :
    decode_cell_layer mem s size =
      .ok none { advance s 1 with last_error := RES_BAD_INPUT } ∧
    decode_lvl_cell_chunk mem s0 size = .exit RES_BAD_INPUT := by
  have hdec : decode_cell_layer mem s size =
      .ok none { advance s 1 with last_error := RES_BAD_INPUT } := by
    unfold decode_cell_layer
    simp only
    rw [propagates_of_nonneg (by rw [advance_last_error]; exact he), hmode]
    simp only [Bool.false_eq_true, if_false, hm.1, hm.2.1, hm.2.2]
  have hbad : propagated (decode_cell_layer mem s size) = .exit RES_BAD_INPUT := by
    rw [hdec]
    rfl
  refine ⟨hdec, ?_⟩
  unfold decode_lvl_cell_chunk
  match k, hk, hbefore with
  | 0, _, hb =>
    cases layers_before_zero hb
    simp only [hbad, Res.bind]
  | 1, _, hb =>
    obtain ⟨g1, s1, h1, hb⟩ := layers_before_succ hb
    cases layers_before_zero hb
    simp only [h1, hbad, Res.bind]
  | 2, _, hb =>
    obtain ⟨g1, s1, h1, hb⟩ := layers_before_succ hb
    obtain ⟨g2, s2, h2, hb⟩ := layers_before_succ hb
    cases layers_before_zero hb
    simp only [h1, h2, hbad, Res.bind]
  | 3, _, hb =>
    obtain ⟨g1, s1, h1, hb⟩ := layers_before_succ hb
    obtain ⟨g2, s2, h2, hb⟩ := layers_before_succ hb
    obtain ⟨g3, s3, h3, hb⟩ := layers_before_succ hb
    cases layers_before_zero hb
    simp only [h1, h2, h3, hbad, Res.bind]
  | 4, _, hb =>
    obtain ⟨g1, s1, h1, hb⟩ := layers_before_succ hb
    obtain ⟨g2, s2, h2, hb⟩ := layers_before_succ hb
    obtain ⟨g3, s3, h3, hb⟩ := layers_before_succ hb
    obtain ⟨g4, s4, h4, hb⟩ := layers_before_succ hb
    cases layers_before_zero hb
    simp only [h1, h2, h3, h4, hbad, Res.bind]
  | 5, _, hb =>
    obtain ⟨g1, s1, h1, hb⟩ := layers_before_succ hb
    obtain ⟨g2, s2, h2, hb⟩ := layers_before_succ hb
    obtain ⟨g3, s3, h3, hb⟩ := layers_before_succ hb
    obtain ⟨g4, s4, h4, hb⟩ := layers_before_succ hb
    obtain ⟨g5, s5, h5, hb⟩ := layers_before_succ hb
    cases layers_before_zero hb
    simp only [h1, h2, h3, h4, h5, hbad, Res.bind]

theorem decode_cell_layer_bad_mode_witness :
    decode_cell_layer bad_mode_buffer
      { data := 2, len := 4, parents := [], last_error := 0 } 3 =
      .ok none { advance { data := 2, len := 4, parents := [], last_error := 0 } 1 with
                 last_error := RES_BAD_INPUT } ∧
    decode_lvl_cell_chunk bad_mode_buffer
      { data := 0, len := 6, parents := [], last_error := 0 } 3 = .exit RES_BAD_INPUT :=
  decode_cell_layer_bad_mode bad_mode_buffer
    { data := 0, len := 6, parents := [], last_error := 0 }
    { data := 2, len := 4, parents := [], last_error := 0 } 3 3 2
    (by decide) rfl rfl (by decide) (by decide)

/-- C13 as stated fails: over `size = 6` the call on the example vector
returns no grid at all, so it does not return `[0xFF, 0xFF, 0xFF, 0xFF, 0xAA,
0xAA]`. -/
theorem example_vector_not_decoded :
    ¬ ∃ s', decode_cell_layer example_vector
      { data := 0, len := 9, parents := [], last_error := 0 } 6 =
      .ok (some [255, 255, 255, 255, 170, 170]) s' := by
  have h : decode_cell_layer example_vector
      { data := 0, len := 9, parents := [], last_error := 0 } 6 =
      .ok none { data := 9, len := 0, parents := [], last_error := RES_ERR } := rfl
  rintro ⟨s', hs⟩
  rw [h] at hs
  cases hs

/-- C13 amended: on the stream `[0x83, 0xFF, 0x02, 0xAA]` with `size = 6` the
call returns `NULL` and sets `RES_ERR` (after four `0xFF` and the literal
`0x02`, the byte `0xAA` opens a run of 43 that does not fit); on the stream
`[0x83, 0xFF, 0x81, 0xAA]` it returns `[0xFF, 0xFF, 0xFF, 0xFF, 0xAA, 0xAA]`. -/
theorem example_vector_decoding :
    decode_cell_layer example_vector
      { data := 0, len := 9, parents := [], last_error := 0 } 6 =
      .ok none { data := 9, len := 0, parents := [], last_error := RES_ERR } ∧
    rle_loop 6 4 [131, 255, 2, 170] [] = .error ∧
    decode_cell_layer example_vector_runs
      { data := 0, len := 9, parents := [], last_error := 0 } 6 =
      .ok (some [255, 255, 255, 255, 170, 170])
        { data := 9, len := 0, parents := [], last_error := 0 } :=
  ⟨rfl, rfl, rfl⟩

theorem run_control_byte (k : Nat) (h : k < 128) :
    (0x80 ||| k) &&& 0x80 ≠ 0 ∧ ((0x80 ||| k) &&& 0x7f) + 1 = k + 1 := by
  revert k
  decide

theorem rle_encodes_expand {s e : List Nat} (h : RleEncodes s e) :
    rle_expand e = s ∧ rle_dangling e = false := by
  induction h with
  | nil => exact ⟨rfl, rfl⟩
  | literal c s e hc _ ih =>
    have hc' : ¬ c &&& 0x80 ≠ 0 := fun hn => hn hc
    cases e with
    | nil =>
      simp only [rle_expand, rle_dangling, if_neg hc', decide_eq_false_iff_not]
      exact ⟨by rw [← ih.1]; rfl, hc'⟩
    | cons v rest =>
      simp only [rle_expand, rle_dangling, if_neg hc']
      exact ⟨by rw [ih.1], ih.2⟩
  | run count v s e h1 h128 _ ih =>
    have hb := run_control_byte (count - 1) (by omega)
    simp only [rle_expand, rle_dangling, if_pos hb.1]
    rw [hb.2, ih.1]
    exact ⟨by rw [Nat.sub_add_cancel h1], ih.2⟩

theorem rle_encode_encodes (s : List Nat) : RleEncodes s (rle_encode s) := by
  induction s with
  | nil => exact RleEncodes.nil
  | cons c s ih =>
    by_cases hc : c &&& 0x80 = 0
    · simp only [rle_encode, if_pos hc]
      exact RleEncodes.literal c s _ hc ih
    · simp only [rle_encode, if_neg hc]
      exact RleEncodes.run 1 c s _ (le_refl _) (by decide) ih

/-- C11: when the cursor holds the mode byte 1, the length of an encoding `e`
of `s` in the run-length scheme and the bytes of `e`, `decode_cell_layer` with
`size` the length of `s`, called with no error pending, returns `s`; and
`rle_encode s` is such an encoding of every `s`. -/
theorem rle_roundtrip (mem s e : List Nat) (st : State)
    (henc : RleEncodes s e)
    (hmode : rd8 mem st.data = some 1) (hL : rd32 mem (st.data + 1) = some e.length)
    (hstream : rdN mem (st.data + 5) e.length = some e) (hcur : 5 ≤ st.len)
    (he : 0 ≤ st.last_error) :
    (∃ st', decode_cell_layer mem st s.length = .ok (some s) st') ∧
    RleEncodes s (rle_encode s) := by
  have hx := rle_encodes_expand henc
  refine ⟨?_, rle_encode_encodes s⟩
  rw [decode_cell_layer_mode1 hmode hL hstream hcur he, hx.1, hx.2]
  rw [if_neg (by simp), Nat.sub_self, List.replicate_zero, List.append_nil]
  exact ⟨_, rfl⟩

theorem rle_roundtrip_witness :
    (∃ st', decode_cell_layer roundtrip_buffer
      { data := 0, len := 11, parents := [], last_error := 0 } [5, 200, 200, 6].length =
      .ok (some [5, 200, 200, 6]) st') ∧
    RleEncodes [5, 200, 200, 6] (rle_encode [5, 200, 200, 6]) :=
  rle_roundtrip roundtrip_buffer [5, 200, 200, 6] (rle_encode [5, 200, 200, 6])
    { data := 0, len := 11, parents := [], last_error := 0 }
    (rle_encode_encodes _) rfl rfl rfl (by decide) (by decide)

theorem _decode_chunks_succ_of_ok {mem : List Nat} {fuel : Nat} {s s2 : State}
    {out : List GmmChunk} {ctx : DecodingContext} {dl : Nat} {r : Decoded}
    (hpos : 0 < s.len)
    (hit : chunk_iteration mem (fun sn c => _decode_chunks mem fuel sn [] c 0)
      s out ctx dl = .ok r s2) :
    _decode_chunks mem (fuel + 1) s out ctx dl =
      _decode_chunks mem fuel s2 r.2.1 r.2.2 r.1 := by
  simp only [_decode_chunks]
  rw [if_pos hpos, hit]
  rfl

theorem _decode_chunks_of_len_zero {mem : List Nat} {fuel : Nat} {s : State}
    {out : List GmmChunk} {ctx : DecodingContext} {dl : Nat} (hz : s.len = 0) :
    _decode_chunks mem (fuel + 1) s out ctx dl = .ok (dl, out, ctx) s := by
  simp only [_decode_chunks]
  rw [if_neg (by omega)]

theorem chunk_iteration_list (mem : List Nat)
    (nested : State → DecodingContext → Res Decoded) (s0 sn2 s4 : State)
    (out : List GmmChunk) (ctx : DecodingContext) (dl ckSize : Nat)
    (ckId ckType : List Nat) (rn : Decoded)
    (hid : strncpy (mem.drop s0.data) 4 = some ckId)
    (hsize : rd32 mem (s0.data + 4) = some ckSize)
    (htag : (mem.drop s0.data).take 4 = tag_LIST)
    (hty : strncpy (mem.drop (s0.data + 8)) 4 = some ckType)
    (hlen : 12 ≤ s0.len) (hfit : subW32 ckSize 4 ≤ s0.len - 12)
    (hnested : nested
      { data := s0.data + 12, len := subW32 ckSize 4,
        parents := (s0.len - 12) ::
          (s0.parents.map (fun l => subW l 8)).map (fun l => subW l 4),
        last_error := 0 }
      { level_size := ctx.level_size, list_type := some ckType } = .ok rn sn2)
    (hleave : leave_nested sn2 = some s4) :
    chunk_iteration mem nested s0 out ctx dl =
      (chunk_reconcile false ckSize (s0.len - 8) s4 (addW (addW dl 8) 4)).bind
        fun dl2 s3 =>
          .ok (dl2, out ++ [.list { ckId := ckId, ckSize := ckSize } ckType rn.2.1], ctx) s3 := by
  have he : (advance { s0 with last_error := 0 } 8).last_error = 0 := by
    rw [advance_last_error]
  have hadv := advance_of_le (s := { s0 with last_error := 0 }) (d := 8)
    (by simp only; omega)
  have hd : (advance { s0 with last_error := 0 } 8).data = s0.data + 8 := by rw [hadv]
  have hl : (advance { s0 with last_error := 0 } 8).len = s0.len - 8 := by rw [hadv]
  have hp : (advance { s0 with last_error := 0 } 8).parents =
      s0.parents.map (fun l => subW l 8) := by rw [hadv]
  unfold chunk_iteration
  simp only
  rw [if_neg (by omega), propagates_of_zero he]
  simp only [Bool.false_eq_true, if_false, hid, hsize, htag]
  rw [hl]
  generalize advance { s0 with last_error := 0 } 8 = s1 at hd hl he hp
  have hi : ignore_this tag_LIST = false := by decide
  unfold chunk_dispatch
  rw [hi]
  simp only [Bool.false_eq_true, if_false, if_true]
  unfold list_branch
  rw [if_neg (by omega), hd, hty]
  simp only
  have he2 : (advance s1 4).last_error = 0 := by rw [advance_last_error, he]
  have hadv2 := advance_of_le (s := s1) (d := 4) (by omega)
  have hsn : (recursive_cursor_from (advance s1 4) (subW32 ckSize 4)) =
      (some { data := s0.data + 12, len := subW32 ckSize 4,
              parents := (s0.len - 12) ::
                (s0.parents.map (fun l => subW l 8)).map (fun l => subW l 4),
              last_error := 0 }, advance s1 4) := by
    rw [recursive_cursor_from_of_le (by rw [hadv2]; simp only; omega), hadv2]
    have e1 : s0.data + 8 + 4 = s0.data + 12 := by omega
    have e2 : s0.len - 8 - 4 = s0.len - 12 := by omega
    simp only [hd, hl, hp, he, e1, e2]
  rw [propagates_of_zero he2, hsn]
  simp only [Bool.false_eq_true, if_false, propagates_of_zero he2, hnested, Res.bind, hleave]

/-- C12 at a failing input: the sixth layer of the "cell" chunk has mode 1 and
compressed length 1, and the list ends right after the length field.  The
file decodes, the layer is read from the byte after the list, and the call of
`decode_cell_layer` that returns it moves the cursor by 5 bytes, not by
`1 + 4 + 1`. -/
theorem rle_stream_outside_cursor :
    _decode_chunks stream_outside_buffer 6
      { data := 0, len := 60, parents := [], last_error := 0 } []
      { level_size := 0, list_type := none } 0 =
    .ok (20, [stream_outside_list, .unknown { ckId := [5, 0, 0, 0], ckSize := 0 }],
         { level_size := 0, list_type := none })
      { data := 60, len := 0, parents := [], last_error := 0 } ∧
    rd8 stream_outside_buffer 47 = some 1 ∧
    rd32 stream_outside_buffer (47 + 1) = some 1 ∧
    decode_cell_layer stream_outside_buffer
      { data := 47, len := 5, parents := [13], last_error := 0 } 1 =
    .ok (some [5]) { data := 47 + 5, len := 0, parents := [8], last_error := 0 } := by
  have hprop : chunk_iteration stream_outside_buffer
      (fun sn c => _decode_chunks stream_outside_buffer 4 sn [] c 0)
      { data := 12, len := 40, parents := [48], last_error := 0 } []
      { level_size := 0, list_type := some [108, 118, 108, 32] } 0 =
      .ok (22, [stream_outside_prop], { level_size := 1, list_type := some [108, 118, 108, 32] })
        { data := 34, len := 18, parents := [26], last_error := 0 } := rfl
  have hcell : chunk_iteration stream_outside_buffer
      (fun sn c => _decode_chunks stream_outside_buffer 3 sn [] c 0)
      { data := 34, len := 18, parents := [26], last_error := 0 } [stream_outside_prop]
      { level_size := 1, list_type := some [108, 118, 108, 32] } 22 =
      .ok (40, [stream_outside_prop, stream_outside_cell],
           { level_size := 1, list_type := some [108, 118, 108, 32] })
        { data := 52, len := 0, parents := [8], last_error := 0 } := rfl
  have hnested : _decode_chunks stream_outside_buffer 5
      { data := 12, len := 40, parents := [48], last_error := 0 } []
      { level_size := 0, list_type := some [108, 118, 108, 32] } 0 =
      .ok (40, [stream_outside_prop, stream_outside_cell],
           { level_size := 1, list_type := some [108, 118, 108, 32] })
        { data := 52, len := 0, parents := [8], last_error := 0 } := by
    rw [_decode_chunks_succ_of_ok (by decide) hprop,
      _decode_chunks_succ_of_ok (by decide) hcell, _decode_chunks_of_len_zero rfl]
  have hlist : chunk_iteration stream_outside_buffer
      (fun sn c => _decode_chunks stream_outside_buffer 5 sn [] c 0)
      { data := 0, len := 60, parents := [], last_error := 0 } []
      { level_size := 0, list_type := none } 0 =
      .ok (12, [stream_outside_list], { level_size := 0, list_type := none })
        { data := 52, len := 8, parents := [], last_error := 0 } := by
    rw [chunk_iteration_list stream_outside_buffer
      (fun sn c => _decode_chunks stream_outside_buffer 5 sn [] c 0)
      { data := 0, len := 60, parents := [], last_error := 0 }
      { data := 52, len := 0, parents := [8], last_error := 0 }
      { data := 52, len := 8, parents := [], last_error := 0 } []
      { level_size := 0, list_type := none } 0 44 [76, 73, 83, 84] [108, 118, 108, 32]
      (40, [stream_outside_prop, stream_outside_cell],
        { level_size := 1, list_type := some [108, 118, 108, 32] })
      rfl rfl rfl rfl (by decide) (by decide) hnested rfl]
    rfl
  have hlast : chunk_iteration stream_outside_buffer
      (fun sn c => _decode_chunks stream_outside_buffer 4 sn [] c 0)
      { data := 52, len := 8, parents := [], last_error := 0 } [stream_outside_list]
      { level_size := 0, list_type := none } 12 =
      .ok (20, [stream_outside_list, .unknown { ckId := [5, 0, 0, 0], ckSize := 0 }],
           { level_size := 0, list_type := none })
        { data := 60, len := 0, parents := [], last_error := 0 } := rfl
  refine ⟨?_, rfl, rfl, rfl⟩
  rw [_decode_chunks_succ_of_ok (by decide) hlist,
    _decode_chunks_succ_of_ok (by decide) hlast, _decode_chunks_of_len_zero rfl]

theorem strncpy_eq (n : Nat) :
    ∀ l : List Nat, n ≤ l.length →
      strncpy l n = some ((l.take n).takeWhile (fun b => b ≠ 0) ++
        List.replicate (n - ((l.take n).takeWhile (fun b => b ≠ 0)).length) 0) := by
  induction n with
  | zero =>
    intro l _
    cases l <;> simp [strncpy]
  | succ n ih =>
    intro l hl
    cases l with
    | nil => simp at hl
    | cons c rest =>
      simp only [List.length_cons] at hl
      by_cases hc : c = 0
      · subst hc
        simp [strncpy]
      · rw [strncpy, if_neg hc, ih rest (by omega)]
        simp [List.takeWhile_cons, hc]

theorem takeWhile_ne_zero_all (bytes : List Nat) (h : ∀ b ∈ bytes, b ≠ 0) :
    bytes.takeWhile (fun b => b ≠ 0) = bytes := by
  rw [List.takeWhile_eq_self_iff]
  intro b hb
  simpa using h b hb

/-- C20 as stated fails: for the declared length 3 and the bytes `[65, 0, 66]`
the buffer `decode_wstr` returns is `[65, 0, 0, 0]`; its content is not those
three bytes. -/
theorem wstr_stops_at_nul :
    decode_wstr nul_wstr_buffer { data := 0, len := 5, parents := [], last_error := 0 } =
      .ok (some [65, 0, 0, 0]) { data := 5, len := 0, parents := [], last_error := 0 } ∧
    ([65, 0, 0, 0] : List Nat) ≠ [65, 0, 66] ++ [0] :=
  ⟨rfl, by decide⟩

/-- C20 amended: for a cursor inside the buffer that holds a length of value
`k` (two bytes for `decode_wstr`, one for `decode_bstr`) and at least `k` more
bytes, called with no error pending, the decoder returns a buffer of `k + 1`
bytes: the bytes before the first NUL among the `k` bytes, then NUL bytes; it
holds all `k` bytes followed by one NUL when none of them is NUL.  The cursor
moves by the width of the length plus `k`. -/
theorem decode_str_text (mem : List Nat) (s : State) (k : Nat)
    (hbuf : s.data + s.len ≤ mem.length) (he : 0 ≤ s.last_error) :
    (rd16 mem s.data = some k → 2 + k ≤ s.len →
      ∃ text s', decode_wstr mem s = .ok (some (text ++ [0])) s' ∧
        text = ((mem.drop (s.data + 2)).take k).takeWhile (fun b => b ≠ 0) ++
          List.replicate
            (k - (((mem.drop (s.data + 2)).take k).takeWhile (fun b => b ≠ 0)).length) 0 ∧
        ((∀ b ∈ (mem.drop (s.data + 2)).take k, b ≠ 0) →
          text = (mem.drop (s.data + 2)).take k) ∧
        text.length = k ∧
        s'.data = s.data + (2 + k) ∧ s'.len = s.len - (2 + k) ∧
        s'.last_error = s.last_error) ∧
    (rd8 mem s.data = some k → 1 + k ≤ s.len →
      ∃ text s', decode_bstr mem s = .ok (some (text ++ [0])) s' ∧
        text = ((mem.drop (s.data + 1)).take k).takeWhile (fun b => b ≠ 0) ++
          List.replicate
            (k - (((mem.drop (s.data + 1)).take k).takeWhile (fun b => b ≠ 0)).length) 0 ∧
        ((∀ b ∈ (mem.drop (s.data + 1)).take k, b ≠ 0) →
          text = (mem.drop (s.data + 1)).take k) ∧
        text.length = k ∧
        s'.data = s.data + (1 + k) ∧ s'.len = s.len - (1 + k) ∧
        s'.last_error = s.last_error) := by
  have key : ∀ w : Nat, w + k ≤ s.len →
      ∃ text, strncpy (mem.drop (advance s w).data) k = some text ∧
        text = ((mem.drop (s.data + w)).take k).takeWhile (fun b => b ≠ 0) ++
          List.replicate
            (k - (((mem.drop (s.data + w)).take k).takeWhile (fun b => b ≠ 0)).length) 0 ∧
        ((∀ b ∈ (mem.drop (s.data + w)).take k, b ≠ 0) →
          text = (mem.drop (s.data + w)).take k) ∧
        text.length = k ∧
        (advance (advance s w) k).data = s.data + (w + k) ∧
        (advance (advance s w) k).len = s.len - (w + k) ∧
        (advance s w).len = s.len - w := by
    intro w hw
    have h1 := advance_of_le (s := s) (d := w) (by omega)
    have h1d : (advance s w).data = s.data + w := by rw [h1]
    have h1l : (advance s w).len = s.len - w := by rw [h1]
    have h2 := advance_of_le (s := advance s w) (d := k) (by omega)
    have hlen : k ≤ (mem.drop (s.data + w)).length := by
      rw [List.length_drop]
      omega
    have htake : ((mem.drop (s.data + w)).take k).length = k := by
      rw [List.length_take]
      omega
    have htw := (List.takeWhile_sublist (l := (mem.drop (s.data + w)).take k)
      (fun b => decide (b ≠ 0))).length_le
    refine ⟨_, by rw [h1d]; exact strncpy_eq k _ hlen, rfl, ?_, ?_, ?_, ?_, h1l⟩
    · intro hall
      rw [takeWhile_ne_zero_all _ hall, htake, Nat.sub_self, List.replicate_zero,
        List.append_nil]
    · rw [List.length_append, List.length_replicate]
      omega
    · rw [h2]
      simp only
      omega
    · rw [h2]
      simp only
      omega
  constructor
  · intro hk hcur
    obtain ⟨text, hcpy, h1, h2, h3, h4, h5, h6⟩ := key 2 hcur
    refine ⟨text, advance (advance s 2) k, ?_, h1, h2, h3, h4, h5, ?_⟩
    · unfold decode_wstr
      simp only
      rw [propagates_of_nonneg (by rw [advance_last_error]; exact he), hk]
      simp only [Bool.false_eq_true, if_false]
      rw [if_neg (by omega), hcpy]
      simp only
      rw [propagates_of_nonneg (by rw [advance_last_error, advance_last_error]; exact he)]
      simp only [Bool.false_eq_true, if_false]
    · rw [advance_last_error, advance_last_error]
  · intro hk hcur
    obtain ⟨text, hcpy, h1, h2, h3, h4, h5, h6⟩ := key 1 hcur
    refine ⟨text, advance (advance s 1) k, ?_, h1, h2, h3, h4, h5, ?_⟩
    · unfold decode_bstr
      simp only
      rw [propagates_of_nonneg (by rw [advance_last_error]; exact he), hk]
      simp only [Bool.false_eq_true, if_false]
      rw [if_neg (by omega), hcpy]
      simp only
      rw [propagates_of_nonneg (by rw [advance_last_error, advance_last_error]; exact he)]
      simp only [Bool.false_eq_true, if_false]
    · rw [advance_last_error, advance_last_error]

theorem decode_str_text_witness :
    (rd16 text_buffer 0 = some 3 → 2 + 3 ≤ 8 →
      ∃ text s', decode_wstr text_buffer
          { data := 0, len := 8, parents := [], last_error := 0 } =
          .ok (some (text ++ [0])) s' ∧
        text = ((text_buffer.drop (0 + 2)).take 3).takeWhile (fun b => b ≠ 0) ++
          List.replicate
            (3 - (((text_buffer.drop (0 + 2)).take 3).takeWhile (fun b => b ≠ 0)).length) 0 ∧
        ((∀ b ∈ (text_buffer.drop (0 + 2)).take 3, b ≠ 0) →
          text = (text_buffer.drop (0 + 2)).take 3) ∧
        text.length = 3 ∧
        s'.data = 0 + (2 + 3) ∧ s'.len = 8 - (2 + 3) ∧
        s'.last_error = 0) ∧
    (rd8 text_buffer 0 = some 3 → 1 + 3 ≤ 8 →
      ∃ text s', decode_bstr text_buffer
          { data := 0, len := 8, parents := [], last_error := 0 } =
          .ok (some (text ++ [0])) s' ∧
        text = ((text_buffer.drop (0 + 1)).take 3).takeWhile (fun b => b ≠ 0) ++
          List.replicate
            (3 - (((text_buffer.drop (0 + 1)).take 3).takeWhile (fun b => b ≠ 0)).length) 0 ∧
        ((∀ b ∈ (text_buffer.drop (0 + 1)).take 3, b ≠ 0) →
          text = (text_buffer.drop (0 + 1)).take 3) ∧
        text.length = 3 ∧
        s'.data = 0 + (1 + 3) ∧ s'.len = 8 - (1 + 3) ∧
        s'.last_error = 0) :=
  decode_str_text text_buffer { data := 0, len := 8, parents := [], last_error := 0 } 3
    (by decide) (by decide)

/-! ## Strings that do not fit (C21) -/

/-- C21: when no error is pending and the length the prefix declares exceeds
the length the cursor has after the advance over the prefix, `decode_wstr`
and `decode_bstr` return `NULL` with `last_error` set to
`RES_BUFFER_TOO_SMALL`, the cursor standing where that advance left it: right
after the prefix, with the bytes before the prefix taken off the remaining
length, whenever the prefix lies inside the cursor. -/
theorem decode_str_too_small (mem : List Nat) (s : State) (k : Nat)
    (he : 0 ≤ s.last_error) :
    (rd16 mem s.data = some k → (advance s 2).len < k →
      decode_wstr mem s = .ok none
        { data := (advance s 2).data, len := (advance s 2).len,
          parents := (advance s 2).parents, last_error := RES_BUFFER_TOO_SMALL }) ∧
    (rd8 mem s.data = some k → (advance s 1).len < k →
      decode_bstr mem s = .ok none
        { data := (advance s 1).data, len := (advance s 1).len,
          parents := (advance s 1).parents, last_error := RES_BUFFER_TOO_SMALL }) ∧
    (2 ≤ s.len → (advance s 2).data = s.data + 2 ∧ (advance s 2).len = s.len - 2) ∧
    (1 ≤ s.len → (advance s 1).data = s.data + 1 ∧ (advance s 1).len = s.len - 1) := by
  refine ⟨?_, ?_, ?_, ?_⟩
  · intro hk hgt
    have hp : propagates (advance s 2) = false :=
      propagates_of_nonneg (by rw [advance_last_error]; exact he)
    unfold decode_wstr
    simp only [hp, Bool.false_eq_true, if_false, hk]
    rw [if_pos hgt]
  · intro hk hgt
    have hp : propagates (advance s 1) = false :=
      propagates_of_nonneg (by rw [advance_last_error]; exact he)
    unfold decode_bstr
    simp only [hp, Bool.false_eq_true, if_false, hk]
    rw [if_pos hgt]
  · intro hlen
    rw [advance_of_le hlen]
    exact ⟨rfl, rfl⟩
  · intro hlen
    rw [advance_of_le hlen]
    exact ⟨rfl, rfl⟩

theorem decode_str_too_small_witness :
    decode_wstr short_wstr_buffer { data := 0, len := 4, parents := [], last_error := 0 } =
      .ok none { data := 2, len := 2, parents := [], last_error := RES_BUFFER_TOO_SMALL } ∧
    decode_bstr short_wstr_buffer { data := 0, len := 3, parents := [], last_error := 0 } =
      .ok none { data := 1, len := 2, parents := [], last_error := RES_BUFFER_TOO_SMALL } :=
  ⟨(decode_str_too_small short_wstr_buffer
      { data := 0, len := 4, parents := [], last_error := 0 } 3 (by decide)).1
      rfl (by decide),
   (decode_str_too_small short_wstr_buffer
      { data := 0, len := 3, parents := [], last_error := 0 } 3 (by decide)).2.1
      rfl (by decide)⟩

/-! ## The two "coor" decoders (C27) -/

theorem rd8_of_drop {mem : List Nat} {p i : Nat} {l : List Nat} {n : Nat}
    (h : (mem.drop p).take n = l) (hi : i < l.length) :
    rd8 mem (p + i) = l[i]? := by
  unfold rd8
  rw [← h, List.getElem?_take_of_lt (by rw [← h] at hi; simp only [List.length_take] at hi; omega),
    List.getElem?_drop]

theorem rd16_of_bytes {mem : List Nat} {p a b : Nat}
    (ha : rd8 mem p = some a) (hb : rd8 mem (p + 1) = some b) :
    rd16 mem p = some (a + 256 * b) := by
  unfold rd8 at ha hb
  unfold rd16
  rw [ha, hb]

/-- C27: `decode_map_coor_chunk` and `decode_lvl_coor_chunk` yield the same
outcome on every cursor, field for field; on a cursor of at least 7 bytes
with no error pending both return 7, move the cursor by 7 bytes and fill
origin, row_style and column_style from the bytes 0, 1 and 2, row_start from
the bytes 3 and 4 and column_start from the bytes 5 and 6, little-endian. -/
theorem coor_decoders_agree (mem : List Nat) (s : State) :
    (decode_map_coor_chunk mem s).bind (fun r s1 => .ok (r.1, as_level_coords r.2) s1) =
      decode_lvl_coor_chunk mem s ∧
    ∀ b0 b1 b2 b3 b4 b5 b6 : Nat, 0 ≤ s.last_error → 7 ≤ s.len →
      (mem.drop s.data).take 7 = [b0, b1, b2, b3, b4, b5, b6] →
      decode_map_coor_chunk mem s =
        .ok (7, { origin := b0, row_style := b1, column_style := b2,
                  row_start := b3 + 256 * b4, column_start := b5 + 256 * b6 })
          { data := s.data + 7, len := s.len - 7,
            parents := s.parents.map (fun l => subW l 7), last_error := s.last_error } ∧
      decode_lvl_coor_chunk mem s =
        .ok (7, { origin := b0, row_style := b1, column_style := b2,
                  row_start := b3 + 256 * b4, column_start := b5 + 256 * b6 })
          { data := s.data + 7, len := s.len - 7,
            parents := s.parents.map (fun l => subW l 7), last_error := s.last_error } := by
  constructor
  · unfold decode_map_coor_chunk decode_lvl_coor_chunk
    simp only
    by_cases hp : propagates (advance s 7) = true
    · rw [if_pos hp, if_pos hp]; rfl
    · rw [if_neg hp, if_neg hp]
      cases rd8 mem s.data <;> cases rd8 mem (s.data + 1) <;> cases rd8 mem (s.data + 2) <;>
        cases rd16 mem (s.data + 3) <;> cases rd16 mem (s.data + 5) <;> rfl
  · intro b0 b1 b2 b3 b4 b5 b6 he hlen hb
    have hadv := advance_of_le (s := s) (d := 7) hlen
    have hp : propagates (advance s 7) = false :=
      propagates_of_nonneg (by rw [advance_last_error]; exact he)
    have h0 : rd8 mem s.data = some b0 := rd8_of_drop (i := 0) hb (by simp)
    have h1 : rd8 mem (s.data + 1) = some b1 := rd8_of_drop (i := 1) hb (by simp)
    have h2 : rd8 mem (s.data + 2) = some b2 := rd8_of_drop (i := 2) hb (by simp)
    have h3 : rd8 mem (s.data + 3) = some b3 := rd8_of_drop (i := 3) hb (by simp)
    have h4 : rd8 mem (s.data + 3 + 1) = some b4 := rd8_of_drop (i := 4) hb (by simp)
    have h5 : rd8 mem (s.data + 5) = some b5 := rd8_of_drop (i := 5) hb (by simp)
    have h6 : rd8 mem (s.data + 5 + 1) = some b6 := rd8_of_drop (i := 6) hb (by simp)
    have h34 := rd16_of_bytes h3 h4
    have h56 := rd16_of_bytes h5 h6
    unfold decode_map_coor_chunk decode_lvl_coor_chunk
    simp only [hp, Bool.false_eq_true, if_false, h0, h1, h2, h34, h56]
    rw [hadv]
    exact ⟨rfl, rfl⟩

theorem coor_decoders_agree_witness :
    decode_map_coor_chunk coor_payload_buffer
      { data := 0, len := 7, parents := [], last_error := 0 } =
      .ok (7, { origin := 1, row_style := 2, column_style := 3,
                row_start := 4 + 256 * 5, column_start := 6 + 256 * 7 })
        { data := 0 + 7, len := 7 - 7, parents := [].map (fun l => subW l 7),
          last_error := 0 } ∧
    decode_lvl_coor_chunk coor_payload_buffer
      { data := 0, len := 7, parents := [], last_error := 0 } =
      .ok (7, { origin := 1, row_style := 2, column_style := 3,
                row_start := 4 + 256 * 5, column_start := 6 + 256 * 7 })
        { data := 0 + 7, len := 7 - 7, parents := [].map (fun l => subW l 7),
          last_error := 0 } :=
  (coor_decoders_agree coor_payload_buffer
    { data := 0, len := 7, parents := [], last_error := 0 }).2 1 2 3 4 5 6 7
    (by decide) (by decide) rfl

/-! ## Independence of the error cell -/

theorem chunk_iteration_error_free (mem : List Nat)
    (nested : State → DecodingContext → Res Decoded) (s : State) (e : Int)
    (out : List GmmChunk) (ctx : DecodingContext) (dl : Nat) :
    chunk_iteration mem nested { s with last_error := e } out ctx dl =
      chunk_iteration mem nested s out ctx dl := rfl

theorem outcome_bind_value {α β : Type} (f : α → β) {r1 r2 : Res α}
    (h : r1.outcome = r2.outcome) :
    (r1.bind fun v s => .ok (f v) s).outcome = (r2.bind fun v s => .ok (f v) s).outcome := by
  cases r1 <;> cases r2 <;>
    first
    | rfl
    | exact Outcome.noConfusion h
    | (have hv := Outcome.value.inj h
       subst hv
       rfl)
    | (have hv := Outcome.exit.inj h
       subst hv
       rfl)

theorem _decode_chunks_outcome (mem : List Nat) (fuel : Nat) (s : State) (e1 e2 : Int)
    (out : List GmmChunk) (ctx : DecodingContext) (dl : Nat) :
    (_decode_chunks mem fuel { s with last_error := e1 } out ctx dl).outcome =
      (_decode_chunks mem fuel { s with last_error := e2 } out ctx dl).outcome := by
  cases fuel with
  | zero => rfl
  | succ fuel =>
    simp only [_decode_chunks]
    by_cases hpos : s.len > 0
    · rw [if_pos hpos, if_pos hpos]
      have h1 := chunk_iteration_error_free mem
        (fun sn c => _decode_chunks mem fuel sn [] c 0) s e1 out ctx dl
      have h2 := chunk_iteration_error_free mem
        (fun sn c => _decode_chunks mem fuel sn [] c 0) s e2 out ctx dl
      simp only at h1 h2
      rw [h1, h2]
    · rw [if_neg hpos, if_neg hpos]
      rfl

/-- The outcome of `decode_chunks` (the forest, or the way the run fails) and
that of `_decode_chunks` do not depend on the value `last_error` holds before
the run: two runs on the same memory with the same fuel end alike. -/
theorem decode_chunks_deterministic (fuel : Nat) (file : RiffFile) (e1 e2 : Int) :
    (decode_chunks fuel file e1).outcome = (decode_chunks fuel file e2).outcome ∧
    ∀ (s : State) (out : List GmmChunk) (ctx : DecodingContext) (dl : Nat),
      (_decode_chunks file.data fuel { s with last_error := e1 } out ctx dl).outcome =
        (_decode_chunks file.data fuel { s with last_error := e2 } out ctx dl).outcome := by
  refine ⟨?_, fun s out ctx dl => _decode_chunks_outcome _ _ _ _ _ _ _ _⟩
  have h := _decode_chunks_outcome file.data fuel
    { data := 0, len := file.length, parents := [], last_error := 0 } e1 e2 []
    { level_size := 0, list_type := none } 0
  exact outcome_bind_value (fun r => r.2.1) h

/-! ## The grid size of a large level (C22) -/

/-- C22 at a failing input: for 65535 rows and 65535 columns, which the
"prop" chunk of `big_level_buffer` declares, the product
`(num_columns + 1) * (num_rows + 1)` is computed in `int` and exceeds
`INT_MAX`: no grid size is defined and the iteration on the chunk has no
defined outcome, where the claim has the context hold 4294967296. -/
theorem level_size_overflows :
    level_size_of 65535 65535 = none ∧
    (65535 + 1) * (65535 + 1) = 4294967296 ∧
    (decode_lvl_prop_chunk big_level_buffer
        { data := 8, len := 14, parents := [], last_error := 0 }).bind
      (fun r s => .ok (r.2.num_rows, r.2.num_columns) s) =
      .ok (65535, 65535) { data := 21, len := 1, parents := [], last_error := 0 } ∧
    ∀ nested out dl,
      chunk_iteration big_level_buffer nested
        { data := 0, len := 22, parents := [], last_error := 0 } out
        { level_size := 0, list_type := some type_lvl } dl = .undefined :=
  ⟨by decide, by decide, rfl, fun _ _ _ => rfl⟩

/-! ## Annotation records (C25, C26) -/

theorem anno_records_succ_iff {mem : List Nat} {n : Nat} {s s' : State}
    {rs : List AnnotationRecord} :
    anno_records mem (n + 1) s = .ok rs s' ↔
    ∃ row column kind payload text s2 s3 rest,
      0 ≤ s.last_error ∧
      rd16 mem s.data = some row ∧ rd16 mem (s.data + 2) = some column ∧
      rd8 mem (s.data + 4) = some kind ∧
      anno_payload mem kind (advance s 5) = .ok payload s2 ∧
      decode_wstr mem s2 = .ok text s3 ∧ 0 ≤ s3.last_error ∧
      anno_records mem n s3 = .ok rest s' ∧
      rs = { row := row, column := column, kind := kind, text := text,
             payload := payload } :: rest := by
  simp only [anno_records]
  constructor
  · intro h
    by_cases hp : propagates (advance s 5) = true
    · rw [if_pos hp] at h
      exact absurd h (by simp)
    · rw [if_neg hp] at h
      have he : 0 ≤ s.last_error := by
        have := not_propagates hp
        rwa [advance_last_error] at this
      cases h1 : rd16 mem s.data with
      | none => rw [h1] at h; exact absurd h (by simp)
      | some row =>
        cases h2 : rd16 mem (s.data + 2) with
        | none => rw [h1, h2] at h; exact absurd h (by simp)
        | some column =>
          cases h3 : rd8 mem (s.data + 4) with
          | none => rw [h1, h2, h3] at h; exact absurd h (by simp)
          | some kind =>
            rw [h1, h2, h3] at h
            simp only at h
            obtain ⟨payload, s2, hpay, h⟩ := Res.bind_eq_ok.mp h
            obtain ⟨text, s3, htext, h⟩ := Res.bind_eq_ok.mp h
            obtain ⟨rest, s4, hrest, h⟩ := Res.bind_eq_ok.mp h
            obtain ⟨htext, he3⟩ := propagated_eq_ok.mp htext
            simp only [Res.ok.injEq] at h
            obtain ⟨hrs, hs⟩ := h
            subst hs
            exact ⟨row, column, kind, payload, text, s2, s3, rest, he, rfl, rfl, rfl, hpay,
              htext, he3, hrest, hrs.symm⟩
  · rintro ⟨row, column, kind, payload, text, s2, s3, rest, he, h1, h2, h3, hpay, htext, he3,
      hrest, hrs⟩
    have hp : propagates (advance s 5) = false :=
      propagates_of_nonneg (by rw [advance_last_error]; exact he)
    rw [hp, h1, h2, h3]
    simp only [Bool.false_eq_true, if_false, hpay, Res.bind]
    rw [propagated_eq_ok.mpr ⟨htext, he3⟩]
    simp only [hrest, hrs]

theorem anno_records_length {mem : List Nat} (n : Nat) :
    ∀ {s s' : State} {rs : List AnnotationRecord},
      anno_records mem n s = .ok rs s' → rs.length = n := by
  induction n with
  | zero =>
    intro s s' rs h
    simp only [anno_records, Res.ok.injEq] at h
    rw [← h.1]
    rfl
  | succ n ih =>
    intro s s' rs h
    obtain ⟨_, _, _, _, _, _, _, rest, _, _, _, _, _, _, _, hrest, hrs⟩ :=
      anno_records_succ_iff.mp h
    rw [hrs, List.length_cons, ih hrest]

theorem anno_payload_other {mem : List Nat} {kind : Nat} (s : State)
    (h1 : kind ≠ AK_INDEXED) (h2 : kind ≠ AK_CUSTOM) (h3 : kind ≠ AK_ICON)
    (h4 : kind ≠ AK_LABEL) : anno_payload mem kind s = .ok .unset s := by
  unfold anno_payload
  rw [if_neg h1, if_neg h2, if_neg h3, if_neg h4]

/-- C25: `decode_lvl_anno_chunk` succeeds exactly when the 2-byte count is
read and the record loop succeeds for that many records, which it returns in
file order; a record is its row, column and kind (5 bytes), the payload of
its kind read right after them, and the wide-string text read right after
the payload, the next record starting where the text ends; the payload is
nothing for Comment, a 2-byte index and a colour byte for Indexed, a
byte-length-prefixed string for Custom, one byte for Icon and one byte for
Label. -/
theorem anno_record_layout (mem : List Nat) :
    (∀ s r s', decode_lvl_anno_chunk mem s = .ok r s' ↔
      0 ≤ s.last_error ∧ rd16 mem s.data = some r.2.num_annotations ∧
      anno_records mem r.2.num_annotations (advance s 2) = .ok r.2.records s' ∧
      r.2.records.length = r.2.num_annotations ∧ r.1 = s'.data - s.data) ∧
    (∀ n s rs s', anno_records mem (n + 1) s = .ok rs s' ↔
      ∃ row column kind payload text s2 s3 rest,
        0 ≤ s.last_error ∧
        rd16 mem s.data = some row ∧ rd16 mem (s.data + 2) = some column ∧
        rd8 mem (s.data + 4) = some kind ∧
        anno_payload mem kind (advance s 5) = .ok payload s2 ∧
        decode_wstr mem s2 = .ok text s3 ∧ 0 ≤ s3.last_error ∧
        anno_records mem n s3 = .ok rest s' ∧
        rs = { row := row, column := column, kind := kind, text := text,
               payload := payload } :: rest) ∧
    (∀ s p s', anno_payload mem AK_COMMENT s = .ok p s' ↔ p = .unset ∧ s' = s) ∧
    (∀ s p s', anno_payload mem AK_INDEXED s = .ok p s' ↔
      ∃ index index_color, 0 ≤ s.last_error ∧ rd16 mem s.data = some index ∧
        rd8 mem (advance s 2).data = some index_color ∧
        p = .indexed index index_color ∧ s' = advance (advance s 2) 1) ∧
    (∀ s p s', anno_payload mem AK_CUSTOM s = .ok p s' ↔
      ∃ custom_id, decode_bstr mem s = .ok custom_id s' ∧ 0 ≤ s'.last_error ∧
        p = .custom custom_id) ∧
    (∀ s p s', anno_payload mem AK_ICON s = .ok p s' ↔
      ∃ icon, 0 ≤ s.last_error ∧ rd8 mem s.data = some icon ∧
        p = .icon icon ∧ s' = advance s 1) ∧
    (∀ s p s', anno_payload mem AK_LABEL s = .ok p s' ↔
      ∃ label_color, 0 ≤ s.last_error ∧ rd8 mem s.data = some label_color ∧
        p = .label label_color ∧ s' = advance s 1) := by
  have hone : ∀ (s : State) (p : AnnotationPayload) (s' : State)
      (mk : Nat → AnnotationPayload),
      (match rd8 mem s.data with
        | none => Res.undefined
        | some v =>
          if propagates (advance s 1) then Res.exit (advance s 1).last_error
          else Res.ok (mk v) (advance s 1)) = .ok p s' ↔
      ∃ v, 0 ≤ s.last_error ∧ rd8 mem s.data = some v ∧ p = mk v ∧ s' = advance s 1 := by
    intro s p s' mk
    constructor
    · intro h
      cases hv : rd8 mem s.data with
      | none => rw [hv] at h; exact absurd h (by simp)
      | some v =>
        rw [hv] at h
        simp only at h
        by_cases hp : propagates (advance s 1) = true
        · rw [if_pos hp] at h; exact absurd h (by simp)
        · rw [if_neg hp] at h
          simp only [Res.ok.injEq] at h
          have he := not_propagates hp
          rw [advance_last_error] at he
          exact ⟨v, he, rfl, h.1.symm, h.2.symm⟩
    · rintro ⟨v, he, hv, hp, hs⟩
      have hpr : propagates (advance s 1) = false :=
        propagates_of_nonneg (by rw [advance_last_error]; exact he)
      rw [hv]
      simp only [hpr, Bool.false_eq_true, if_false, hp, hs]
  refine ⟨?_, fun n s rs s' => anno_records_succ_iff, ?_, ?_, ?_, ?_, ?_⟩
  · intro s r s'
    unfold decode_lvl_anno_chunk
    simp only
    constructor
    · intro h
      by_cases hp : propagates (advance s 2) = true
      · rw [if_pos hp] at h; exact absurd h (by simp)
      · rw [if_neg hp] at h
        have he := not_propagates hp
        rw [advance_last_error] at he
        cases hn : rd16 mem s.data with
        | none => rw [hn] at h; exact absurd h (by simp)
        | some n =>
          rw [hn] at h
          simp only at h
          obtain ⟨records, s2, hrec, h⟩ := Res.bind_eq_ok.mp h
          simp only [Res.ok.injEq] at h
          obtain ⟨hr, hs⟩ := h
          subst hs
          subst hr
          exact ⟨he, rfl, hrec, anno_records_length _ hrec, rfl⟩
    · rintro ⟨he, hn, hrec, _, hr1⟩
      have hp : propagates (advance s 2) = false :=
        propagates_of_nonneg (by rw [advance_last_error]; exact he)
      rw [hp, hn]
      simp only [Bool.false_eq_true, if_false, hrec, Res.bind, Res.ok.injEq, and_true]
      rw [← hr1]
  · intro s p s'
    rw [anno_payload_other s (by decide) (by decide) (by decide) (by decide)]
    simp only [Res.ok.injEq]
    constructor
    · rintro ⟨h1, h2⟩; exact ⟨h1.symm, h2.symm⟩
    · rintro ⟨h1, h2⟩; exact ⟨h1.symm, h2.symm⟩
  · intro s p s'
    unfold anno_payload
    rw [if_pos rfl]
    constructor
    · intro h
      cases hi : rd16 mem s.data with
      | none => rw [hi] at h; exact absurd h (by simp)
      | some index =>
        rw [hi] at h
        simp only at h
        by_cases hp : propagates (advance s 2) = true
        · rw [if_pos hp] at h; exact absurd h (by simp)
        · rw [if_neg hp] at h
          have he := not_propagates hp
          rw [advance_last_error] at he
          cases hc : rd8 mem (advance s 2).data with
          | none => rw [hc] at h; exact absurd h (by simp)
          | some c =>
            rw [hc] at h
            simp only at h
            by_cases hp2 : propagates (advance (advance s 2) 1) = true
            · rw [if_pos hp2] at h; exact absurd h (by simp)
            · rw [if_neg hp2] at h
              simp only [Res.ok.injEq] at h
              exact ⟨index, c, he, rfl, rfl, h.1.symm, h.2.symm⟩
    · rintro ⟨index, c, he, hi, hc, hp, hs⟩
      have hp1 : propagates (advance s 2) = false :=
        propagates_of_nonneg (by rw [advance_last_error]; exact he)
      have hp2 : propagates (advance (advance s 2) 1) = false :=
        propagates_of_nonneg (by rw [advance_last_error, advance_last_error]; exact he)
      rw [hi]
      simp only [hp1, hp2, Bool.false_eq_true, if_false, hc, hp, hs]
  · intro s p s'
    unfold anno_payload
    rw [if_neg (by decide), if_pos rfl]
    constructor
    · intro h
      obtain ⟨custom_id, s1, hb, h⟩ := Res.bind_eq_ok.mp h
      obtain ⟨hb, he⟩ := propagated_eq_ok.mp hb
      simp only [Res.ok.injEq] at h
      obtain ⟨hp, hs⟩ := h
      subst hs
      exact ⟨custom_id, hb, he, hp.symm⟩
    · rintro ⟨custom_id, hb, he, hp⟩
      rw [propagated_eq_ok.mpr ⟨hb, he⟩, hp]
      rfl
  · intro s p s'
    unfold anno_payload
    rw [if_neg (by decide), if_neg (by decide), if_pos rfl]
    exact hone s p s' AnnotationPayload.icon
  · intro s p s'
    unfold anno_payload
    rw [if_neg (by decide), if_neg (by decide), if_neg (by decide), if_pos rfl]
    exact hone s p s' AnnotationPayload.label

theorem anno_record_layout_witness :
    (0 : Int) ≤ 0 ∧ rd16 five_kinds_buffer 0 = some 5 ∧
    anno_records five_kinds_buffer 5
      (advance { data := 0, len := 50, parents := [], last_error := 0 } 2) =
      .ok five_kinds_records { data := 50, len := 0, parents := [], last_error := 0 } ∧
    five_kinds_records.length = 5 ∧ 50 = 50 - 0 :=
  ((anno_record_layout five_kinds_buffer).1
    { data := 0, len := 50, parents := [], last_error := 0 }
    (50, { num_annotations := 5, records := five_kinds_records })
    { data := 50, len := 0, parents := [], last_error := 0 }).mp rfl

/-- C26 as stated fails: the file `odd_kind_buffer` holds one annotation
record of kind 9; it decodes, and the record of the tree has kind 9. -/
theorem odd_kind_accepted :
    decode_chunks 3 { length := 30, data := odd_kind_buffer } 0 =
      .ok [odd_kind_node] { data := 30, len := 0, parents := [], last_error := 0 } := by
  rfl

/-- C26 amended: the kind of a decoded annotation record is the kind byte
as read, whatever its value; a kind other than Indexed, Custom, Icon and
Label selects no payload and moves no cursor, and never makes the record
loop fail. -/
theorem anno_kind_unchecked (mem : List Nat) (kind : Nat) (s : State)
    (hk : kind = 0 ∨ 5 ≤ kind) :
    anno_payload mem kind s = .ok .unset s ∧
    ∀ n sr rs s', anno_records mem (n + 1) sr = .ok rs s' →
      ∃ record rest, rs = record :: rest ∧ rd8 mem (sr.data + 4) = some record.kind ∧
        (record.kind = 0 ∨ 5 ≤ record.kind → record.payload = .unset) := by
  have hunset : ∀ (k : Nat) (st : State), k = 0 ∨ 5 ≤ k →
      anno_payload mem k st = .ok .unset st := by
    intro k st hk
    have h1 : k ≠ AK_INDEXED := by unfold AK_INDEXED; omega
    have h2 : k ≠ AK_CUSTOM := by unfold AK_CUSTOM; omega
    have h3 : k ≠ AK_ICON := by unfold AK_ICON; omega
    have h4 : k ≠ AK_LABEL := by unfold AK_LABEL; omega
    exact anno_payload_other st h1 h2 h3 h4
  refine ⟨hunset kind s hk, ?_⟩
  intro n sr rs s' h
  obtain ⟨row, column, k, payload, text, s2, s3, rest, _, _, _, h3, hpay, _, _, _, hrs⟩ :=
    anno_records_succ_iff.mp h
  refine ⟨_, rest, hrs, h3, ?_⟩
  intro hk2
  have := hunset k (advance sr 5) hk2
  rw [this] at hpay
  simp only [Res.ok.injEq] at hpay
  exact hpay.1.symm

theorem anno_kind_unchecked_witness :
    anno_payload odd_kind_buffer 9
      { data := 27, len := 3, parents := [7], last_error := 0 } =
      .ok .unset { data := 27, len := 3, parents := [7], last_error := 0 } :=
  (anno_kind_unchecked odd_kind_buffer 9
    { data := 27, len := 3, parents := [7], last_error := 0 } (by decide)).1

/-! ## The length kept by `read_riff` (C30) -/

theorem subW32_of_le {a b : Nat} (h : b ≤ a) : subW32 a b = a - b := by
  unfold subW32
  rw [if_pos h]

theorem rd32_of_header (b0 b1 b2 b3 : Nat) (payload : List Nat) :
    rd32 ([82, 73, 70, 70, b0, b1, b2, b3, 71, 82, 77, 77] ++ payload) 4 =
      some (b0 + 256 * b1 + 65536 * b2 + 16777216 * b3) := rfl

theorem read_riff_of_header (b0 b1 b2 b3 : Nat) (payload : List Nat)
    (hsize : 4 ≤ b0 + 256 * b1 + 65536 * b2 + 16777216 * b3)
    (hlt : b0 + 256 * b1 + 65536 * b2 + 16777216 * b3 - 4 +
      (b0 + 256 * b1 + 65536 * b2 + 16777216 * b3) % 2 < U32_MOD)
    (hlen : payload.length = b0 + 256 * b1 + 65536 * b2 + 16777216 * b3 - 4 +
      (b0 + 256 * b1 + 65536 * b2 + 16777216 * b3) % 2) :
    read_riff ([82, 73, 70, 70, b0, b1, b2, b3, 71, 82, 77, 77] ++ payload) =
      some { length := to_uint16 payload.length, data := payload } := by
  unfold read_riff
  have h12 : ¬ ([82, 73, 70, 70, b0, b1, b2, b3, 71, 82, 77, 77] ++ payload).length < 12 := by
    simp only [List.length_append, List.length_cons, List.length_nil]
    omega
  have hrd : rd32 ([82, 73, 70, 70, b0, b1, b2, b3, 71, 82, 77, 77] ++ payload) 4 =
      some (b0 + 256 * b1 + 65536 * b2 + 16777216 * b3) := rfl
  have htake : ([82, 73, 70, 70, b0, b1, b2, b3, 71, 82, 77, 77] ++ payload).take 4 =
      tag_RIFF := rfl
  have hform : (([82, 73, 70, 70, b0, b1, b2, b3, 71, 82, 77, 77] ++ payload).drop 8).take 4 =
      tag_GRMM := rfl
  have hdrop : ([82, 73, 70, 70, b0, b1, b2, b3, 71, 82, 77, 77] ++ payload).drop 12 =
      payload := rfl
  have hrem : addW32 (subW32 (b0 + 256 * b1 + 65536 * b2 + 16777216 * b3) 4)
      ((b0 + 256 * b1 + 65536 * b2 + 16777216 * b3) % 2) = payload.length := by
    rw [subW32_of_le hsize]
    unfold addW32
    rw [if_pos hlt, hlen]
  rw [if_neg h12, htake, hform, hrd]
  simp only [hdrop, hrem, ne_eq, not_true_eq_false, if_false, List.take_length]

theorem long_file_size :
    4 ≤ 4 + 256 * 0 + 65536 * 1 + 16777216 * 0 ∧
    4 + 256 * 0 + 65536 * 1 + 16777216 * 0 - 4 +
      (4 + 256 * 0 + 65536 * 1 + 16777216 * 0) % 2 < U32_MOD ∧
    65536 = 4 + 256 * 0 + 65536 * 1 + 16777216 * 0 - 4 +
      (4 + 256 * 0 + 65536 * 1 + 16777216 * 0) % 2 ∧
    to_uint16 65536 = 0 ∧ 4 + 256 * 0 + 65536 * 1 + 16777216 * 0 = 65540 ∧
    65540 - 4 + 65540 % 2 = 65536 := by
  unfold U32_MOD
  decide

/-- C30 at a failing input: a file whose size field is 65540 and whose
payload has 65536 bytes.  `read_riff` succeeds and keeps the payload, but the
length it stores is 0, not 65540 - 4 + 65540 % 2 = 65536, and `decode_chunks`
returns the empty forest without looking at a byte. -/
theorem riff_length_truncated (payload : List Nat) (hlen : payload.length = 65536) :
    rd32 (long_file_header ++ payload) 4 = some 65540 ∧
    65540 - 4 + 65540 % 2 = 65536 ∧
    read_riff (long_file_header ++ payload) = some { length := 0, data := payload } ∧
    ∀ fuel e, decode_chunks (fuel + 1) { length := 0, data := payload } e =
      .ok [] { data := 0, len := 0, parents := [], last_error := e } := by
  refine ⟨(rd32_of_header 4 0 1 0 payload).trans (congrArg some long_file_size.2.2.2.2.1),
    long_file_size.2.2.2.2.2, ?_, fun fuel e => ?_⟩
  · have h := read_riff_of_header 4 0 1 0 payload long_file_size.1 long_file_size.2.1
      (hlen.trans long_file_size.2.2.1)
    rw [hlen, long_file_size.2.2.2.1] at h
    exact h
  · unfold decode_chunks
    rw [_decode_chunks_of_len_zero rfl]
    rfl

theorem riff_length_truncated_witness :
    rd32 (long_file_header ++ List.replicate 65536 0) 4 = some 65540 ∧
    65540 - 4 + 65540 % 2 = 65536 ∧
    read_riff (long_file_header ++ List.replicate 65536 0) =
      some { length := 0, data := List.replicate 65536 0 } ∧
    ∀ fuel e, decode_chunks (fuel + 1) { length := 0, data := List.replicate 65536 0 } e =
      .ok [] { data := 0, len := 0, parents := [], last_error := e } :=
  riff_length_truncated (List.replicate 65536 0) (List.length_replicate 65536 0)

/-! ## Iterations that do not move the cursor (C29) -/

theorem loop_iteration (nested : State → DecodingContext → Res Decoded)
    (out : List GmmChunk) (ctx : DecodingContext) (dl : Nat) :
    chunk_iteration loop_buffer nested loop_cursor out ctx dl =
      .ok (addW dl 8, out ++ [.unknown { ckId := [106, 117, 110, 107], ckSize := 0 }], ctx)
        loop_cursor := rfl

theorem loop_nested (fuel : Nat) :
    ∀ (out : List GmmChunk) (ctx : DecodingContext) (dl : Nat),
      _decode_chunks loop_buffer fuel loop_cursor out ctx dl = .timeout := by
  induction fuel with
  | zero => intro out ctx dl; rfl
  | succ fuel ih =>
    intro out ctx dl
    rw [_decode_chunks_succ_of_ok (by decide) (loop_iteration _ out ctx dl)]
    exact ih _ _ _

theorem loop_list (nested : State → DecodingContext → Res Decoded) :
    chunk_iteration loop_buffer nested
      { data := 0, len := 20, parents := [], last_error := 0 } []
      { level_size := 0, list_type := none } 0 =
    ((nested loop_cursor { level_size := 0, list_type := some type_lvl }).bind fun r sn2 =>
      match leave_nested sn2 with
      | none => .undefined
      | some s4 => .ok (12, .list { ckId := tag_LIST, ckSize := 8 } type_lvl r.2.1,
             ({ level_size := 0, list_type := none } : DecodingContext)) s4).bind
      fun r s2 => (chunk_reconcile false 8 12 s2 r.1).bind fun dl s3 =>
        .ok (dl, [] ++ [r.2.1], r.2.2) s3 := rfl

/-- C29 at a failing input: the list of `loop_buffer` has a body of 4 bytes.
An iteration on a cursor of 4 bytes passes the check for the tag, fails to
advance over the header without anyone noticing, reads the size 0 from the
bytes after the list and ends without an error and without having moved the
cursor: the remaining length is 4 before and after, one more node is pushed,
and the loop never ends, so that no amount of fuel yields a forest or a
failure. -/
theorem short_cursor_never_ends :
    (∀ nested out ctx dl,
      chunk_iteration loop_buffer nested loop_cursor out ctx dl =
        .ok (addW dl 8, out ++ [.unknown { ckId := [106, 117, 110, 107], ckSize := 0 }], ctx)
          loop_cursor) ∧
    (∀ fuel out ctx dl,
      _decode_chunks loop_buffer fuel loop_cursor out ctx dl = .timeout) ∧
    ∀ fuel e, decode_chunks fuel { length := 20, data := loop_buffer } e = .timeout := by
  refine ⟨loop_iteration, loop_nested, fun fuel e => ?_⟩
  unfold decode_chunks
  cases fuel with
  | zero => rfl
  | succ fuel =>
    simp only [_decode_chunks]
    rw [if_pos (by decide)]
    have h := chunk_iteration_error_free loop_buffer
      (fun sn c => _decode_chunks loop_buffer fuel sn [] c 0)
      { data := 0, len := 20, parents := [], last_error := 0 } e []
      { level_size := 0, list_type := none } 0
    simp only at h
    rw [h, loop_list, loop_nested]
    rfl

/-! ## Cell chunks and the grid size (C23, C24) -/

theorem rle_loop_done_le (size : Nat) :
    ∀ (n : Nat) (rest written w : List Nat), written.length ≤ size →
      rle_loop size n rest written = .done w → w.length ≤ size := by
  intro n
  induction n using Nat.strong_induction_on with
  | _ n ih =>
    intro rest written w hw h
    match n, rest with
    | 0, _ =>
      simp only [rle_loop, RleRes.done.injEq] at h
      rw [← h]
      exact hw
    | _ + 1, [] => simp only [rle_loop, reduceCtorEq] at h
    | n + 1, c :: rest =>
      simp only [rle_loop] at h
      by_cases hc : c &&& 0x80 ≠ 0
      · rw [if_pos hc] at h
        by_cases hov : written.length + ((c &&& 0x7f) + 1) > size
        · rw [if_pos hov] at h
          exact absurd h (by simp)
        · rw [if_neg hov] at h
          match n, rest with
          | 0, _ => exact absurd h (by simp)
          | _ + 1, [] => exact absurd h (by simp)
          | m + 1, v :: rest2 =>
            simp only at h
            exact ih m (by omega) rest2 _ w
              (by simp only [List.length_append, List.length_replicate]; omega) h
      · rw [if_neg hc] at h
        by_cases hov : written.length + 1 > size
        · rw [if_pos hov] at h
          exact absurd h (by simp)
        · rw [if_neg hov] at h
          exact ih n (by omega) rest _ w
            (by simp only [List.length_append, List.length_singleton]; omega) h

theorem decode_cell_layer_grid {mem : List Nat} {s s' : State} {size : Nat}
    {v : Option (List Nat)} (h0 : s.last_error = 0)
    (h : decode_cell_layer mem s size = .ok v s') (h1 : 0 ≤ s'.last_error) :
    v.map List.length = some size := by
  unfold decode_cell_layer at h
  simp only at h
  have e1 : (advance s 1).last_error = 0 := by rw [advance_last_error, h0]
  rw [propagates_of_zero e1] at h
  simp only [Bool.false_eq_true, if_false] at h
  cases hct : rd8 mem s.data with
  | none => rw [hct] at h; exact absurd h (by simp)
  | some ct =>
    rw [hct] at h
    simp only at h
    by_cases c0 : ct = 0
    · rw [if_pos c0] at h
      have e2 : (advance (advance s 1) size).last_error = 0 := by
        rw [advance_last_error, e1]
      rw [propagates_of_zero e2] at h
      simp only [Bool.false_eq_true, if_false] at h
      cases hg : rdN mem (advance s 1).data size with
      | none => rw [hg] at h; exact absurd h (by simp)
      | some grid =>
        rw [hg] at h
        simp only [Res.ok.injEq] at h
        rw [← h.1, Option.map_some', (rdN_eq_some hg).1]
    · rw [if_neg c0] at h
      by_cases c1 : ct = 1
      · rw [if_pos c1] at h
        have e2 : (advance (advance s 1) 4).last_error = 0 := by
          rw [advance_last_error, e1]
        rw [propagates_of_zero e2] at h
        simp only [Bool.false_eq_true, if_false] at h
        cases hl : rd32 mem (advance s 1).data with
        | none => rw [hl] at h; exact absurd h (by simp)
        | some clen =>
          rw [hl] at h
          simp only at h
          have e3 : (advance (advance (advance s 1) 4) clen).last_error = 0 := by
            rw [advance_last_error, e2]
          rw [propagates_of_zero e3] at h
          simp only [Bool.false_eq_true, if_false] at h
          cases hr : rle_loop size clen (mem.drop (advance (advance s 1) 4).data) [] with
          | undefined => rw [hr] at h; exact absurd h (by simp)
          | error =>
            rw [hr] at h
            simp only [Res.ok.injEq] at h
            have hs := h.2
            rw [← hs] at h1
            simp only [e3, checkerr_code_zero] at h1
            have hbad : ¬ (0 : Int) ≤ RES_ERR := by decide
            exact absurd h1 hbad
          | done written =>
            rw [hr] at h
            simp only [Res.ok.injEq] at h
            have hle := rle_loop_done_le size clen _ [] written (Nat.zero_le _) hr
            rw [← h.1, Option.map_some', List.length_append, List.length_replicate]
            congr 1
            omega
      · rw [if_neg c1] at h
        by_cases c2 : ct = 2
        · rw [if_pos c2] at h
          simp only [Res.ok.injEq] at h
          rw [← h.1, Option.map_some', List.length_replicate]
        · rw [if_neg c2] at h
          simp only [Res.ok.injEq] at h
          have hs := h.2
          rw [← hs] at h1
          have hbad : ¬ (0 : Int) ≤ RES_BAD_INPUT := by decide
          exact absurd h1 hbad

theorem propagated_cell_layer_grid {mem : List Nat} {s s' : State} {size : Nat}
    {v : Option (List Nat)} (h0 : s.last_error = 0)
    (h : propagated (decode_cell_layer mem s size) = .ok v s') :
    decode_cell_layer mem s size = .ok v s' ∧ v.map List.length = some size ∧
      s'.last_error = 0 := by
  obtain ⟨hd, he⟩ := propagated_eq_ok.mp h
  exact ⟨hd, decode_cell_layer_grid h0 hd he,
    error_zero (decode_cell_layer_steps (by omega) hd) h0 he⟩

theorem decode_lvl_cell_chunk_layers {mem : List Nat} {s s' : State} {n : Nat}
    {r : Nat × RiffChunkLevelCell} (h0 : s.last_error = 0)
    (h : decode_lvl_cell_chunk mem s n = .ok r s') :
    (∃ s1 s2 s3 s4 s5,
      decode_cell_layer mem s n = .ok r.2.floor s1 ∧
      decode_cell_layer mem s1 n = .ok r.2.floor_orientation s2 ∧
      decode_cell_layer mem s2 n = .ok r.2.floor_color s3 ∧
      decode_cell_layer mem s3 n = .ok r.2.wall_north s4 ∧
      decode_cell_layer mem s4 n = .ok r.2.wall_west s5 ∧
      decode_cell_layer mem s5 n = .ok r.2.trail s') ∧
    r.2.cells_count = n ∧ CellSized r.2 := by
  unfold decode_lvl_cell_chunk at h
  simp only at h
  obtain ⟨g1, s1, h1, h⟩ := Res.bind_eq_ok.mp h
  obtain ⟨g2, s2, h2, h⟩ := Res.bind_eq_ok.mp h
  obtain ⟨g3, s3, h3, h⟩ := Res.bind_eq_ok.mp h
  obtain ⟨g4, s4, h4, h⟩ := Res.bind_eq_ok.mp h
  obtain ⟨g5, s5, h5, h⟩ := Res.bind_eq_ok.mp h
  obtain ⟨g6, s6, h6, h⟩ := Res.bind_eq_ok.mp h
  obtain ⟨d1, l1, e1⟩ := propagated_cell_layer_grid h0 h1
  obtain ⟨d2, l2, e2⟩ := propagated_cell_layer_grid e1 h2
  obtain ⟨d3, l3, e3⟩ := propagated_cell_layer_grid e2 h3
  obtain ⟨d4, l4, e4⟩ := propagated_cell_layer_grid e3 h4
  obtain ⟨d5, l5, e5⟩ := propagated_cell_layer_grid e4 h5
  obtain ⟨d6, l6, _⟩ := propagated_cell_layer_grid e5 h6
  simp only [Res.ok.injEq] at h
  obtain ⟨hr, hs⟩ := h
  subst hs
  subst hr
  exact ⟨⟨s1, s2, s3, s4, s5, d1, d2, d3, d4, d5, d6⟩, rfl, l1, l2, l3, l4, l5, l6⟩

theorem list_branch_node {mem : List Nat}
    {nested : State → DecodingContext → Res Decoded}
    {head : RiffChunkHeader} {s1 s2 : State} {ctx : DecodingContext} {dl : Nat}
    {r : Nat × GmmChunk × DecodingContext}
    (h : list_branch mem nested head s1 ctx dl = .ok r s2) :
    r.2.2 = ctx ∧ ∃ ckType children, r.2.1 = .list head ckType children := by
  unfold list_branch at h
  generalize subW32 head.ckSize 4 = list_len at h
  split at h
  · cases h
  split at h
  · cases h
  rename_i ckType hck
  simp only at h
  split at h
  · cases h
  by_cases hfit : list_len > (advance s1 4).len
  · rw [recursive_cursor_from_of_gt hfit] at h
    rw [if_pos (propagates_too_small _ _ _)] at h
    cases h
  · rw [recursive_cursor_from_of_le (by omega)] at h
    simp only at h
    split at h
    · cases h
    simp only [Res.bind_eq_ok] at h
    obtain ⟨rn, sn2, _, h⟩ := h
    split at h
    · cases h
    cases h
    exact ⟨rfl, ckType, rn.2.1, rfl⟩

theorem level_size_of_eq {c r n : Nat} (h : level_size_of c r = some n) :
    n = (c + 1) * (r + 1) := by
  unfold level_size_of at h
  split at h
  · cases h
  · cases h
    rfl

theorem chunk_dispatch_node {mem : List Nat}
    {nested : State → DecodingContext → Res Decoded} {tag : List Nat}
    {head : RiffChunkHeader} {s1 s2 : State} {ctx : DecodingContext} {dl : Nat}
    {r : Nat × GmmChunk × DecodingContext} (h0 : s1.last_error = 0)
    (h : chunk_dispatch mem nested tag head s1 ctx dl = .ok r s2) :
    r.2.2 = ctx_after ctx r.2.1 ∧
    (∀ hd c, r.2.1 = .lvl_cell hd c → c.cells_count = ctx.level_size ∧ CellSized c) ∧
    (tag = tag_cell → ∃ c, r.2.1 = .lvl_cell head c) := by
  unfold chunk_dispatch at h
  by_cases hi : ignore_this tag = true
  · rw [if_pos hi] at h
    simp only at h
    have htc : tag ≠ tag_cell := by
      intro e
      rw [e] at hi
      exact absurd hi (by decide)
    split at h
    · cases h
    · cases h
      exact ⟨rfl, fun _ _ hc => (by cases hc), fun e => absurd e htc⟩
  rw [if_neg hi] at h
  by_cases hl : tag = tag_LIST
  · rw [if_pos hl] at h
    have htc : tag ≠ tag_cell := by rw [hl]; decide
    obtain ⟨hctx, ckType, children, hnode⟩ := list_branch_node h
    rw [hctx, hnode]
    exact ⟨rfl, fun _ _ hc => (by cases hc), fun e => absurd e htc⟩
  rw [if_neg hl] at h
  by_cases h1 : tag = tag_prop
  · rw [if_pos h1] at h
    have htc : tag ≠ tag_cell := by rw [h1]; decide
    unfold prop_branch at h
    split at h
    · cases h
    rename_i lt hlt
    split at h
    · simp only [Res.bind_eq_ok] at h
      obtain ⟨_, s', -, h⟩ := h
      cases h
      exact ⟨rfl, fun _ _ hc => (by cases hc), fun e => absurd e htc⟩
    split at h
    · simp only [Res.bind_eq_ok] at h
      obtain ⟨rp, s', -, h⟩ := h
      split at h
      · cases h
      rename_i ls hls
      cases h
      refine ⟨?_, fun _ _ hc => (by cases hc), fun e => absurd e htc⟩
      simp only [ctx_after, level_size_of_eq hls]
    · cases h
      exact ⟨rfl, fun _ _ hc => (by cases hc), fun e => absurd e htc⟩
  rw [if_neg h1] at h
  by_cases h2 : tag = tag_coor
  · rw [if_pos h2] at h
    have htc : tag ≠ tag_cell := by rw [h2]; decide
    unfold coor_branch at h
    split at h
    · cases h
    split at h
    · simp only [Res.bind_eq_ok] at h
      obtain ⟨_, s', -, h⟩ := h
      cases h
      exact ⟨rfl, fun _ _ hc => (by cases hc), fun e => absurd e htc⟩
    split at h
    · simp only [Res.bind_eq_ok] at h
      obtain ⟨_, s', -, h⟩ := h
      cases h
      exact ⟨rfl, fun _ _ hc => (by cases hc), fun e => absurd e htc⟩
    · cases h
      exact ⟨rfl, fun _ _ hc => (by cases hc), fun e => absurd e htc⟩
  rw [if_neg h2] at h
  by_cases h3 : tag = tag_cell
  · rw [if_pos h3] at h
    simp only [Res.bind_eq_ok] at h
    obtain ⟨rc, s', hcell, h⟩ := h
    cases h
    have hc := decode_lvl_cell_chunk_layers h0 hcell
    refine ⟨rfl, fun hd c e => ?_, fun _ => ⟨rc.2, rfl⟩⟩
    simp only [GmmChunk.lvl_cell.injEq] at e
    rw [← e.2]
    exact hc.2
  rw [if_neg h3] at h
  by_cases h4 : tag = tag_anno
  · rw [if_pos h4] at h
    simp only [Res.bind_eq_ok] at h
    obtain ⟨_, s', -, h⟩ := h
    cases h
    exact ⟨rfl, fun _ _ hc => (by cases hc), fun e => absurd e h3⟩
  rw [if_neg h4] at h
  by_cases h5 : tag = tag_lnks
  · rw [if_pos h5] at h
    simp only [Res.bind_eq_ok] at h
    obtain ⟨_, s', -, h⟩ := h
    cases h
    exact ⟨rfl, fun _ _ hc => (by cases hc), fun e => absurd e h3⟩
  rw [if_neg h5] at h
  by_cases h6 : tag = tag_regn
  · rw [if_pos h6] at h
    simp only [Res.bind_eq_ok] at h
    obtain ⟨_, s', -, h⟩ := h
    cases h
    exact ⟨rfl, fun _ _ hc => (by cases hc), fun e => absurd e h3⟩
  rw [if_neg h6] at h
  cases h
  exact ⟨rfl, fun _ _ hc => (by cases hc), fun e => absurd e h3⟩

theorem chunk_iteration_node {mem : List Nat}
    {nested : State → DecodingContext → Res Decoded} {s0 s3 : State}
    {out : List GmmChunk} {ctx : DecodingContext} {dl : Nat} {r : Decoded}
    (h : chunk_iteration mem nested s0 out ctx dl = .ok r s3) :
    ∃ node, r.2.1 = out ++ [node] ∧ r.2.2 = ctx_after ctx node ∧
      (∀ hd c, node = .lvl_cell hd c → c.cells_count = ctx.level_size ∧ CellSized c) ∧
      ((mem.drop s0.data).take 4 = tag_cell → ∃ hd c, node = .lvl_cell hd c) := by
  unfold chunk_iteration at h
  simp only at h
  split at h
  · cases h
  split at h
  · cases h
  split at h
  · simp only [Res.bind_eq_ok] at h
    obtain ⟨r1, s2, h1, dl2, s3', _, h⟩ := h
    cases h
    have a := chunk_dispatch_node (by simp) h1
    exact ⟨r1.2.1, rfl, a.1, a.2.1, fun e => ⟨_, a.2.2 e⟩⟩
  · cases h

theorem scope_level_size_append (inherited : Nat) (nodes : List GmmChunk) (node : GmmChunk) :
    scope_level_size inherited (nodes ++ [node]) =
      (ctx_after { level_size := scope_level_size inherited nodes, list_type := none }
        node).level_size := by
  unfold scope_level_size
  rw [List.foldl_append]
  cases node <;> rfl

theorem ctx_after_level_size (ctx : DecodingContext) (lt : Option (List Nat))
    (node : GmmChunk) :
    (ctx_after ctx node).level_size =
      (ctx_after { level_size := ctx.level_size, list_type := lt } node).level_size := by
  cases node <;> rfl

theorem cells_follow_scope {mem : List Nat} (inherited : Nat) (fuel : Nat) :
    ∀ {s s' : State} {out : List GmmChunk} {ctx : DecodingContext} {dl : Nat} {r : Decoded},
      _decode_chunks mem fuel s out ctx dl = .ok r s' →
      ctx.level_size = scope_level_size inherited out →
      (∀ pre hd c post, out = pre ++ .lvl_cell hd c :: post →
        c.cells_count = scope_level_size inherited pre ∧ CellSized c) →
      ∀ pre hd c post, r.2.1 = pre ++ .lvl_cell hd c :: post →
        c.cells_count = scope_level_size inherited pre ∧ CellSized c := by
  induction fuel with
  | zero =>
    intro s s' out ctx dl r h
    simp only [_decode_chunks] at h
    cases h
  | succ fuel ih =>
    intro s s' out ctx dl r h hctx hout
    simp only [_decode_chunks] at h
    split at h
    · simp only [Res.bind_eq_ok] at h
      obtain ⟨r1, s1, h1, h2⟩ := h
      obtain ⟨node, hnode, hc, hcell, _⟩ := chunk_iteration_node h1
      refine ih h2 ?_ ?_
      · rw [hnode, scope_level_size_append, hc, ← hctx]
        exact ctx_after_level_size ctx none node
      · intro pre hd c post e
        rw [hnode] at e
        rcases List.eq_nil_or_concat post with hp | ⟨post1, x, hp⟩
        · subst hp
          have e2 := List.append_inj' e rfl
          have e3 : node = .lvl_cell hd c := by
            have := e2.2
            simp only [List.cons.injEq, and_true] at this
            exact this
          have := hcell hd c e3
          rw [← e2.1, ← hctx]
          exact this
        · subst hp
          have e1 : out ++ [node] = (pre ++ .lvl_cell hd c :: post1) ++ [x] := by
            rw [e]
            simp only [List.concat_eq_append, List.append_assoc, List.cons_append]
          have e2 := List.append_inj' e1 rfl
          exact hout pre hd c post1 e2.1
    · cases h
      exact hout

theorem scope_level_size_of_no_prop (nodes : List GmmChunk) :
    ∀ inherited : Nat, (∀ x ∈ nodes, is_lvl_prop x = false) →
      scope_level_size inherited nodes = inherited := by
  induction nodes with
  | nil => intro inherited _; rfl
  | cons x rest ih =>
    intro inherited h
    have hx := h x (List.mem_cons_self _ _)
    have hrest := ih inherited (fun y hy => h y (List.mem_cons_of_mem _ hy))
    unfold scope_level_size at hrest ⊢
    rw [List.foldl_cons]
    cases x <;> first | exact hrest | exact absurd hx (by simp [is_lvl_prop])

theorem scope_level_size_of_prop (inherited : Nat) (pre mid : List GmmChunk)
    (hp : RiffChunkHeader) (p : RiffChunkLevelProperties)
    (h : ∀ x ∈ mid, is_lvl_prop x = false) :
    scope_level_size inherited (pre ++ .lvl_prop hp p :: mid) =
      (p.num_columns + 1) * (p.num_rows + 1) := by
  have hm := scope_level_size_of_no_prop mid ((p.num_columns + 1) * (p.num_rows + 1)) h
  unfold scope_level_size at hm ⊢
  rw [List.foldl_append, List.foldl_cons]
  exact hm

theorem nested_calls_inherit (mem : List Nat)
    (nested1 nested2 : State → DecodingContext → Res Decoded) (s0 : State)
    (out : List GmmChunk) (ctx : DecodingContext) (dl : Nat)
    (h : ∀ sn lt, nested1 sn { level_size := ctx.level_size, list_type := lt } =
      nested2 sn { level_size := ctx.level_size, list_type := lt }) :
    chunk_iteration mem nested1 s0 out ctx dl = chunk_iteration mem nested2 s0 out ctx dl := by
  unfold chunk_iteration chunk_dispatch list_branch
  simp only [h]

theorem stream_outside_scope :
    _decode_chunks stream_outside_buffer 5
      { data := 12, len := 40, parents := [48], last_error := 0 } []
      { level_size := 0, list_type := some [108, 118, 108, 32] } 0 =
      .ok (40, [stream_outside_prop, stream_outside_cell],
           { level_size := 1, list_type := some [108, 118, 108, 32] })
        { data := 52, len := 0, parents := [8], last_error := 0 } := by
  have hprop : chunk_iteration stream_outside_buffer
      (fun sn c => _decode_chunks stream_outside_buffer 4 sn [] c 0)
      { data := 12, len := 40, parents := [48], last_error := 0 } []
      { level_size := 0, list_type := some [108, 118, 108, 32] } 0 =
      .ok (22, [stream_outside_prop], { level_size := 1, list_type := some [108, 118, 108, 32] })
        { data := 34, len := 18, parents := [26], last_error := 0 } := rfl
  have hcell : chunk_iteration stream_outside_buffer
      (fun sn c => _decode_chunks stream_outside_buffer 3 sn [] c 0)
      { data := 34, len := 18, parents := [26], last_error := 0 } [stream_outside_prop]
      { level_size := 1, list_type := some [108, 118, 108, 32] } 22 =
      .ok (40, [stream_outside_prop, stream_outside_cell],
           { level_size := 1, list_type := some [108, 118, 108, 32] })
        { data := 52, len := 0, parents := [8], last_error := 0 } := rfl
  rw [_decode_chunks_succ_of_ok (by decide) hprop,
    _decode_chunks_succ_of_ok (by decide) hcell, _decode_chunks_of_len_zero rfl]

/-- C23: a "cell" chunk that decodes is the outcome of six consecutive calls
of `decode_cell_layer` on the same cursor, each from the state the one
before left, in the order floor, floor_orientation, floor_color, wall_north,
wall_west, trail; all six grids are present and hold `cell_count` bytes, and
`cells_count` is `cell_count`.  In the nodes of one call of `_decode_chunks`
(one list scope), a `LevelCell` node that follows a `LevelProperties` node
with no other `LevelProperties` node in between has the grid size
`(num_columns + 1) * (num_rows + 1)` of that node. -/
theorem cell_chunk_six_grids (mem : List Nat) :
    (∀ s n r s', s.last_error = 0 → decode_lvl_cell_chunk mem s n = .ok r s' →
      (∃ s1 s2 s3 s4 s5,
        decode_cell_layer mem s n = .ok r.2.floor s1 ∧
        decode_cell_layer mem s1 n = .ok r.2.floor_orientation s2 ∧
        decode_cell_layer mem s2 n = .ok r.2.floor_color s3 ∧
        decode_cell_layer mem s3 n = .ok r.2.wall_north s4 ∧
        decode_cell_layer mem s4 n = .ok r.2.wall_west s5 ∧
        decode_cell_layer mem s5 n = .ok r.2.trail s') ∧
      r.2.cells_count = n ∧ CellSized r.2) ∧
    (∀ fuel s ctx r s', _decode_chunks mem fuel s [] ctx 0 = .ok r s' →
      ∀ pre hp p mid hd c post,
        r.2.1 = (pre ++ .lvl_prop hp p :: mid) ++ .lvl_cell hd c :: post →
        (∀ x ∈ mid, is_lvl_prop x = false) →
        c.cells_count = (p.num_columns + 1) * (p.num_rows + 1) ∧ CellSized c) := by
  refine ⟨fun s n r s' h0 h => decode_lvl_cell_chunk_layers h0 h, ?_⟩
  intro fuel s ctx r s' h pre hp p mid hd c post hr hmid
  have := cells_follow_scope ctx.level_size fuel h rfl
    (fun pre hd c post e => absurd e (by simp)) _ hd c post hr
  rw [scope_level_size_of_prop _ _ _ _ _ hmid] at this
  exact this

theorem cell_chunk_six_grids_witness :
    (1 : Nat) = (0 + 1) * (0 + 1) ∧
    CellSized { floor := some [0], floor_orientation := some [0], floor_color := some [0],
                wall_north := some [0], wall_west := some [0], trail := some [5],
                cells_count := 1 } :=
  (cell_chunk_six_grids stream_outside_buffer).2 5
    { data := 12, len := 40, parents := [48], last_error := 0 }
    { level_size := 0, list_type := some [108, 118, 108, 32] }
    (40, [stream_outside_prop, stream_outside_cell],
      { level_size := 1, list_type := some [108, 118, 108, 32] })
    { data := 52, len := 0, parents := [8], last_error := 0 }
    stream_outside_scope []
    { ckId := [112, 114, 111, 112], ckSize := 13 }
    { location_name := some [0], level_name := some [0], elevation := 0,
      num_rows := 0, num_columns := 0, override_coord_opts := 0, notes := some [0] }
    []
    { ckId := [99, 101, 108, 108], ckSize := 10 }
    { floor := some [0], floor_orientation := some [0], floor_color := some [0],
      wall_north := some [0], wall_west := some [0], trail := some [5],
      cells_count := 1 }
    [] rfl (fun _ hx => absurd hx (List.not_mem_nil _))

theorem sibling_second_scope :
    _decode_chunks sibling_buffer 2
      { data := 46, len := 14, parents := [14], last_error := 0 } []
      { level_size := 0, list_type := some [108, 118, 108, 32] } 0 =
      .ok (14, [sibling_cell], { level_size := 0, list_type := some [108, 118, 108, 32] })
        { data := 60, len := 0, parents := [0], last_error := 0 } := by
  have hcell : chunk_iteration sibling_buffer
      (fun sn c => _decode_chunks sibling_buffer 1 sn [] c 0)
      { data := 46, len := 14, parents := [14], last_error := 0 } []
      { level_size := 0, list_type := some [108, 118, 108, 32] } 0 =
      .ok (14, [sibling_cell], { level_size := 0, list_type := some [108, 118, 108, 32] })
        { data := 60, len := 0, parents := [0], last_error := 0 } := rfl
  rw [_decode_chunks_succ_of_ok (by decide) hcell, _decode_chunks_of_len_zero rfl]

/-- C24 as stated fails: in `sibling_buffer` the second "lvl " list holds
a "cell" chunk and no "prop" chunk.  The file decodes, and the "cell" chunk
yields six empty grids. -/
theorem cell_without_prop_decodes :
    decode_chunks 4 { length := 60, data := sibling_buffer } 0 =
      .ok [sibling_first, sibling_second]
        { data := 60, len := 0, parents := [], last_error := 0 } := by
  have hfirst : _decode_chunks sibling_buffer 3
      { data := 12, len := 22, parents := [48], last_error := 0 } []
      { level_size := 0, list_type := some [108, 118, 108, 32] } 0 =
      .ok (22, [.lvl_prop { ckId := [112, 114, 111, 112], ckSize := 13 }
            { location_name := some [0], level_name := some [0], elevation := 0,
              num_rows := 4, num_columns := 4, override_coord_opts := 0,
              notes := some [0] }],
           { level_size := 25, list_type := some [108, 118, 108, 32] })
        { data := 34, len := 0, parents := [26], last_error := 0 } := by
    have hprop : chunk_iteration sibling_buffer
        (fun sn c => _decode_chunks sibling_buffer 2 sn [] c 0)
        { data := 12, len := 22, parents := [48], last_error := 0 } []
        { level_size := 0, list_type := some [108, 118, 108, 32] } 0 =
        .ok (22, [.lvl_prop { ckId := [112, 114, 111, 112], ckSize := 13 }
              { location_name := some [0], level_name := some [0], elevation := 0,
                num_rows := 4, num_columns := 4, override_coord_opts := 0,
                notes := some [0] }],
             { level_size := 25, list_type := some [108, 118, 108, 32] })
          { data := 34, len := 0, parents := [26], last_error := 0 } := rfl
    rw [_decode_chunks_succ_of_ok (by decide) hprop, _decode_chunks_of_len_zero rfl]
  have hlist1 : chunk_iteration sibling_buffer
      (fun sn c => _decode_chunks sibling_buffer 3 sn [] c 0)
      { data := 0, len := 60, parents := [], last_error := 0 } []
      { level_size := 0, list_type := none } 0 =
      .ok (12, [sibling_first], { level_size := 0, list_type := none })
        { data := 34, len := 26, parents := [], last_error := 0 } := by
    rw [chunk_iteration_list sibling_buffer
      (fun sn c => _decode_chunks sibling_buffer 3 sn [] c 0)
      { data := 0, len := 60, parents := [], last_error := 0 }
      { data := 34, len := 0, parents := [26], last_error := 0 }
      { data := 34, len := 26, parents := [], last_error := 0 } []
      { level_size := 0, list_type := none } 0 26 [76, 73, 83, 84] [108, 118, 108, 32]
      (22, [.lvl_prop { ckId := [112, 114, 111, 112], ckSize := 13 }
            { location_name := some [0], level_name := some [0], elevation := 0,
              num_rows := 4, num_columns := 4, override_coord_opts := 0,
              notes := some [0] }],
        { level_size := 25, list_type := some [108, 118, 108, 32] })
      rfl rfl rfl rfl (by decide) (by decide) hfirst rfl]
    rfl
  have hlist2 : chunk_iteration sibling_buffer
      (fun sn c => _decode_chunks sibling_buffer 2 sn [] c 0)
      { data := 34, len := 26, parents := [], last_error := 0 } [sibling_first]
      { level_size := 0, list_type := none } 12 =
      .ok (24, [sibling_first, sibling_second], { level_size := 0, list_type := none })
        { data := 60, len := 0, parents := [], last_error := 0 } := by
    rw [chunk_iteration_list sibling_buffer
      (fun sn c => _decode_chunks sibling_buffer 2 sn [] c 0)
      { data := 34, len := 26, parents := [], last_error := 0 }
      { data := 60, len := 0, parents := [0], last_error := 0 }
      { data := 60, len := 0, parents := [], last_error := 0 } [sibling_first]
      { level_size := 0, list_type := none } 12 18 [76, 73, 83, 84] [108, 118, 108, 32]
      (14, [sibling_cell], { level_size := 0, list_type := some [108, 118, 108, 32] })
      rfl rfl rfl rfl (by decide) (by decide) sibling_second_scope rfl]
    rfl
  unfold decode_chunks
  rw [_decode_chunks_succ_of_ok (by decide) hlist1,
    _decode_chunks_succ_of_ok (by decide) hlist2, _decode_chunks_of_len_zero rfl]
  rfl

/-- C24 amended: a "cell" chunk is decoded whether or not a "prop" chunk
precedes it.  In one call of `_decode_chunks` (one list scope), a `LevelCell`
node with no `LevelProperties` node before it has six grids of the grid size
the call was entered with, and a pass through the loop hands to the nested
call of a "LIST" chunk the grid size of its own context, which is 0 in the
context of `decode_chunks`. -/
theorem cell_uses_inherited_size (mem : List Nat) :
    (∀ fuel s ctx r s', _decode_chunks mem fuel s [] ctx 0 = .ok r s' →
      ∀ pre hd c post, r.2.1 = pre ++ .lvl_cell hd c :: post →
        (∀ x ∈ pre, is_lvl_prop x = false) →
        c.cells_count = ctx.level_size ∧ CellSized c) ∧
    (∀ (nested1 nested2 : State → DecodingContext → Res Decoded) s0 out
        (ctx : DecodingContext) dl,
      (∀ sn lt, nested1 sn { level_size := ctx.level_size, list_type := lt } =
        nested2 sn { level_size := ctx.level_size, list_type := lt }) →
      chunk_iteration mem nested1 s0 out ctx dl =
        chunk_iteration mem nested2 s0 out ctx dl) := by
  refine ⟨?_, fun nested1 nested2 s0 out ctx dl h =>
    nested_calls_inherit mem nested1 nested2 s0 out ctx dl h⟩
  intro fuel s ctx r s' h pre hd c post hr hpre
  have := cells_follow_scope ctx.level_size fuel h rfl
    (fun pre hd c post e => absurd e (by simp)) pre hd c post hr
  rw [scope_level_size_of_no_prop pre _ hpre] at this
  exact this

theorem cell_uses_inherited_size_witness :
    (0 : Nat) = 0 ∧
    CellSized { floor := some [], floor_orientation := some [], floor_color := some [],
                wall_north := some [], wall_west := some [], trail := some [],
                cells_count := 0 } :=
  (cell_uses_inherited_size sibling_buffer).1 2
    { data := 46, len := 14, parents := [14], last_error := 0 }
    { level_size := 0, list_type := some [108, 118, 108, 32] }
    (14, [sibling_cell], { level_size := 0, list_type := some [108, 118, 108, 32] })
    { data := 60, len := 0, parents := [0], last_error := 0 }
    sibling_second_scope []
    { ckId := [99, 101, 108, 108], ckSize := 6 }
    { floor := some [], floor_orientation := some [], floor_color := some [],
      wall_north := some [], wall_west := some [], trail := some [],
      cells_count := 0 }
    [] rfl (fun _ hx => absurd hx (List.not_mem_nil _))

/-! ## The value `_decode_chunks` returns (C31) -/

/-- C31 at failing inputs: on the buffer of one "disp" chunk of size 3 the
run succeeds, the cursor moves by 12 bytes and the value returned is 9, the
body of the ignored chunk not being counted; on the buffer of one "LIST"
chunk of size 26 the run succeeds, the cursor moves by 34 bytes and the value
returned is 12, the header and the type of the list, what the nested call
returns being dropped. -/
theorem decoded_length_undercounts :
    _decode_chunks disp_buffer 2
      { data := 0, len := 12, parents := [], last_error := 0 } []
      { level_size := 0, list_type := none } 0 =
      .ok (9, [.unknown { ckId := [100, 105, 115, 112], ckSize := 3 }],
           { level_size := 0, list_type := none })
        { data := 12, len := 0, parents := [], last_error := 0 } ∧
    (9 : Nat) ≠ 12 - 0 ∧
    _decode_chunks lvl_list_buffer 4
      { data := 0, len := 34, parents := [], last_error := 0 } []
      { level_size := 0, list_type := none } 0 =
      .ok (12, [lvl_list_node], { level_size := 0, list_type := none })
        { data := 34, len := 0, parents := [], last_error := 0 } ∧
    (12 : Nat) ≠ 34 - 0 := by
  have hlist : chunk_iteration lvl_list_buffer
      (fun sn c => _decode_chunks lvl_list_buffer 3 sn [] c 0)
      { data := 0, len := 34, parents := [], last_error := 0 } []
      { level_size := 0, list_type := none } 0 =
      .ok (12, [lvl_list_node], { level_size := 0, list_type := none })
        { data := 34, len := 0, parents := [], last_error := 0 } := rfl
  refine ⟨rfl, by decide, ?_, by decide⟩
  rw [_decode_chunks_succ_of_ok (by decide) hlist, _decode_chunks_of_len_zero rfl]

/-! ## A "LIST" chunk shorter than its type (C32) -/

theorem subW32_of_lt {a b : Nat} (h : a < b) : subW32 a b = a + U32_MOD - b := by
  unfold subW32
  rw [if_neg (by omega)]

theorem list_branch_short (mem : List Nat)
    (nested : State → DecodingContext → Res Decoded) (head : RiffChunkHeader)
    (s1 : State) (ctx : DecodingContext) (dl : Nat) (ckType : List Nat)
    (h0 : s1.last_error = 0) (hlen : 4 ≤ s1.len)
    (hty : strncpy (mem.drop s1.data) 4 = some ckType)
    (hbig : s1.len - 4 < subW32 head.ckSize 4) :
    list_branch mem nested head s1 ctx dl = .exit RES_BUFFER_TOO_SMALL := by
  have he : (advance s1 4).last_error = 0 := by rw [advance_last_error, h0]
  have hl : (advance s1 4).len = s1.len - 4 := by rw [advance_of_le hlen]
  unfold list_branch
  rw [if_neg (by omega), hty]
  simp only
  rw [propagates_of_zero he, recursive_cursor_from_of_gt (by rw [hl]; exact hbig)]
  simp only [Bool.false_eq_true, if_false]
  rw [if_pos (propagates_too_small _ _ _)]

theorem chunk_iteration_short_list {mem : List Nat}
    (nested : State → DecodingContext → Res Decoded) {s0 : State}
    (out : List GmmChunk) (ctx : DecodingContext) (dl : Nat) {ckSize : Nat}
    {ckId ckType : List Nat}
    (hid : strncpy (mem.drop s0.data) 4 = some ckId)
    (hsize : rd32 mem (s0.data + 4) = some ckSize)
    (htag : (mem.drop s0.data).take 4 = tag_LIST)
    (hty : strncpy (mem.drop (s0.data + 8)) 4 = some ckType)
    (hsmall : ckSize < 4) (hlen : s0.len < U32_MOD - 4) :
    chunk_iteration mem nested s0 out ctx dl =
      .exit (if s0.len < 4 ∨ (8 ≤ s0.len ∧ s0.len < 12) then RES_ERR
             else RES_BUFFER_TOO_SMALL) := by
  have hi : ignore_this tag_LIST = false := by decide
  have hw : subW32 ckSize 4 = ckSize + U32_MOD - 4 := subW32_of_lt (by omega)
  have he : (advance { s0 with last_error := 0 } 8).last_error = 0 := by
    rw [advance_last_error]
  unfold chunk_iteration
  simp only
  by_cases h4 : s0.len < 4
  · rw [if_pos h4, if_pos (Or.inl h4)]
    rfl
  rw [if_neg h4, propagates_of_zero he]
  simp only [Bool.false_eq_true, if_false, hid, hsize, htag]
  unfold chunk_dispatch
  rw [hi]
  simp only [Bool.false_eq_true, if_false, if_true]
  by_cases h8 : s0.len < 8
  · have hadv : advance { s0 with last_error := 0 } 8 = { s0 with last_error := 0 } :=
      advance_of_lt (by simp only; omega)
    have hb := list_branch_short mem nested { ckId := ckId, ckSize := ckSize }
      { s0 with last_error := 0 } ctx (addW dl 8) ckId rfl (by simp only; omega) hid
      (by simp only; rw [hw]; omega)
    rw [hadv, hb, if_neg (by omega)]
    rfl
  have hadv := advance_of_le (s := { s0 with last_error := 0 }) (d := 8)
    (by simp only; omega)
  by_cases h12 : s0.len < 12
  · rw [if_pos (Or.inr ⟨by omega, h12⟩)]
    unfold list_branch
    rw [if_pos (by rw [hadv]; simp only; omega), he]
    rfl
  · rw [if_neg (by omega)]
    have hb := list_branch_short mem nested { ckId := ckId, ckSize := ckSize }
      (advance { s0 with last_error := 0 } 8) ctx (addW dl 8) ckType he
      (by rw [hadv]; simp only; omega) (by rw [hadv]; exact hty)
      (by rw [hadv]; simp only; rw [hw]; omega)
    rw [hb]
    rfl

/-- C32: for a "LIST" chunk whose declared size is below 4 the length of the
nested cursor, `ckSize - 4` in unsigned 32-bit arithmetic, is
`ckSize + 2^32 - 4`; on every cursor with fewer than `2^32 - 4` bytes
`recursive_cursor_from` returns the null cursor for it and sets
`RES_BUFFER_TOO_SMALL`, and the pass through the loop on such a chunk, and
with it `_decode_chunks`, ends in `exit` for every nested call: with
`RES_BUFFER_TOO_SMALL` when the header and the type of the list lie inside
the cursor, and never with a list node. -/
theorem short_list_rejected (mem : List Nat) (s0 : State) (out : List GmmChunk)
    (ctx : DecodingContext) (dl ckSize : Nat) (ckId ckType : List Nat)
    (hid : strncpy (mem.drop s0.data) 4 = some ckId)
    (hsize : rd32 mem (s0.data + 4) = some ckSize)
    (htag : (mem.drop s0.data).take 4 = tag_LIST)
    (hty : strncpy (mem.drop (s0.data + 8)) 4 = some ckType)
    (hsmall : ckSize < 4) (hlen : s0.len < U32_MOD - 4) :
    subW32 ckSize 4 = ckSize + U32_MOD - 4 ∧
    (∀ s : State, s.len < U32_MOD - 4 →
      recursive_cursor_from s (subW32 ckSize 4) =
        (none, { s with last_error := RES_BUFFER_TOO_SMALL })) ∧
    ∃ e : Int, e < 0 ∧ (12 ≤ s0.len → e = RES_BUFFER_TOO_SMALL) ∧
      (∀ nested, chunk_iteration mem nested s0 out ctx dl = .exit e) ∧
      (0 < s0.len → ∀ fuel, _decode_chunks mem (fuel + 1) s0 out ctx dl = .exit e) := by
  have hw : subW32 ckSize 4 = ckSize + U32_MOD - 4 := subW32_of_lt (by omega)
  refine ⟨hw, fun s hs => recursive_cursor_from_of_gt (by rw [hw]; omega), ?_⟩
  refine ⟨if s0.len < 4 ∨ (8 ≤ s0.len ∧ s0.len < 12) then RES_ERR
    else RES_BUFFER_TOO_SMALL, ?_, ?_, ?_, ?_⟩
  · split <;> decide
  · intro h12
    rw [if_neg (by omega)]
  · intro nested
    exact chunk_iteration_short_list nested out ctx dl hid hsize htag hty hsmall hlen
  · intro hpos fuel
    simp only [_decode_chunks]
    rw [if_pos hpos,
      chunk_iteration_short_list _ out ctx dl hid hsize htag hty hsmall hlen]
    rfl

theorem short_list_rejected_witness :
    subW32 0 4 = 0 + U32_MOD - 4 ∧
    (∀ s : State, s.len < U32_MOD - 4 →
      recursive_cursor_from s (subW32 0 4) =
        (none, { s with last_error := RES_BUFFER_TOO_SMALL })) ∧
    ∃ e : Int, e < 0 ∧ ((12 : Nat) ≤ 16 → e = RES_BUFFER_TOO_SMALL) ∧
      (∀ nested, chunk_iteration short_list_buffer nested
        { data := 0, len := 16, parents := [], last_error := 0 } []
        { level_size := 0, list_type := none } 0 = .exit e) ∧
      ((0 : Nat) < 16 → ∀ fuel, _decode_chunks short_list_buffer (fuel + 1)
        { data := 0, len := 16, parents := [], last_error := 0 } []
        { level_size := 0, list_type := none } 0 = .exit e) :=
  short_list_rejected short_list_buffer
    { data := 0, len := 16, parents := [], last_error := 0 } []
    { level_size := 0, list_type := none } 0 0 [76, 73, 83, 84] [108, 118, 108, 32]
    rfl rfl rfl rfl (by decide) (by unfold U32_MOD; decide)

/-! ## Ordered cursor chains (C33) -/

theorem chain_ordered_cons {len p : Nat} {ps : List Nat} :
    chain_ordered len (p :: ps) = true ↔ len ≤ p ∧ chain_ordered p ps = true := by
  simp only [chain_ordered, Bool.and_eq_true, decide_eq_true_eq]

theorem chain_ordered_le {len : Nat} {ps : List Nat} (h : chain_ordered len ps = true) :
    ∀ l ∈ ps, len ≤ l := by
  induction ps generalizing len with
  | nil => intro l hl; exact absurd hl (List.not_mem_nil _)
  | cons p ps ih =>
    obtain ⟨h1, h2⟩ := chain_ordered_cons.mp h
    intro l hl
    rcases List.mem_cons.mp hl with e | hm
    · rw [e]; exact h1
    · exact Nat.le_trans h1 (ih h2 l hm)

theorem chain_ordered_sub {len d : Nat} {ps : List Nat} (hd : d ≤ len)
    (h : chain_ordered len ps = true) :
    chain_ordered (len - d) (ps.map (fun l => subW l d)) = true ∧
    ps.map (fun l => subW l d) = ps.map (fun l => l - d) := by
  induction ps generalizing len with
  | nil => exact ⟨rfl, rfl⟩
  | cons p ps ih =>
    obtain ⟨h1, h2⟩ := chain_ordered_cons.mp h
    obtain ⟨i1, i2⟩ := ih (Nat.le_trans hd h1) h2
    have hs : subW p d = p - d := subW_of_le (Nat.le_trans hd h1)
    simp only [List.map_cons, hs]
    refine ⟨chain_ordered_cons.mpr ⟨by omega, i1⟩, ?_⟩
    rw [i2]

theorem advance_cursor_ordered {s : State} {d : Nat} (h : ChainOrdered s) :
    ChainOrdered (advance_cursor s d).2 := by
  unfold advance_cursor
  by_cases hd : s.len < d
  · rw [if_pos hd]
    exact h
  · rw [if_neg hd]
    exact (chain_ordered_sub (by omega) h).1

theorem recursive_cursor_from_ordered {s sn s1 : State} {n : Nat} (h : ChainOrdered s)
    (hr : recursive_cursor_from s n = (some sn, s1)) :
    ChainOrdered sn ∧ sn.len ≤ s.len ∧ sn.parents = s.len :: s.parents := by
  unfold recursive_cursor_from at hr
  by_cases hn : n > s.len
  · rw [if_pos hn] at hr
    simp only [Prod.mk.injEq, reduceCtorEq, false_and] at hr
  · rw [if_neg hn] at hr
    simp only [Prod.mk.injEq, Option.some.injEq] at hr
    rw [← hr.1]
    exact ⟨chain_ordered_cons.mpr ⟨by simp only; omega, h⟩, by simp only; omega, rfl⟩

theorem leave_nested_ordered {sn s : State} (h : ChainOrdered sn)
    (hl : leave_nested sn = some s) : ChainOrdered s := by
  unfold leave_nested at hl
  unfold ChainOrdered at h
  cases hp : sn.parents with
  | nil => rw [hp] at hl; exact absurd hl (by simp)
  | cons p ps =>
    rw [hp] at hl h
    simp only [Option.some.injEq] at hl
    rw [← hl]
    exact (chain_ordered_cons.mp h).2

theorem cursor_chain_is_ordered {s : State} (h : CursorChain s) : ChainOrdered s := by
  induction h with
  | root data len e => rfl
  | child n _ hr ih => exact (recursive_cursor_from_ordered ih hr).1
  | advanced delta _ ih => exact advance_cursor_ordered ih
  | error e _ ih => exact ih
  | leave _ hl ih => exact leave_nested_ordered ih hl

theorem Steps.cursor_chain {s s' : State} (h : Steps s s') :
    CursorChain s → CursorChain s' := by
  induction h with
  | refl s => exact fun hc => hc
  | adv d _ _ ih => exact fun hc => ih (CursorChain.advanced d hc)
  | err e _ _ ih => exact fun hc => ih (CursorChain.error e hc)

/-- C33: every cursor a run can hold, from the root cursor through
`recursive_cursor_from`, `advance_cursor` and the return from a nested call,
has an ordered chain: its remaining length is at most that of its parent, and
so on up to the root.  `recursive_cursor_from` yields an ordered chain from an
ordered one, the new cursor being no longer than the one it was made from; a
successful `advance_cursor` on an ordered chain takes `delta` off every
length of the chain without wrap-around, `delta` being at most each of them,
and leaves the chain ordered; and the cursor a successful `_decode_chunks`
leaves behind is again one of these cursors. -/
theorem cursor_chain_ordering :
    (∀ s, CursorChain s → ChainOrdered s) ∧
    (∀ s n sn s1, ChainOrdered s → recursive_cursor_from s n = (some sn, s1) →
      ChainOrdered sn ∧ sn.len ≤ s.len ∧ sn.parents = s.len :: s.parents) ∧
    (∀ s delta, ChainOrdered s → delta ≤ s.len →
      advance_cursor s delta =
        (RES_OK, { data := s.data + delta, len := s.len - delta,
                   parents := s.parents.map (fun l => l - delta),
                   last_error := s.last_error }) ∧
      (∀ l ∈ s.parents, delta ≤ l) ∧
      ChainOrdered (advance_cursor s delta).2) ∧
    (∀ mem fuel s out ctx dl r s', CursorChain s →
      _decode_chunks mem fuel s out ctx dl = .ok r s' → CursorChain s') := by
  refine ⟨fun s h => cursor_chain_is_ordered h,
    fun s n sn s1 h hr => recursive_cursor_from_ordered h hr, ?_, ?_⟩
  · intro s delta h hd
    refine ⟨?_, fun l hl => Nat.le_trans hd (chain_ordered_le h l hl),
      advance_cursor_ordered h⟩
    unfold advance_cursor
    rw [if_neg (by omega), (chain_ordered_sub hd h).2]
  · intro mem fuel s out ctx dl r s' hc h
    exact (_decode_chunks_steps fuel h).1.cursor_chain hc

theorem cursor_chain_ordering_witness :
    advance_cursor chain_state 10 =
      (RES_OK, { data := 4 + 10, len := 10 - 10,
                 parents := [12, 30].map (fun l => l - 10), last_error := 0 }) ∧
    (∀ l ∈ [12, 30], 10 ≤ l) ∧
    ChainOrdered (advance_cursor chain_state 10).2 :=
  cursor_chain_ordering.2.2.1 chain_state 10 (by unfold ChainOrdered; decide) (by decide)

/-! ## A "prop" or "coor" chunk outside of any list (C3) -/

/-- C3 at a failing input: for a "prop" or a "coor" chunk that stands outside
of any list the claim promises a `GMM_UNKNOWN` node, the list type being
none of "map " and "lvl ".  The context of `decode_chunks` has the list type
`NULL`, which `strncmp` is then called on: the run has no defined outcome and
produces no node.  And the tag a node captures is the `strncpy` of the tag:
of the tag 'a', NUL, 'b', 'c' the node keeps 'a' and three NUL. -/
theorem top_level_prop_undefined :
    expected_ctype tag_prop none = .GMM_UNKNOWN ∧
    expected_ctype tag_coor none = .GMM_UNKNOWN ∧
    (∀ fuel e, decode_chunks (fuel + 1) { length := 8, data := top_prop_buffer } e =
      .undefined) ∧
    (∀ fuel e, decode_chunks (fuel + 1) { length := 8, data := top_coor_buffer } e =
      .undefined) ∧
    (∀ nested out dl,
      chunk_iteration top_prop_buffer nested
        { data := 0, len := 8, parents := [], last_error := 0 } out
        { level_size := 0, list_type := none } dl = .undefined) ∧
    decode_chunks 2 { length := 8, data := nul_tag_buffer } 0 =
      .ok [.unknown { ckId := [97, 0, 0, 0], ckSize := 0 }]
        { data := 8, len := 0, parents := [], last_error := 0 } := by
  have hprop : ∀ (nested : State → DecodingContext → Res Decoded) (e : Int)
      (out : List GmmChunk) (dl : Nat),
      chunk_iteration top_prop_buffer nested
        { data := 0, len := 8, parents := [], last_error := e } out
        { level_size := 0, list_type := none } dl = .undefined :=
    fun _ _ _ _ => rfl
  have hcoor : ∀ (nested : State → DecodingContext → Res Decoded) (e : Int)
      (out : List GmmChunk) (dl : Nat),
      chunk_iteration top_coor_buffer nested
        { data := 0, len := 8, parents := [], last_error := e } out
        { level_size := 0, list_type := none } dl = .undefined :=
    fun _ _ _ _ => rfl
  refine ⟨by decide, by decide, fun fuel e => ?_, fun fuel e => ?_,
    fun nested out dl => hprop nested 0 out dl, rfl⟩
  · unfold decode_chunks
    simp only [_decode_chunks]
    rw [if_pos (by decide), hprop]
    rfl
  · unfold decode_chunks
    simp only [_decode_chunks]
    rw [if_pos (by decide), hcoor]
    rfl

/-! ## Bytes read after the buffer (C28) -/

/-- C28 at a failing input: the payload of `junk_file` is the four bytes
"junk", which is all `read_riff` keeps.  The loop reads a header of eight
bytes from it, the last four from the memory after the buffer, so the run has
no outcome defined by the bytes of the file; with the bytes 4, 0, 0, 0 after
the buffer the run returns a forest of one node, with the bytes 2, 0, 0, 0
there it fails, the bytes of the buffer being the same in both runs. -/
theorem decoding_reads_past_buffer :
    read_riff junk_file = some { length := 4, data := junk_memory [] } ∧
    (∀ fuel e, decode_chunks (fuel + 1) { length := 4, data := junk_memory [] } e =
      .undefined) ∧
    (junk_memory [4, 0, 0, 0]).take 4 = (junk_memory [2, 0, 0, 0]).take 4 ∧
    decode_chunks 2 { length := 4, data := junk_memory [4, 0, 0, 0] } 0 =
      .ok [.unknown { ckId := [106, 117, 110, 107], ckSize := 4 }]
        { data := 4, len := 0, parents := [], last_error := 0 } ∧
    decode_chunks 2 { length := 4, data := junk_memory [2, 0, 0, 0] } 0 =
      .exit RES_ERR := by
  have hiter : ∀ (nested : State → DecodingContext → Res Decoded) (e : Int),
      chunk_iteration (junk_memory []) nested
        { data := 0, len := 4, parents := [], last_error := e } []
        { level_size := 0, list_type := none } 0 = .undefined :=
    fun _ _ => rfl
  refine ⟨rfl, fun fuel e => ?_, rfl, rfl, rfl⟩
  unfold decode_chunks
  simp only [_decode_chunks]
  rw [if_pos (by decide), hiter]
  rfl

end Gmm
